import Mathlib

/-!
Diagnostic retrieval of the Trino ODBC driver.

A shallow embedding of `SQLGetDiagRec` (src/driver/getDiagRec.cpp) and of
`TrinoOdbcErrorHandler::OdbcErrorToString`
(src/trinoAPIWrapper/TrinoOdbcErrorHandler.cpp), together with theorems about
the line-aligned chunking of a stored statement error.

Conventions of the embedding:
* a `std::string` is a list of bytes, `Str`;
* `size_t` values are naturals; the chunk counter wraps modulo `2 ^ 64`,
  string sizes never come near that bound and are left unreduced;
* an output pointer is an `Option`: `none` is the null pointer, `some v` a
  supplied slot that currently holds `v`;
* the message buffer is a list of bytes (the memory the caller allocated) and
  every byte store into it is also recorded, in program order, as a pair of
  index and byte.
-/

namespace TrinoOdbc

/-- A `std::string`: a sequence of bytes. -/
abbrev Str := List Char

/-- ODBC return code `SQL_SUCCESS` (sql.h). -/
def SQL_SUCCESS : Int := 0
/-- ODBC return code `SQL_SUCCESS_WITH_INFO` (sql.h). -/
def SQL_SUCCESS_WITH_INFO : Int := 1
/-- ODBC return code `SQL_NO_DATA` (sql.h). -/
def SQL_NO_DATA : Int := 100
/-- ODBC return code `SQL_ERROR` (sql.h). -/
def SQL_ERROR : Int := -1

/-- Handle type `SQL_HANDLE_ENV` (sql.h). -/
def SQL_HANDLE_ENV : Int := 1
/-- Handle type `SQL_HANDLE_DBC` (sql.h). -/
def SQL_HANDLE_DBC : Int := 2
/-- Handle type `SQL_HANDLE_STMT` (sql.h). -/
def SQL_HANDLE_STMT : Int := 3
/-- Handle type `SQL_HANDLE_DESC` (sql.h). -/
def SQL_HANDLE_DESC : Int := 4

/-- The NUL byte that terminates a C string. -/
def NUL : Char := '\x00'

/-- Range of the 16-bit signed `SQLSMALLINT`. -/
def isSmallInt (x : Int) : Prop := -32768 ≤ x ∧ x ≤ 32767

instance (x : Int) : Decidable (isSmallInt x) := by
  unfold isSmallInt; infer_instance

/-- The conversion `static_cast<SQLSMALLINT>(n)` of a `size_t`. -/
def toSmallInt (n : Nat) : Int := ((n : Int) + 32768) % 65536 - 32768

/-- The conversion `static_cast<size_t>(x)` of a signed integer. -/
def toSizeT (x : Int) : Nat := (x % 18446744073709551616).toNat

/-- `TrinoOdbcErrorHandler::OdbcError` (TrinoOdbcErrorHandler.hpp). -/
structure OdbcError where
  ret : Int
  sqlstate : Str
  native : Int
  message : Str
  description : Str
  stack : List Str
  lineNumber : Option Int
  columnNumber : Option Int
  queryId : Str
deriving DecidableEq, Repr

/-- Decimal rendering of a signed integer, as `operator<<` of an `ostream`. -/
def intToString (n : Int) : Str :=
  if n < 0 then '-' :: Nat.toDigits 10 n.natAbs else Nat.toDigits 10 n.natAbs

/-- `TrinoOdbcErrorHandler::OdbcErrorToString`. -/
def OdbcErrorToString (err : OdbcError) (include_stack : Bool) : Str :=
  "Trino Error Information(queryId:".toList ++ err.queryId ++ ")\n".toList
  ++ ("\tret: ".toList ++ intToString err.ret ++ "\n".toList)
  ++ ("\tsqlstate: ".toList ++ err.sqlstate ++ "\n".toList)
  ++ ("\tnative: ".toList ++ intToString err.native ++ "\n".toList)
  ++ ("\tdescription: ".toList ++ err.description ++ "\n".toList)
  ++ ("\tmessage: ".toList ++ err.message ++ "\n".toList)
  ++ (match err.lineNumber with
      | some l => "\tlineNumber:".toList ++ intToString l ++ "\n".toList
      | none => [])
  ++ (match err.columnNumber with
      | some c => "\tcolumnNumber:".toList ++ intToString c ++ "\n".toList
      | none => [])
  ++ (if include_stack then
        err.stack.flatMap (fun entry => "\t".toList ++ entry ++ "\n".toList)
      else [])

/-- The lines read by `while (std::getline(summaryStream, line))`: the text is
cut at every newline, and a last line without a newline is still read. -/
def getlines : Str → List Str
  | [] => []
  | c :: cs =>
    if c = '\n' then [] :: getlines cs
    else
      match getlines cs with
      | [] => [[c]]
      | l :: ls => (c :: l) :: ls

/-- Lines 80-92 of getDiagRec.cpp: the summary lines followed by the stack
entries, each stack entry behind a tab. -/
def buildLines (odbcErr : OdbcError) : List Str :=
  getlines (OdbcErrorToString odbcErr false) ++ odbcErr.stack.map (fun entry => '\t' :: entry)

/-- The inner loop (lines 107-115) over the lines from index `j` on, given as
the list `rest`; returns the final `j` and `tempChunk`. -/
def innerLoop (chunkSize : Nat) : List Str → Nat → Nat → Str → Nat × Str
  | [], j, _, tempChunk => (j, tempChunk)
  | line :: rest, j, tempLen, tempChunk =>
    let lineLen := line.length + 1
    if tempLen + lineLen > chunkSize ∧ tempLen > 0 then (j, tempChunk)
    else innerLoop chunkSize rest (j + 1) (tempLen + lineLen) (tempChunk ++ (line ++ ['\n']))

/-- One pass of the outer loop body up to line 115: starting at line `i`, the
candidate chunk begins with a newline and `tempLen = 1`. -/
def fillChunk (lines : List Str) (chunkSize i : Nat) : Nat × Str :=
  innerLoop chunkSize (lines.drop i) i 1 ['\n']

/-- The outer loop (lines 102-123). The state is `i` and `currentChunk`; the
result is `(found, chunk)`, or `none` when `fuel` iterations did not finish
the loop. -/
def chunkLoop (lines : List Str) (chunkSize recNumber : Nat) : Nat → Nat → Nat → Option (Bool × Str)
  | 0, _, _ => none
  | fuel + 1, i, currentChunk =>
    if i < lines.length then
      let r := fillChunk lines chunkSize i
      if currentChunk = recNumber then some (true, r.2)
      else chunkLoop lines chunkSize recNumber fuel r.1 ((currentChunk + 1) % 18446744073709551616)
    else some (false, [])

/-- Number of iterations after which the outer loop has certainly stopped: the
counter `currentChunk` meets every `size_t` value within `2 ^ 64` steps. -/
def loopFuel : Nat := 18446744073709551616

/-- What stops a call before it returns: a handle that is not of the stated
type (the `reinterpret_cast` is unchecked), the invalid-parameter report of
`strncpy_s`, an outer loop that is still running when the fuel is spent, the
exception `type_error` of `nlohmann::json`, or a conversion whose result the
language leaves undefined. -/
inductive Fault where
  | badHandle
  | invalidParameter
  | outOfFuel
  | typeError
  | undefinedConversion
deriving DecidableEq, Repr

/-- The part of `ErrorInfo` that the connection branch reads. -/
structure ErrorInfo where
  errorOccurred : Bool
  sqlStateCode : Str
  errorMessage : Str
deriving DecidableEq, Repr

/-- The part of `TrinoQuery` that the statement branch reads: the results of
`hasError()` and `getError()`. -/
structure TrinoQuery where
  hasError : Bool
  getError : OdbcError
deriving DecidableEq, Repr

/-- `Connection`, with `getError()` returning the stored `errorInfo`
(connHandle.cpp). -/
structure Connection where
  errorInfo : ErrorInfo
deriving DecidableEq, Repr

/-- `Connection::getError`. -/
def Connection.getError (conn : Connection) : ErrorInfo := conn.errorInfo

/-- `Statement`, reduced to its query. -/
structure Statement where
  trinoQuery : TrinoQuery
deriving DecidableEq, Repr

/-- The object behind an `SQLHANDLE`. -/
inductive Handle where
  | env
  | dbc (conn : Connection)
  | stmt (statement : Statement)
  | desc
deriving DecidableEq, Repr

/-- The caller's output parameters: `none` is a null pointer, `some v` a
supplied slot holding `v`. `SqlState` holds the C string in the state buffer,
`MessageText` the bytes of the message buffer. -/
structure DiagSlots where
  SqlState : Option Str
  NativeError : Option Int
  MessageText : Option (List Char)
  TextLength : Option Int
deriving DecidableEq, Repr

/-- Outcome of a call: the return code, the output parameters afterwards, and
the byte stores made into the message buffer, in program order. -/
structure DiagResult where
  ret : Int
  slots : DiagSlots
  messageStores : List (Nat × Char)
deriving DecidableEq, Repr

/-- One byte store `buf[w.1] = w.2`. -/
def store (buf : List Char) (w : Nat × Char) : List Char := buf.set w.1 w.2

/-- The buffer after a sequence of byte stores. -/
def applyStores (buf : List Char) (stores : List (Nat × Char)) : List Char :=
  stores.foldl store buf

/-- The C string a buffer holds: its bytes before the first NUL. -/
def cstr (buf : List Char) : Str := buf.takeWhile (fun c => c != NUL)

/-- The C runtime's `strncpy_s(dest, numberOfElements, src, count)` for a
non-null `dest` and `numberOfElements > 0`, as the byte stores it makes: with
`D` the lesser of `count` and the C-string length of the source, the first `D`
bytes and a terminating NUL are stored when they fit in `numberOfElements`
bytes, otherwise the invalid-parameter handler is invoked. -/
def strncpy_s (numberOfElements : Nat) (strSource : Str) (count : Nat) :
    Except Fault (List (Nat × Char)) :=
  let src := cstr strSource
  let d := min count src.length
  if d < numberOfElements then .ok ((src.take d).enum ++ [(d, NUL)])
  else .error Fault.invalidParameter

/-- Modelled from the spec: `writeNullTermStringToPtr` of util/valuePtrHelper.hpp,
which is not among the sources. It stores the string, NUL-terminated, behind a
non-null pointer and the string length in a non-null length slot; here for the
state buffer, whose content is kept as the stored C string. -/
def writeNullTermStringToPtr (ptr : Option Str) (s : Str) : Option Str :=
  ptr.map (fun _ => s)

/-- Modelled from the spec: `writeNullTermStringToPtr` of util/valuePtrHelper.hpp
for the message buffer, as byte stores: the bytes of the string and a NUL. No
capacity is passed to it. -/
def writeNullTermStringStores (ptr : Option (List Char)) (s : Str) : List (Nat × Char) :=
  match ptr with
  | none => []
  | some _ => s.enum ++ [(s.length, NUL)]

/-- Lines 95-96: `chunkSize` is `BufferLength - 1` for a positive
`BufferLength` and `0` otherwise. -/
def chunkSizeOf (BufferLength : Int) : Nat :=
  if BufferLength > 0 then toSizeT (BufferLength - 1) else 0

/-- The statement branch of `SQLGetDiagRec` (lines 60-146) once `hasError()`
holds, for the stored error `odbcErr`. -/
def statementDiag (odbcErr : OdbcError) (RecNumber : Int) (SqlStatePtr : Option Str)
    (NativeErrorPtr : Option Int) (MessageTextPtr : Option (List Char)) (BufferLength : Int)
    (TextLengthPtr : Option Int) : Except Fault DiagResult :=
  -- Only set SqlStatePtr and NativeErrorPtr on the first chunk
  let SqlState := if RecNumber = 1 then writeNullTermStringToPtr SqlStatePtr odbcErr.sqlstate
    else SqlStatePtr
  let NativeError := if RecNumber = 1 then NativeErrorPtr.map (fun _ => odbcErr.native)
    else NativeErrorPtr
  let lines := buildLines odbcErr
  let chunkSize := chunkSizeOf BufferLength
  match chunkLoop lines chunkSize (toSizeT RecNumber) loopFuel 0 1 with
  | none => .error Fault.outOfFuel
  | some (found, chunk) =>
    if !found || chunk.isEmpty then
      .ok ⟨SQL_NO_DATA, ⟨SqlState, NativeError, MessageTextPtr, TextLengthPtr⟩, []⟩
    else
      let toCopy := min chunk.length chunkSize
      let copied : Except Fault (List (Nat × Char)) :=
        if MessageTextPtr.isSome ∧ BufferLength > 0 then
          (strncpy_s BufferLength.toNat chunk toCopy).map (fun w => w ++ [(toCopy, NUL)])
        else .ok []
      match copied with
      | .error f => .error f
      | .ok stores =>
        .ok ⟨SQL_SUCCESS,
             ⟨SqlState, NativeError, MessageTextPtr.map (fun buf => applyStores buf stores),
              TextLengthPtr.map (fun _ => toSmallInt toCopy)⟩,
             stores⟩

/-- `SQLGetDiagRec` (getDiagRec.cpp). -/
def SQLGetDiagRec (HandleType : Int) (Handle : Handle) (RecNumber : Int)
    (SqlStatePtr : Option Str) (NativeErrorPtr : Option Int)
    (MessageTextPtr : Option (List Char)) (BufferLength : Int)
    (TextLengthPtr : Option Int) : Except Fault DiagResult :=
  let unchanged : DiagSlots := ⟨SqlStatePtr, NativeErrorPtr, MessageTextPtr, TextLengthPtr⟩
  if HandleType = SQL_HANDLE_ENV then .ok ⟨SQL_NO_DATA, unchanged, []⟩
  else if HandleType = SQL_HANDLE_DBC then
    match Handle with
    | .dbc conn =>
      let errorInfo := conn.getError
      if RecNumber = 1 ∧ errorInfo.errorOccurred then
        let stores := writeNullTermStringStores MessageTextPtr errorInfo.errorMessage
        .ok ⟨SQL_SUCCESS,
             ⟨writeNullTermStringToPtr SqlStatePtr errorInfo.sqlStateCode,
              NativeErrorPtr.map (fun _ => -1),
              MessageTextPtr.map (fun buf => applyStores buf stores),
              TextLengthPtr.map (fun _ => toSmallInt errorInfo.errorMessage.length)⟩,
             stores⟩
      else .ok ⟨SQL_NO_DATA, unchanged, []⟩
    | _ => .error Fault.badHandle
  else if HandleType = SQL_HANDLE_STMT then
    match Handle with
    | .stmt statement =>
      if statement.trinoQuery.hasError then
        statementDiag statement.trinoQuery.getError RecNumber SqlStatePtr NativeErrorPtr
          MessageTextPtr BufferLength TextLengthPtr
      else .ok ⟨SQL_NO_DATA, unchanged, []⟩
    | _ => .error Fault.badHandle
  else if HandleType = SQL_HANDLE_DESC then .ok ⟨SQL_NO_DATA, unchanged, []⟩
  else .ok ⟨SQL_ERROR, unchanged, []⟩

/-! ### Notions used to state the properties -/

/-- Where the outer loop continues after the chunk that starts at line `i`
(line 122, `i = j`). -/
def nextStart (lines : List Str) (chunkSize i : Nat) : Nat := (fillChunk lines chunkSize i).1

/-- Line index at which the outer loop starts its `k`-th pass, counted from 0. -/
def chunkStart (lines : List Str) (chunkSize : Nat) (k : Nat) : Nat :=
  (nextStart lines chunkSize)^[k] 0

/-- The outer loop consumes the lines in exactly `n` passes: every pass before
the `n`-th starts inside the lines and the `n`-th would start at their end. -/
def partitionsInto (lines : List Str) (chunkSize n : Nat) : Prop :=
  (∀ k, k < n → chunkStart lines chunkSize k < lines.length) ∧
    chunkStart lines chunkSize n = lines.length

instance (lines : List Str) (chunkSize n : Nat) : Decidable (partitionsInto lines chunkSize n) := by
  unfold partitionsInto; infer_instance

/-- The rendered text of a line sequence: every line followed by a newline. -/
def joinLines (lines : List Str) : Str := lines.flatMap (fun l => l ++ ['\n'])

/-- A statement handle whose query holds the error `odbcErr`. -/
def stmtWithError (odbcErr : OdbcError) : Handle := .stmt ⟨⟨true, odbcErr⟩⟩

/-- The return code of a call that returned. -/
def retOf (r : Except Fault DiagResult) : Option Int :=
  match r with
  | .ok res => some res.ret
  | .error _ => none

/-- The message text a call left in the message buffer, read as a C string;
empty when the call stored nothing or there is no buffer. -/
def messageOf (r : Except Fault DiagResult) : Str :=
  match r with
  | .ok res =>
    if res.messageStores.isEmpty then []
    else
      match res.slots.MessageText with
      | some buf => cstr buf
      | none => []
  | .error _ => []

/-- The message buffer after a call; empty when there is none. -/
def bufferOf (r : Except Fault DiagResult) : List Char :=
  match r with
  | .ok res => res.slots.MessageText.getD []
  | .error _ => []

/-- The content of the length slot after a call. -/
def lengthOf (r : Except Fault DiagResult) : Option Int :=
  match r with
  | .ok res => res.slots.TextLength
  | .error _ => none

/-- What a call produces of the message: the return code, the byte stores into
the message buffer and, when a record is returned, the content of the length
slot. -/
def observe (r : DiagResult) : Int × List (Nat × Char) × Option Int :=
  (r.ret, r.messageStores, if r.ret = SQL_NO_DATA then none else r.slots.TextLength)

/-- The outer loop without fuel, counting down the number `d` of further
increments after which `currentChunk` equals the record number. -/
def searchFrom (lines : List Str) (chunkSize : Nat) : Nat → Nat → Bool × Str
  | 0, i => if i < lines.length then (true, (fillChunk lines chunkSize i).2) else (false, [])
  | d + 1, i =>
    if i < lines.length then searchFrom lines chunkSize d (nextStart lines chunkSize i)
    else (false, [])

/-- Number of lines the inner loop appends when it starts with `tempLen`. -/
def takeCount (chunkSize : Nat) : List Str → Nat → Nat
  | [], _ => 0
  | line :: rest, tempLen =>
    if tempLen + (line.length + 1) > chunkSize ∧ tempLen > 0 then 0
    else takeCount chunkSize rest (tempLen + (line.length + 1)) + 1

/-- Number of passes of the outer loop that precede the pass in which
`currentChunk`, counting up from 1 modulo `2 ^ 64`, equals the record number. -/
def passOf (RecNumber : Int) : Nat :=
  (18446744073709551615 + toSizeT RecNumber) % 18446744073709551616

/-- The chunk that the outer loop leaves in `chunk` when it finds the record:
the candidate chunk of the pass in which `currentChunk` equals the record
number. -/
def selectedChunk (odbcErr : OdbcError) (RecNumber BufferLength : Int) : Str :=
  (fillChunk (buildLines odbcErr) (chunkSizeOf BufferLength)
    (chunkStart (buildLines odbcErr) (chunkSizeOf BufferLength) (passOf RecNumber))).2

/-- The byte stores of lines 131-137 for a chunk and its `toCopy`: the copy by
`strncpy_s`, its terminator, and the terminator of line 136. -/
def copyStores (chunk : Str) (toCopy : Nat) : List (Nat × Char) :=
  ((cstr chunk).take toCopy).enum ++
    [(min toCopy (cstr chunk).length, NUL), (toCopy, NUL)]

/-- A sample error: a summary of six lines and two stack entries. -/
def sampleError : OdbcError :=
  ⟨-1, "42000".toList, 4, "[Trino] boom".toList, "Permission Denied".toList,
   ["at a.b".toList, "at c.d".toList], none, none, "q1".toList⟩

/-- A sample error whose message holds a NUL byte. -/
def nulError : OdbcError :=
  ⟨-1, "42000".toList, 4, ['a', NUL, 'b'], "Permission Denied".toList, [], none, none,
   "q1".toList⟩

/-! ### The error handler (TrinoOdbcErrorHandler.cpp) -/

/-- ODBC `SQLINTEGER` and C `int` are 32 bits wide: the conversion of an
integer value to them. -/
def toInt32 (n : Int) : Int := (2147483648 + n) % 4294967296 - 2147483648

/-- A `nlohmann::json` value. An object keeps its members in key order, as the
`std::map` behind it does. Of a floating-point number only the integral part
is kept, which is all the code ever reads of one. -/
inductive Json where
  | null
  | bool (b : Bool)
  | int (n : Int)
  | float (intPart : Int)
  | str (s : Str)
  | arr (elems : List Json)
  | obj (members : List (Str × Json))

/-- Member lookup in the member list of an object. -/
def findMember : List (Str × Json) → Str → Option Json
  | [], _ => none
  | (k, v) :: rest, key => if k = key then some v else findMember rest key

/-- The member `j[key]` when `j.contains(key)`: `none` when `j` is not an object
or has no such member. -/
def Json.get? (j : Json) (key : Str) : Option Json :=
  match j with
  | .obj members => findMember members key
  | _ => none

/-- `j.contains(key)`. -/
def Json.contains (j : Json) (key : Str) : Bool := (j.get? key).isSome

/-- `j.is_object()`. -/
def Json.is_object : Json → Bool
  | .obj _ => true
  | _ => false

/-- `j.is_array()`. -/
def Json.is_array : Json → Bool
  | .arr _ => true
  | _ => false

/-- `j.is_string()`. -/
def Json.is_string : Json → Bool
  | .str _ => true
  | _ => false

/-- `j.is_number_integer()`: true of signed and unsigned integers. -/
def Json.is_number_integer : Json → Bool
  | .int _ => true
  | _ => false

/-- `j.get<std::string>()`: throws `type_error` unless `j` is a string. -/
def Json.getString : Json → Except Fault Str
  | .str s => .ok s
  | _ => .error Fault.typeError

/-- `j.get<int>()`: a number or a boolean converts by `static_cast<int>`, which
is undefined for a floating-point value outside the range of `int`; every other
value throws `type_error`. -/
def Json.getInt : Json → Except Fault Int
  | .int n => .ok (toInt32 n)
  | .bool b => .ok (if b then 1 else 0)
  | .float i => if -2147483648 ≤ i ∧ i ≤ 2147483647 then .ok i else .error Fault.undefinedConversion
  | _ => .error Fault.typeError

/-- The values a range-based `for` visits: the elements of an array, the member
values of an object, nothing for `null`, and the value itself otherwise. -/
def Json.items (j : Json) : List Json :=
  match j with
  | .arr elems => elems
  | .obj members => members.map (fun m => m.2)
  | .null => []
  | other => [other]

/-- `TrinoOdbcErrorHandler::Entry` (TrinoOdbcErrorHandler.hpp). -/
structure Entry where
  trino_code : Int
  trino_name : Str
  sqlstate : Str
  description : Str
deriving DecidableEq, Repr

/-- The catalog `g_catalog`, an `unordered_map` from name to `Entry`, as a list
of key and value with at most one pair for a key. -/
abbrev Catalog := List (Str × Entry)

/-- `g_catalog.find(name)`. -/
def findEntry : Catalog → Str → Option Entry
  | [], _ => none
  | (k, e) :: rest, name => if k = name then some e else findEntry rest name

/-- `g_catalog[name] = e`. -/
def assign : Catalog → Str → Entry → Catalog
  | [], name, e => [(name, e)]
  | (k, v) :: rest, name, e =>
    if k = name then (k, e) :: rest else (k, v) :: assign rest name e

/-- `std::tolower` in the "C" locale. -/
def tolower (c : Char) : Char :=
  if 'A' ≤ c ∧ c ≤ 'Z' then Char.ofNat (c.toNat + 32) else c

/-- `std::toupper` in the "C" locale. -/
def toupper (c : Char) : Char :=
  if 'a' ≤ c ∧ c ≤ 'z' then Char.ofNat (c.toNat - 32) else c

/-- `TrinoOdbcErrorHandler::equalsIgnoreCase`. -/
def equalsIgnoreCase (a b : Str) : Bool := a.map tolower = b.map tolower

/-- `TrinoOdbcErrorHandler::isWarning`. -/
def isWarning (sqlstate : Str) : Bool :=
  match sqlstate with
  | c0 :: c1 :: _ => c0 = '0' ∧ c1 = '1'
  | _ => false

/-- The loop of `humanize_name` over the rest of the name, with its flag
`newWord`. -/
def humanizeLoop : Bool → Str → Str
  | _, [] => []
  | newWord, c :: rest =>
    if c = '_' then ' ' :: humanizeLoop true rest
    else (if newWord then toupper c else tolower c) :: humanizeLoop false rest

/-- `TrinoOdbcErrorHandler::humanize_name`. -/
def humanize_name (name : Str) : Str := humanizeLoop true name

/-- `TrinoOdbcErrorHandler::fallbackByType`. -/
def fallbackByType (trinoName trinoType : Str) : Str :=
  if trinoName = "ALREADY_EXISTS".toList then "42S01".toList
  else if trinoName = "NOT_FOUND".toList then "42S02".toList
  else if equalsIgnoreCase trinoType "USER_ERROR".toList then "42000".toList
  else if equalsIgnoreCase trinoType "INSUFFICIENT_RESOURCES".toList then "HY001".toList
  else if equalsIgnoreCase trinoType "EXTERNAL".toList then "HY000".toList
  else "HY000".toList

/-- Rows 1 to 45 of the table `kDefaults` of `buildCompiledDefaults`
(lines 152-429). -/
def kDefaults1 : List Entry :=
  [
    ⟨0, "GENERIC_USER_ERROR".toList, "42000".toList, "Generic user error".toList⟩,
    ⟨1, "SYNTAX_ERROR".toList, "42000".toList, "SQL syntax error".toList⟩,
    ⟨2, "ABANDONED_QUERY".toList, "HY008".toList, "Operation canceled".toList⟩,
    ⟨3, "USER_CANCELED".toList, "HY008".toList, "Operation canceled by user".toList⟩,
    ⟨4, "PERMISSION_DENIED".toList, "42000".toList, "Permission denied".toList⟩,
    ⟨5, "NOT_FOUND".toList, "42S02".toList, "Object not found".toList⟩,
    ⟨6, "FUNCTION_NOT_FOUND".toList, "42000".toList, "Function not found".toList⟩,
    ⟨7, "INVALID_FUNCTION_ARGUMENT".toList, "22023".toList, "Invalid function argument".toList⟩,
    ⟨8, "DIVISION_BY_ZERO".toList, "22012".toList, "Division by zero".toList⟩,
    ⟨9, "INVALID_CAST_ARGUMENT".toList, "22018".toList, "Invalid cast argument".toList⟩,
    ⟨10, "OPERATOR_NOT_FOUND".toList, "42000".toList, "Operator not found".toList⟩,
    ⟨11, "INVALID_VIEW".toList, "42000".toList, "Invalid view".toList⟩,
    ⟨12, "ALREADY_EXISTS".toList, "42S01".toList, "Object already exists".toList⟩,
    ⟨13, "NOT_SUPPORTED".toList, "0A000".toList, "Feature not supported".toList⟩,
    ⟨14, "INVALID_SESSION_PROPERTY".toList, "42000".toList, "Invalid session property".toList⟩,
    ⟨15, "INVALID_WINDOW_FRAME".toList, "42000".toList, "Invalid window frame".toList⟩,
    ⟨16, "CONSTRAINT_VIOLATION".toList, "23000".toList, "Integrity constraint violation".toList⟩,
    ⟨17, "TRANSACTION_CONFLICT".toList, "40001".toList, "Serialization failure".toList⟩,
    ⟨18, "INVALID_TABLE_PROPERTY".toList, "42000".toList, "Invalid table property".toList⟩,
    ⟨19, "NUMERIC_VALUE_OUT_OF_RANGE".toList, "22003".toList, "Numeric value out of range".toList⟩,
    ⟨20, "UNKNOWN_TRANSACTION".toList, "25000".toList, "Unknown transaction".toList⟩,
    ⟨21, "NOT_IN_TRANSACTION".toList, "25000".toList, "Not in a transaction".toList⟩,
    ⟨22, "TRANSACTION_ALREADY_ABORTED".toList, "25S03".toList, "Transaction already aborted".toList⟩,
    ⟨23, "READ_ONLY_VIOLATION".toList, "25000".toList, "Write in read-only context".toList⟩,
    ⟨24, "MULTI_CATALOG_WRITE_CONFLICT".toList, "25000".toList, "Write conflict across catalogs".toList⟩,
    ⟨25, "AUTOCOMMIT_WRITE_CONFLICT".toList, "25000".toList, "Write conflict in autocommit".toList⟩,
    ⟨26, "UNSUPPORTED_ISOLATION_LEVEL".toList, "0A000".toList, "Isolation level not supported".toList⟩,
    ⟨27, "INCOMPATIBLE_CLIENT".toList, "08001".toList, "Client/server incompatible".toList⟩,
    ⟨28, "SUBQUERY_MULTIPLE_ROWS".toList, "21000".toList, "Scalar subquery returns multiple rows".toList⟩,
    ⟨29, "PROCEDURE_NOT_FOUND".toList, "42000".toList, "Stored procedure not found".toList⟩,
    ⟨30, "INVALID_PROCEDURE_ARGUMENT".toList, "22023".toList, "Invalid procedure argument".toList⟩,
    ⟨31, "QUERY_REJECTED".toList, "HY000".toList, "Query rejected".toList⟩,
    ⟨32, "AMBIGUOUS_FUNCTION_CALL".toList, "42000".toList, "Ambiguous function call".toList⟩,
    ⟨33, "INVALID_SCHEMA_PROPERTY".toList, "42000".toList, "Invalid schema property".toList⟩,
    ⟨34, "SCHEMA_NOT_EMPTY".toList, "42000".toList, "Schema not empty".toList⟩,
    ⟨35, "QUERY_TEXT_TOO_LARGE".toList, "HY000".toList, "Query text too large".toList⟩,
    ⟨36, "UNSUPPORTED_SUBQUERY".toList, "0A000".toList, "Unsupported subquery".toList⟩,
    ⟨37, "EXCEEDED_FUNCTION_MEMORY_LIMIT".toList, "HY001".toList, "Function exceeded memory limit".toList⟩,
    ⟨38, "ADMINISTRATIVELY_KILLED".toList, "HY008".toList, "Killed by administrator".toList⟩,
    ⟨39, "INVALID_COLUMN_PROPERTY".toList, "42000".toList, "Invalid column property".toList⟩,
    ⟨40, "QUERY_HAS_TOO_MANY_STAGES".toList, "HY000".toList, "Query has too many stages".toList⟩,
    ⟨41, "INVALID_SPATIAL_PARTITIONING".toList, "42000".toList, "Invalid spatial partitioning".toList⟩,
    ⟨42, "INVALID_ANALYZE_PROPERTY".toList, "42000".toList, "Invalid analyze property".toList⟩,
    ⟨43, "TYPE_NOT_FOUND".toList, "07006".toList, "Type not found".toList⟩,
    ⟨44, "CATALOG_NOT_FOUND".toList, "3D000".toList, "Catalog not found".toList⟩
  ]

/-- Rows 46 to 90 of the table `kDefaults` of `buildCompiledDefaults`
(lines 152-429). -/
def kDefaults2 : List Entry :=
  [
    ⟨45, "SCHEMA_NOT_FOUND".toList, "3F000".toList, "Schema not found".toList⟩,
    ⟨46, "TABLE_NOT_FOUND".toList, "42S02".toList, "Base table or view not found".toList⟩,
    ⟨47, "COLUMN_NOT_FOUND".toList, "42S22".toList, "Column not found".toList⟩,
    ⟨48, "ROLE_NOT_FOUND".toList, "28000".toList, "Role not found".toList⟩,
    ⟨49, "SCHEMA_ALREADY_EXISTS".toList, "42000".toList, "Schema already exists".toList⟩,
    ⟨50, "TABLE_ALREADY_EXISTS".toList, "42S01".toList, "Table already exists".toList⟩,
    ⟨51, "COLUMN_ALREADY_EXISTS".toList, "42S21".toList, "Column already exists".toList⟩,
    ⟨52, "ROLE_ALREADY_EXISTS".toList, "28000".toList, "Role already exists".toList⟩,
    ⟨53, "DUPLICATE_NAMED_QUERY".toList, "42000".toList, "Duplicate named query".toList⟩,
    ⟨54, "DUPLICATE_COLUMN_NAME".toList, "42S21".toList, "Duplicate column name".toList⟩,
    ⟨55, "MISSING_COLUMN_NAME".toList, "42000".toList, "Missing column name".toList⟩,
    ⟨56, "MISSING_CATALOG_NAME".toList, "3D000".toList, "Missing catalog name".toList⟩,
    ⟨57, "MISSING_SCHEMA_NAME".toList, "3F000".toList, "Missing schema name".toList⟩,
    ⟨58, "TYPE_MISMATCH".toList, "07006".toList, "Type mismatch".toList⟩,
    ⟨59, "INVALID_LITERAL".toList, "22018".toList, "Invalid literal".toList⟩,
    ⟨60, "COLUMN_TYPE_UNKNOWN".toList, "07006".toList, "Column type unknown".toList⟩,
    ⟨61, "MISMATCHED_COLUMN_ALIASES".toList, "42000".toList, "Mismatched column aliases".toList⟩,
    ⟨62, "AMBIGUOUS_NAME".toList, "42000".toList, "Ambiguous name".toList⟩,
    ⟨63, "INVALID_COLUMN_REFERENCE".toList, "42000".toList, "Invalid column reference".toList⟩,
    ⟨64, "MISSING_GROUP_BY".toList, "42000".toList, "Missing GROUP BY".toList⟩,
    ⟨65, "MISSING_ORDER_BY".toList, "42000".toList, "Missing ORDER BY".toList⟩,
    ⟨66, "MISSING_OVER".toList, "42000".toList, "Missing OVER clause".toList⟩,
    ⟨67, "NESTED_AGGREGATION".toList, "42000".toList, "Nested aggregation not allowed".toList⟩,
    ⟨68, "NESTED_WINDOW".toList, "42000".toList, "Nested window not allowed".toList⟩,
    ⟨69, "EXPRESSION_NOT_IN_DISTINCT".toList, "42000".toList, "Expression not in DISTINCT".toList⟩,
    ⟨70, "TOO_MANY_GROUPING_SETS".toList, "42000".toList, "Too many grouping sets".toList⟩,
    ⟨71, "FUNCTION_NOT_WINDOW".toList, "42000".toList, "Function is not a window function".toList⟩,
    ⟨72, "FUNCTION_NOT_AGGREGATE".toList, "42000".toList, "Function is not an aggregate".toList⟩,
    ⟨73, "EXPRESSION_NOT_AGGREGATE".toList, "42000".toList, "Expression not aggregate".toList⟩,
    ⟨74, "EXPRESSION_NOT_SCALAR".toList, "42000".toList, "Expression not scalar".toList⟩,
    ⟨75, "EXPRESSION_NOT_CONSTANT".toList, "42000".toList, "Expression not constant".toList⟩,
    ⟨76, "INVALID_ARGUMENTS".toList, "22023".toList, "Invalid arguments".toList⟩,
    ⟨77, "TOO_MANY_ARGUMENTS".toList, "07001".toList, "Too many arguments".toList⟩,
    ⟨78, "INVALID_PRIVILEGE".toList, "28000".toList, "Invalid privilege".toList⟩,
    ⟨79, "DUPLICATE_PROPERTY".toList, "42000".toList, "Duplicate property".toList⟩,
    ⟨80, "INVALID_PARAMETER_USAGE".toList, "07006".toList, "Invalid parameter usage".toList⟩,
    ⟨81, "VIEW_IS_STALE".toList, "42000".toList, "View is stale".toList⟩,
    ⟨82, "VIEW_IS_RECURSIVE".toList, "42000".toList, "View is recursive".toList⟩,
    ⟨83, "NULL_TREATMENT_NOT_ALLOWED".toList, "42000".toList, "Null treatment not allowed".toList⟩,
    ⟨84, "INVALID_ROW_FILTER".toList, "42000".toList, "Invalid row filter".toList⟩,
    ⟨85, "INVALID_COLUMN_MASK".toList, "42000".toList, "Invalid column mask".toList⟩,
    ⟨86, "MISSING_TABLE".toList, "42S02".toList, "Missing table".toList⟩,
    ⟨87, "INVALID_RECURSIVE_REFERENCE".toList, "42000".toList, "Invalid recursive reference".toList⟩,
    ⟨88, "MISSING_COLUMN_ALIASES".toList, "42000".toList, "Missing column aliases".toList⟩,
    ⟨89, "NESTED_RECURSIVE".toList, "42000".toList, "Nested recursive construct".toList⟩
  ]

/-- Rows 91 to 135 of the table `kDefaults` of `buildCompiledDefaults`
(lines 152-429). -/
def kDefaults3 : List Entry :=
  [
    ⟨90, "INVALID_LIMIT_CLAUSE".toList, "42000".toList, "Invalid LIMIT clause".toList⟩,
    ⟨91, "INVALID_ORDER_BY".toList, "42000".toList, "Invalid ORDER BY".toList⟩,
    ⟨92, "DUPLICATE_WINDOW_NAME".toList, "42000".toList, "Duplicate window name".toList⟩,
    ⟨93, "INVALID_WINDOW_REFERENCE".toList, "42000".toList, "Invalid window reference".toList⟩,
    ⟨94, "INVALID_PARTITION_BY".toList, "42000".toList, "Invalid PARTITION BY".toList⟩,
    ⟨95, "INVALID_MATERIALIZED_VIEW_PROPERTY".toList, "42000".toList, "Invalid materialized view property".toList⟩,
    ⟨96, "INVALID_LABEL".toList, "42000".toList, "Invalid label".toList⟩,
    ⟨97, "INVALID_PROCESSING_MODE".toList, "42000".toList, "Invalid processing mode".toList⟩,
    ⟨98, "INVALID_NAVIGATION_NESTING".toList, "42000".toList, "Invalid navigation nesting".toList⟩,
    ⟨99, "INVALID_ROW_PATTERN".toList, "42000".toList, "Invalid row pattern".toList⟩,
    ⟨100, "NESTED_ROW_PATTERN_RECOGNITION".toList, "42000".toList, "Nested row pattern recognition".toList⟩,
    ⟨101, "TABLE_HAS_NO_COLUMNS".toList, "42000".toList, "Table has no columns".toList⟩,
    ⟨102, "INVALID_RANGE".toList, "22000".toList, "Invalid range".toList⟩,
    ⟨103, "INVALID_PATTERN_RECOGNITION_FUNCTION".toList, "42000".toList, "Invalid pattern recognition function".toList⟩,
    ⟨104, "TABLE_REDIRECTION_ERROR".toList, "HY000".toList, "Table redirection error".toList⟩,
    ⟨105, "MISSING_VARIABLE_DEFINITIONS".toList, "42000".toList, "Missing variable definitions".toList⟩,
    ⟨106, "MISSING_ROW_PATTERN".toList, "42000".toList, "Missing row pattern".toList⟩,
    ⟨107, "INVALID_WINDOW_MEASURE".toList, "42000".toList, "Invalid window measure".toList⟩,
    ⟨108, "STACK_OVERFLOW".toList, "HY000".toList, "Stack overflow".toList⟩,
    ⟨109, "MISSING_RETURN_TYPE".toList, "42000".toList, "Missing return type".toList⟩,
    ⟨110, "AMBIGUOUS_RETURN_TYPE".toList, "42000".toList, "Ambiguous return type".toList⟩,
    ⟨111, "MISSING_ARGUMENT".toList, "07001".toList, "Missing argument".toList⟩,
    ⟨112, "DUPLICATE_PARAMETER_NAME".toList, "42000".toList, "Duplicate parameter name".toList⟩,
    ⟨113, "INVALID_PATH".toList, "22018".toList, "Invalid JSON/path expression".toList⟩,
    ⟨114, "JSON_INPUT_CONVERSION_ERROR".toList, "22018".toList, "JSON input conversion error".toList⟩,
    ⟨115, "JSON_OUTPUT_CONVERSION_ERROR".toList, "22018".toList, "JSON output conversion error".toList⟩,
    ⟨116, "PATH_EVALUATION_ERROR".toList, "22018".toList, "Path evaluation error".toList⟩,
    ⟨117, "INVALID_JSON_LITERAL".toList, "22018".toList, "Invalid JSON literal".toList⟩,
    ⟨118, "JSON_VALUE_RESULT_ERROR".toList, "22018".toList, "JSON value result error".toList⟩,
    ⟨119, "MERGE_TARGET_ROW_MULTIPLE_MATCHES".toList, "21000".toList, "Merge target row multiple matches".toList⟩,
    ⟨120, "INVALID_COPARTITIONING".toList, "42000".toList, "Invalid copartitioning".toList⟩,
    ⟨121, "INVALID_TABLE_FUNCTION_INVOCATION".toList, "42000".toList, "Invalid table function invocation".toList⟩,
    ⟨122, "DUPLICATE_RANGE_VARIABLE".toList, "42000".toList, "Duplicate range variable".toList⟩,
    ⟨123, "INVALID_CHECK_CONSTRAINT".toList, "23000".toList, "Invalid check constraint".toList⟩,
    ⟨124, "INVALID_CATALOG_PROPERTY".toList, "42000".toList, "Invalid catalog property".toList⟩,
    ⟨125, "CATALOG_UNAVAILABLE".toList, "08S01".toList, "Catalog unavailable".toList⟩,
    ⟨126, "MISSING_RETURN".toList, "42000".toList, "Missing return".toList⟩,
    ⟨127, "DUPLICATE_COLUMN_OR_PATH_NAME".toList, "42S21".toList, "Duplicate column or path name".toList⟩,
    ⟨128, "MISSING_PATH_NAME".toList, "42000".toList, "Missing path name".toList⟩,
    ⟨129, "INVALID_PLAN".toList, "HY000".toList, "Invalid plan".toList⟩,
    ⟨130, "INVALID_VIEW_PROPERTY".toList, "42000".toList, "Invalid view property".toList⟩,
    ⟨131, "INVALID_ENTITY_KIND".toList, "42000".toList, "Invalid entity kind".toList⟩,
    ⟨132, "QUERY_EXCEEDED_COMPILER_LIMIT".toList, "HY000".toList, "Query exceeded compiler limit".toList⟩,
    ⟨133, "INVALID_FUNCTION_PROPERTY".toList, "42000".toList, "Invalid function property".toList⟩,
    ⟨65536, "GENERIC_INTERNAL_ERROR".toList, "HY000".toList, "Generic internal error".toList⟩
  ]

/-- Rows 136 to 177 of the table `kDefaults` of `buildCompiledDefaults`
(lines 152-429). -/
def kDefaults4 : List Entry :=
  [
    ⟨65537, "TOO_MANY_REQUESTS_FAILED".toList, "08S01".toList, "Too many requests failed".toList⟩,
    ⟨65538, "PAGE_TOO_LARGE".toList, "HY000".toList, "Page too large".toList⟩,
    ⟨65539, "PAGE_TRANSPORT_ERROR".toList, "08S01".toList, "Page transport error".toList⟩,
    ⟨65540, "PAGE_TRANSPORT_TIMEOUT".toList, "08S01".toList, "Page transport timeout".toList⟩,
    ⟨65541, "NO_NODES_AVAILABLE".toList, "08S01".toList, "No nodes available".toList⟩,
    ⟨65542, "REMOTE_TASK_ERROR".toList, "08S01".toList, "Remote task error".toList⟩,
    ⟨65543, "COMPILER_ERROR".toList, "HY000".toList, "Compiler error".toList⟩,
    ⟨65544, "REMOTE_TASK_MISMATCH".toList, "08S01".toList, "Remote task mismatch".toList⟩,
    ⟨65545, "SERVER_SHUTTING_DOWN".toList, "08S01".toList, "Server shutting down".toList⟩,
    ⟨65546, "FUNCTION_IMPLEMENTATION_MISSING".toList, "0A000".toList, "Function implementation missing".toList⟩,
    ⟨65547, "REMOTE_BUFFER_CLOSE_FAILED".toList, "08S01".toList, "Remote buffer close failed".toList⟩,
    ⟨65548, "SERVER_STARTING_UP".toList, "08004".toList, "Server starting up".toList⟩,
    ⟨65549, "FUNCTION_IMPLEMENTATION_ERROR".toList, "HY000".toList, "Function implementation error".toList⟩,
    ⟨65550, "INVALID_PROCEDURE_DEFINITION".toList, "42000".toList, "Invalid procedure definition".toList⟩,
    ⟨65551, "PROCEDURE_CALL_FAILED".toList, "HY000".toList, "Procedure call failed".toList⟩,
    ⟨65552, "AMBIGUOUS_FUNCTION_IMPLEMENTATION".toList, "42000".toList, "Ambiguous function implementation".toList⟩,
    ⟨65553, "ABANDONED_TASK".toList, "HY008".toList, "Task abandoned".toList⟩,
    ⟨65554, "CORRUPT_SERIALIZED_IDENTITY".toList, "HY000".toList, "Corrupt serialized identity".toList⟩,
    ⟨65555, "CORRUPT_PAGE".toList, "HY000".toList, "Corrupt page".toList⟩,
    ⟨65556, "OPTIMIZER_TIMEOUT".toList, "HYT00".toList, "Optimizer timeout".toList⟩,
    ⟨65557, "OUT_OF_SPILL_SPACE".toList, "HY001".toList, "Out of spill space".toList⟩,
    ⟨65558, "REMOTE_HOST_GONE".toList, "08S01".toList, "Remote host gone".toList⟩,
    ⟨65559, "CONFIGURATION_INVALID".toList, "HY000".toList, "Configuration invalid".toList⟩,
    ⟨65560, "CONFIGURATION_UNAVAILABLE".toList, "HY000".toList, "Configuration unavailable".toList⟩,
    ⟨65561, "INVALID_RESOURCE_GROUP".toList, "HY000".toList, "Invalid resource group".toList⟩,
    ⟨65562, "SERIALIZATION_ERROR".toList, "HY000".toList, "Serialization error".toList⟩,
    ⟨65563, "REMOTE_TASK_FAILED".toList, "08S01".toList, "Remote task failed".toList⟩,
    ⟨65564, "EXCHANGE_MANAGER_NOT_CONFIGURED".toList, "HY000".toList, "Exchange manager not configured".toList⟩,
    ⟨65565, "CATALOG_NOT_AVAILABLE".toList, "08S01".toList, "Catalog not available".toList⟩,
    ⟨65566, "CATALOG_STORE_ERROR".toList, "HY000".toList, "Catalog store error".toList⟩,
    ⟨131072, "GENERIC_INSUFFICIENT_RESOURCES".toList, "HY001".toList, "Insufficient resources".toList⟩,
    ⟨131073, "EXCEEDED_GLOBAL_MEMORY_LIMIT".toList, "HY001".toList, "Exceeded global memory limit".toList⟩,
    ⟨131074, "QUERY_QUEUE_FULL".toList, "HYT00".toList, "Query queue full".toList⟩,
    ⟨131075, "EXCEEDED_TIME_LIMIT".toList, "HYT00".toList, "Exceeded time limit".toList⟩,
    ⟨131076, "CLUSTER_OUT_OF_MEMORY".toList, "HY001".toList, "Cluster out of memory".toList⟩,
    ⟨131077, "EXCEEDED_CPU_LIMIT".toList, "HY000".toList, "Exceeded CPU limit".toList⟩,
    ⟨131078, "EXCEEDED_SPILL_LIMIT".toList, "HY000".toList, "Exceeded spill limit".toList⟩,
    ⟨131079, "EXCEEDED_LOCAL_MEMORY_LIMIT".toList, "HY001".toList, "Exceeded local memory limit".toList⟩,
    ⟨131080, "ADMINISTRATIVELY_PREEMPTED".toList, "HY008".toList, "Administratively preempted".toList⟩,
    ⟨131081, "EXCEEDED_SCAN_LIMIT".toList, "HY000".toList, "Exceeded scan limit".toList⟩,
    ⟨131082, "EXCEEDED_TASK_DESCRIPTOR_STORAGE_CAPACITY".toList, "HY001".toList, "Exceeded task descriptor storage capacity".toList⟩,
    ⟨133001, "UNSUPPORTED_TABLE_TYPE".toList, "0A000".toList, "Unsupported table type".toList⟩
  ]

/-- The table `kDefaults` of `buildCompiledDefaults` (lines 152-429), 177 rows. -/
def kDefaults : List Entry :=
  kDefaults1 ++ kDefaults2 ++ kDefaults3 ++ kDefaults4

/-- `TrinoOdbcErrorHandler::buildCompiledDefaults`: the catalog is cleared and
every row of `kDefaults` is stored under its name. -/
def buildCompiledDefaults : Catalog :=
  kDefaults.foldl (fun catalog row => assign catalog row.trino_name row) []

/-- What `std::filesystem` and the stream report of a file that exists: its
modification time (`none` when `last_write_time` reports an error), whether an
`ifstream` opens it, and what `json::parse` makes of its content (`none` when
the value is discarded). -/
structure File where
  mtime : Option Int
  openable : Bool
  content : Option Json

/-- Outcome of `std::filesystem::exists(path, ec)`. -/
inductive Probe where
  | failed
  | absent
  | present (file : File)

/-- What a call reads of the process and the file system: the environment
variable `TRINO_ODBC_ERRORMAP_PATH`, the result of `module_dir()`, the path
`dir / name` of `std::filesystem`, and the files. -/
structure World where
  envPath : Option Str
  moduleDir : Str
  pathJoin : Str → Str → Str
  probe : Str → Probe

/-- The globals of TrinoOdbcErrorHandler.cpp. -/
structure HandlerState where
  catalog : Catalog
  initialized : Bool
  config_dir : Str
  effective_path : Str
  last_mtime : Int
  loaded_once : Bool

/-- The globals at program start. -/
def HandlerState.initial : HandlerState := ⟨[], false, [], [], 0, false⟩

/-- The value `file_time_type::min()` that `last_write_time` returns with an
error. -/
def fileTimeMin : Int := -9223372036854775808

/-- `resolve_default_json_path`. -/
def resolve_default_json_path (st : HandlerState) (w : World) : Str :=
  match w.envPath with
  | some env => env
  | none =>
    if !st.config_dir.isEmpty then w.pathJoin st.config_dir "trino_odbc_errors.json".toList
    else if !w.moduleDir.isEmpty then w.pathJoin w.moduleDir "trino_odbc_errors.json".toList
    else "trino_odbc_errors.json".toList

/-- One pass of the loop over `j["entries"]` (lines 511-547). -/
def mergeItem (catalog : Catalog) (item : Json) : Catalog :=
  if !item.is_object then catalog
  else
    match item.get? "name".toList with
    | some (.str trino_name) =>
      let trino_code : Int :=
        match item.get? "trino_code".toList with
        | some (.int n) => toInt32 n
        | _ =>
          match findEntry catalog trino_name with
          | some row => row.trino_code
          | none => -1
      let sqlstate : Str :=
        match item.get? "sqlstate".toList with
        | some (.str s) => s
        | _ =>
          match findEntry catalog trino_name with
          | some row => row.sqlstate
          | none => []
      let description : Str :=
        match item.get? "description".toList with
        | some (.str s) => s
        | _ =>
          match findEntry catalog trino_name with
          | some row => row.description
          | none => []
      assign catalog trino_name ⟨trino_code, trino_name, sqlstate, description⟩
    | _ => catalog

/-- The body of `ReloadMappingFromJson` after its call of `ensureInitialized`
(lines 476-553): the new globals, the result, and the text for `error_out`. -/
def reloadBody (st : HandlerState) (w : World) (path : Str) : HandlerState × Bool × Option Str :=
  let file := if !path.isEmpty then path else resolve_default_json_path st w
  match w.probe file with
  | .failed => (st, false, some ("JSON file not found: ".toList ++ file))
  | .absent => (st, false, some ("JSON file not found: ".toList ++ file))
  | .present f =>
    if !f.openable then (st, false, some ("Unable to open JSON file: ".toList ++ file))
    else
      match f.content with
      | none => (st, false, some ("Invalid JSON syntax in: ".toList ++ file))
      | some j =>
        match j.get? "entries".toList with
        | some (.arr entries) =>
          ({ st with
              catalog := entries.foldl mergeItem st.catalog
              last_mtime := f.mtime.getD fileTimeMin
              effective_path := file
              loaded_once := true },
            true, none)
        | _ => (st, false, some ("JSON must contain an 'entries' array: ".toList ++ file))

/-- `TrinoOdbcErrorHandler::ensureInitialized`. The flag is set before the
catalog is seeded, so the call of `ensureInitialized` inside the first
`ReloadMappingFromJson` finds it set and does nothing. -/
def ensureInitialized (st : HandlerState) (w : World) : HandlerState :=
  if st.initialized then st
  else
    (reloadBody { st with initialized := true, catalog := buildCompiledDefaults } w []).1

/-- `TrinoOdbcErrorHandler::ReloadMappingFromJson`. -/
def ReloadMappingFromJson (st : HandlerState) (w : World) (path : Str) :
    HandlerState × Bool × Option Str :=
  reloadBody (ensureInitialized st w) w path

/-- `TrinoOdbcErrorHandler::maybeAutoReloadFromDisk`. -/
def maybeAutoReloadFromDisk (st : HandlerState) (w : World) : HandlerState :=
  let path := resolve_default_json_path st w
  match w.probe path with
  | .failed => st
  | .absent => st
  | .present f =>
    match f.mtime with
    | none => st
    | some mtime =>
      if !st.loaded_once ∨ mtime ≠ st.last_mtime then (ReloadMappingFromJson st w path).1
      else st

/-- `TrinoOdbcErrorHandler::LookupEntryByName`. -/
def LookupEntryByName (st : HandlerState) (errorName : Str) : Option Entry :=
  findEntry st.catalog errorName

/-- `TrinoOdbcErrorHandler::SetConfigDirectory`. -/
def SetConfigDirectory (st : HandlerState) (dir : Str) : HandlerState :=
  { st with config_dir := dir }

/-- `TrinoOdbcErrorHandler::GetEffectiveConfigPath`. -/
def GetEffectiveConfigPath (st : HandlerState) : Str := st.effective_path

/-- The value-initialised `OdbcError out{}`. -/
def OdbcError.empty : OdbcError := ⟨0, [], 0, [], [], [], none, none, []⟩

/-- The frames of a stack, each behind a tab (lines 619-621 and 629-631). -/
def stackFrames : List Json → Except Fault (List Str)
  | [] => .ok []
  | frame :: rest => do
    let s ← frame.getString
    let more ← stackFrames rest
    pure (('\t' :: s) :: more)

/-- Lines 613-633: the stack lines taken from `failureInfo`. -/
def parseStack (err : Json) : Except Fault (List Str) :=
  match err.get? "failureInfo".toList with
  | none => .ok []
  | some failureInfo => do
    let primary ←
      match failureInfo.get? "stack".toList with
      | some stack => do
        let frames ← stackFrames stack.items
        pure ("Stack:".toList :: frames)
      | none => pure []
    let cause ←
      match failureInfo.get? "cause".toList with
      | some c =>
        if c.contains "type".toList then
          match c.get? "stack".toList with
          | some stack => do
            let frames ← stackFrames stack.items
            pure ("Caused By:".toList :: frames)
          | none => pure []
        else pure []
      | none => pure []
    pure (primary ++ cause)

/-- The integer member `key` of a location object, when present and an
integer (lines 637-643 and 647-653). -/
def locationField (loc : Json) (key : Str) : Option Int :=
  match loc.get? key with
  | some (.int n) => some (toInt32 n)
  | _ => none

/-- Lines 635-654: the location object the line and column are read from. -/
def locationOf (err : Json) : Option Json :=
  match err.get? "errorLocation".toList with
  | some (.obj members) => some (.obj members)
  | _ =>
    match err.get? "failureInfo".toList with
    | some failureInfo => failureInfo.get? "errorLocation".toList
    | none => none

/-- Lines 572-657 of `FromTrinoJson`: the translation of a payload against the
catalog as it stands after initialisation and auto-reload. -/
def translate (st : HandlerState) (err : Json) (queryId : Str) : Except Fault OdbcError :=
  if !(err.contains "errorName".toList && err.contains "errorType".toList &&
      err.contains "errorCode".toList) then
    .ok { OdbcError.empty with
      sqlstate := "HY000".toList
      native := 0
      ret := SQL_ERROR
      message := "[Trino] Unexpected error payload (missing fields).".toList
      description := "Unexpected error payload".toList }
  else do
    let name ← ((err.get? "errorName".toList).getD .null).getString
    let type ← ((err.get? "errorType".toList).getD .null).getString
    let code ← ((err.get? "errorCode".toList).getD .null).getInt
    let row := LookupEntryByName st name
    let sqlstate :=
      match row with
      | some r => if !r.sqlstate.isEmpty then r.sqlstate else fallbackByType name type
      | none => fallbackByType name type
    let message ←
      match err.get? "message".toList with
      | some m => do
        let text ← m.getString
        pure (" - ".toList ++ text)
      | none => pure []
    let description :=
      match row with
      | some r => if !r.description.isEmpty then r.description else humanize_name name
      | none => humanize_name name
    let stack ← parseStack err
    let loc := locationOf err
    pure {
      ret := if isWarning sqlstate then SQL_SUCCESS_WITH_INFO else SQL_ERROR
      sqlstate := sqlstate
      native := code
      message := "[Trino] ".toList ++ type ++ ": ".toList ++ name ++ " (".toList ++
        intToString code ++ ")".toList ++
        (if !queryId.isEmpty then " [queryId=".toList ++ queryId ++ "]".toList else []) ++
        message
      description := description
      stack := stack
      lineNumber := loc.bind (fun l => locationField l "lineNumber".toList)
      columnNumber := loc.bind (fun l => locationField l "columnNumber".toList)
      queryId := queryId }

/-- `TrinoOdbcErrorHandler::FromTrinoJson`: the globals after the call and the
record, or the exception thrown. -/
def FromTrinoJson (st : HandlerState) (w : World) (err : Json) (queryId : Str) :
    HandlerState × Except Fault OdbcError :=
  let st1 := ensureInitialized st w
  let st2 := maybeAutoReloadFromDisk st1 w
  (st2, translate st2 err queryId)

/-! ### Notions used to state the properties of the translation -/

/-- The payload carries the three required fields as a string `name`, a string
`type` and a number that reads as `code`, its `message` member is absent or the
string `upstream`, and reading its stack raises no exception and gives
`stack`. -/
def carries (err : Json) (name type : Str) (code : Int) (upstream : Option Str)
    (stack : List Str) : Prop :=
  err.get? "errorName".toList = some (.str name) ∧
  err.get? "errorType".toList = some (.str type) ∧
  (∃ v, err.get? "errorCode".toList = some v ∧ v.getInt = .ok code) ∧
  err.get? "message".toList = upstream.map Json.str ∧
  parseStack err = .ok stack

/-- A process without the environment variable, without a module directory and
without any file. -/
def bareWorld : World :=
  ⟨none, [], fun dir name => dir ++ '/' :: name, fun _ => Probe.absent⟩

/-- The payload of Scenario B. -/
def permissionDenied : Json :=
  .obj [("errorCode".toList, .int 4), ("errorName".toList, .str "PERMISSION_DENIED".toList),
        ("errorType".toList, .str "USER_ERROR".toList)]

/-- A payload whose name is in no catalog, with a lower-case category, an
upstream message and a stack. -/
def unknownLowerCase : Json :=
  .obj [("errorCode".toList, .int 7), ("errorName".toList, .str "SOME_NEW_ERROR".toList),
        ("errorType".toList, .str "user_error".toList),
        ("failureInfo".toList, .obj [("stack".toList, .arr [.str "at x.y".toList])]),
        ("message".toList, .str "boom".toList)]

/-- A payload without the member `errorCode`. -/
def missingCode : Json :=
  .obj [("errorName".toList, .str "SYNTAX_ERROR".toList),
        ("errorType".toList, .str "USER_ERROR".toList)]

/-- Initialised globals whose catalog holds one overriding entry with a
warning-class SQLSTATE and an empty description. -/
def warningState : HandlerState :=
  ⟨[("SOME_NEW_ERROR".toList, ⟨7, "SOME_NEW_ERROR".toList, "01000".toList, []⟩)],
   true, [], [], 0, false⟩

/-- A stored error that is warning-classified. -/
def warningError : OdbcError :=
  ⟨1, "01000".toList, 7, "[Trino] w".toList, "Some Warning".toList, [], none, none, []⟩

/-- A connection with a stored error. -/
def failedConnection : Connection :=
  ⟨⟨true, "08001".toList, "cannot connect".toList⟩⟩

/-! ### Notions used to state the properties of the catalog -/

/-- The file a call of `ReloadMappingFromJson` reads (line 476). -/
def reloadFile (st : HandlerState) (w : World) (path : Str) : Str :=
  if !path.isEmpty then path else resolve_default_json_path st w

/-- The call of `ReloadMappingFromJson` that `maybeAutoReloadFromDisk` makes
(line 458): its argument, or `none` when the function returns without the
call. -/
def autoReloadCall (st : HandlerState) (w : World) : Option Str :=
  let path := resolve_default_json_path st w
  match w.probe path with
  | .failed => none
  | .absent => none
  | .present f =>
    match f.mtime with
    | none => none
    | some mtime => if !st.loaded_once ∨ mtime ≠ st.last_mtime then some path else none

/-- The file is absent, cannot be opened, is not valid JSON, is not a JSON
object, or lacks an `entries` array. -/
def unloadable (w : World) (file : Str) : Prop :=
  match w.probe file with
  | .failed => True
  | .absent => True
  | .present f =>
    f.openable = false ∨ f.content = none ∨
    ∃ j, f.content = some j ∧
      (j.is_object = false ∨ j.get? "entries".toList = none ∨
        ∃ v, j.get? "entries".toList = some v ∧ v.is_array = false)

/-- The integer a member of an override entry holds, when the member is
present and an integer. -/
def intMember (item : Json) (key : Str) : Option Int :=
  match item.get? key with
  | some (.int n) => some n
  | _ => none

/-- The string a member of an override entry holds, when the member is present
and a string. -/
def strMember (item : Json) (key : Str) : Option Str :=
  match item.get? key with
  | some (.str s) => some s
  | _ => none

/-- What an override entry with a string name specifies: the name, and each of
the three other fields when it is present and well typed. -/
structure Patch where
  name : Str
  trino_code : Option Int
  sqlstate : Option Str
  description : Option Str

/-- The patch of an element of `entries`; `none` for an element that is not an
object or has no string name. -/
def patchOf (item : Json) : Option Patch :=
  match strMember item "name".toList with
  | some name =>
    some ⟨name, intMember item "trino_code".toList, strMember item "sqlstate".toList,
      strMember item "description".toList⟩
  | none => none

/-- The entry of a name the catalog does not hold: the defaults of the merge. -/
def blankEntry : Entry := ⟨-1, [], [], []⟩

/-- A patch laid over the entry held before it: every field the patch
specifies is taken from the patch, every other field is kept. -/
def patchEntry (prior : Entry) (p : Patch) : Entry :=
  ⟨(p.trino_code.map toInt32).getD prior.trino_code, p.name,
    p.sqlstate.getD prior.sqlstate, p.description.getD prior.description⟩

/-- A patch applied to the catalog as an upsert by name. -/
def applyPatch (catalog : Catalog) (p : Patch) : Catalog :=
  assign catalog p.name (patchEntry ((findEntry catalog p.name).getD blankEntry) p)

/-- The lines a stack contributes to the record: none when there is no stack,
otherwise the header followed by every frame behind one tab, in order. -/
def stackBlock (header : Str) : Option (List Str) → List Str
  | some frames => header :: frames.map (fun s => '\t' :: s)
  | none => []

/-- The states of the globals a sequential program can reach from program
start through the entry points of the handler, whatever the environment and
the files are at each call. -/
inductive Reachable : HandlerState → Prop where
  | start : Reachable HandlerState.initial
  | ensure (st : HandlerState) (w : World) :
      Reachable st → Reachable (ensureInitialized st w)
  | reload (st : HandlerState) (w : World) (path : Str) :
      Reachable st → Reachable (ReloadMappingFromJson st w path).1
  | translate (st : HandlerState) (w : World) (err : Json) (queryId : Str) :
      Reachable st → Reachable (FromTrinoJson st w err queryId).1
  | setDirectory (st : HandlerState) (dir : Str) :
      Reachable st → Reachable (SetConfigDirectory st dir)

/-- Every entry of the catalog is stored under its own name and no name is
stored twice. -/
def NameKeyed (catalog : Catalog) : Prop :=
  (∀ k e, (k, e) ∈ catalog → e.trino_name = k) ∧ (catalog.map (fun kv => kv.1)).Nodup

/-- A payload whose nested cause has a stack and a type. -/
def causeWithType : Json :=
  .obj [("errorCode".toList, .int 7), ("errorName".toList, .str "SOME_NEW_ERROR".toList),
        ("errorType".toList, .str "EXTERNAL".toList),
        ("failureInfo".toList, .obj [
          ("cause".toList, .obj [("stack".toList, .arr [.str "at b".toList]),
                                 ("type".toList, .str "java.io.IOException".toList)]),
          ("stack".toList, .arr [.str "at a".toList, .str "at a2".toList])])]

/-- A payload whose nested cause has a stack and no type. -/
def causeWithoutType : Json :=
  .obj [("errorCode".toList, .int 7), ("errorName".toList, .str "SOME_NEW_ERROR".toList),
        ("errorType".toList, .str "EXTERNAL".toList),
        ("failureInfo".toList, .obj [
          ("cause".toList, .obj [("stack".toList, .arr [.str "at b".toList])]),
          ("stack".toList, .arr [.str "at a".toList])])]

/-- A payload with a location object at top level and another one inside
`failureInfo`. -/
def twoLocations : Json :=
  .obj [("errorCode".toList, .int 1), ("errorLocation".toList,
          .obj [("columnNumber".toList, .int 2), ("lineNumber".toList, .int 1)]),
        ("errorName".toList, .str "SYNTAX_ERROR".toList),
        ("errorType".toList, .str "USER_ERROR".toList),
        ("failureInfo".toList, .obj [("errorLocation".toList,
          .obj [("columnNumber".toList, .int 5), ("lineNumber".toList, .int 3)])])]

/-- A payload whose top-level `errorLocation` is `null`, with a location object
inside `failureInfo`. -/
def nullLocation : Json :=
  .obj [("errorCode".toList, .int 1), ("errorLocation".toList, .null),
        ("errorName".toList, .str "SYNTAX_ERROR".toList),
        ("errorType".toList, .str "USER_ERROR".toList),
        ("failureInfo".toList, .obj [("errorLocation".toList,
          .obj [("columnNumber".toList, .int 5), ("lineNumber".toList, .int 3)])])]

/-- An override file: two entries for one new name, the second without
SQLSTATE and code, an element that is no object, and an entry for a compiled
name. -/
def sampleOverride : Json :=
  .obj [("entries".toList, .arr [
    .obj [("name".toList, .str "MY_ERROR".toList), ("sqlstate".toList, .str "01000".toList),
          ("trino_code".toList, .int 900)],
    .obj [("description".toList, .str "Mine".toList), ("name".toList, .str "MY_ERROR".toList)],
    .str "noise".toList,
    .obj [("name".toList, .str "TABLE_NOT_FOUND".toList),
          ("sqlstate".toList, .str "42S99".toList)]])]

/-- A process without the environment variable and without a module directory,
whose working directory holds the override file `sampleOverride`. -/
def overrideWorld : World :=
  ⟨none, [], fun dir name => dir ++ '/' :: name,
   fun path =>
    if path = "trino_odbc_errors.json".toList then Probe.present ⟨some 17, true, some sampleOverride⟩
    else Probe.absent⟩

/-- An override entry whose numeric code does not fit 32 bits. -/
def wideCode : Json :=
  .obj [("name".toList, .str "MY_ERROR".toList), ("trino_code".toList, .int 4294967301)]

/-! ### Notions used to state the bookkeeping of reloads -/

/-- The path of the most recent call of `ReloadMappingFromJson` that returned
true, after the body of a call (lines 476-553) has run on the globals `st`;
`last` is that path before the call, `none` when no call has returned true. -/
def lastLoadedBody (st : HandlerState) (w : World) (path : Str) (last : Option Str) :
    Option Str :=
  if (reloadBody st w path).2.1 then some (reloadFile st w path) else last

/-- The same after a call of `ensureInitialized`, whose first run makes one call
of `ReloadMappingFromJson`. -/
def lastLoadedEnsure (st : HandlerState) (w : World) (last : Option Str) : Option Str :=
  if st.initialized then last
  else lastLoadedBody { st with initialized := true, catalog := buildCompiledDefaults } w [] last

/-- The same after a call of `ReloadMappingFromJson`. -/
def lastLoadedReload (st : HandlerState) (w : World) (path : Str) (last : Option Str) :
    Option Str :=
  lastLoadedBody (ensureInitialized st w) w path (lastLoadedEnsure st w last)

/-- The same after a call of `maybeAutoReloadFromDisk`. -/
def lastLoadedAuto (st : HandlerState) (w : World) (last : Option Str) : Option Str :=
  match autoReloadCall st w with
  | some path => lastLoadedReload st w path last
  | none => last

/-- The same after a call of `FromTrinoJson`. -/
def lastLoadedTranslate (st : HandlerState) (w : World) (last : Option Str) : Option Str :=
  lastLoadedAuto (ensureInitialized st w) w (lastLoadedEnsure st w last)

/-- The states of the globals a sequential program can reach from program
start through the entry points of the handler, each with the path of the most
recent call of `ReloadMappingFromJson` that returned true so far, calls made
inside `ensureInitialized` and `maybeAutoReloadFromDisk` included. -/
inductive History : HandlerState → Option Str → Prop where
  | start : History HandlerState.initial none
  | ensure (st : HandlerState) (w : World) (last : Option Str) :
      History st last → History (ensureInitialized st w) (lastLoadedEnsure st w last)
  | reload (st : HandlerState) (w : World) (path : Str) (last : Option Str) :
      History st last →
      History (ReloadMappingFromJson st w path).1 (lastLoadedReload st w path last)
  | translate (st : HandlerState) (w : World) (err : Json) (queryId : Str)
      (last : Option Str) :
      History st last →
      History (FromTrinoJson st w err queryId).1 (lastLoadedTranslate st w last)
  | setDirectory (st : HandlerState) (dir : Str) (last : Option Str) :
      History st last → History (SetConfigDirectory st dir) last

/-- The effective path and the loaded-once flag agree with the history: the
path is that of the most recent call that returned true, or empty, and the flag
is set exactly when there was such a call. -/
def Booked (st : HandlerState) (last : Option Str) : Prop :=
  st.effective_path = last.getD [] ∧ st.loaded_once = last.isSome

/-- The file is found, opens, parses and holds the array `entries`. -/
def loadable (w : World) (file : Str) (entries : List Json) : Prop :=
  ∃ f j, w.probe file = .present f ∧ f.openable = true ∧ f.content = some j ∧
    j.get? "entries".toList = some (.arr entries)

/-- The names of the well-formed entries of an override list. -/
def overrideNames (entries : List Json) : List Str :=
  (entries.filterMap patchOf).map (fun p => p.name)

/-- A sample error whose message holds a newline. -/
def twoLineError : OdbcError :=
  ⟨-1, "42000".toList, 4, "first\nsecond".toList, "d".toList, ["at a.b".toList], none, none,
   "q1".toList⟩

/-- A payload without `errorName` that carries a stack and a location. -/
def missingNameWithContext : Json :=
  .obj [("errorCode".toList, .int 1),
        ("errorLocation".toList,
          .obj [("columnNumber".toList, .int 2), ("lineNumber".toList, .int 1)]),
        ("errorType".toList, .str "USER_ERROR".toList),
        ("failureInfo".toList, .obj [("stack".toList, .arr [.str "at a".toList])])]

/-- A payload for the compiled name "TABLE_NOT_FOUND" (compiled code 46) with
the code 99. -/
def tableNotFound99 : Json :=
  .obj [("errorCode".toList, .int 99), ("errorName".toList, .str "TABLE_NOT_FOUND".toList),
        ("errorType".toList, .str "USER_ERROR".toList)]

/-- A payload whose code does not fit 32 bits. -/
def wideErrorCode : Json :=
  .obj [("errorCode".toList, .int 4294967301),
        ("errorName".toList, .str "TABLE_NOT_FOUND".toList),
        ("errorType".toList, .str "USER_ERROR".toList)]

/-! ### Payloads whose members have other types -/

/-- The exception or fault a call ended with; `none` when it returned. -/
def faultOf {α : Type} (r : Except Fault α) : Option Fault :=
  match r with
  | .ok _ => none
  | .error f => some f

/-- The payload has the members `errorName`, `errorType` and `errorCode`
(the test of lines 574-575). -/
def hasRequired (err : Json) : Bool :=
  err.contains "errorName".toList && err.contains "errorType".toList &&
    err.contains "errorCode".toList

/-- The payload of Scenario B with a stack, a location and the member
`message` holding `null`. -/
def nullMessage : Json :=
  .obj [("errorCode".toList, .int 4),
        ("errorLocation".toList,
          .obj [("columnNumber".toList, .int 2), ("lineNumber".toList, .int 1)]),
        ("errorName".toList, .str "PERMISSION_DENIED".toList),
        ("errorType".toList, .str "USER_ERROR".toList),
        ("failureInfo".toList, .obj [("stack".toList, .arr [.str "at a".toList])]),
        ("message".toList, .null)]

/-- A payload whose name is in no catalog, with the member `message` holding
`null`. -/
def unknownNullMessage : Json :=
  .obj [("errorCode".toList, .int 7), ("errorName".toList, .str "SOME_NEW_ERROR".toList),
        ("errorType".toList, .str "USER_ERROR".toList), ("message".toList, .null)]

/-- The payload of Scenario B with a stack frame that is a number. -/
def numericFrame : Json :=
  .obj [("errorCode".toList, .int 4), ("errorName".toList, .str "PERMISSION_DENIED".toList),
        ("errorType".toList, .str "USER_ERROR".toList),
        ("failureInfo".toList, .obj [("stack".toList, .arr [.int 5])])]

/-- The payload of Scenario B with a number as `errorName`. -/
def numericName : Json :=
  .obj [("errorCode".toList, .int 4), ("errorName".toList, .int 5),
        ("errorType".toList, .str "USER_ERROR".toList)]

/-- The payload of Scenario B with `null` as `errorType`. -/
def nullType : Json :=
  .obj [("errorCode".toList, .int 4), ("errorName".toList, .str "PERMISSION_DENIED".toList),
        ("errorType".toList, .null)]

/-- The payload of Scenario B with a string as `errorCode`. -/
def textCode : Json :=
  .obj [("errorCode".toList, .str "4".toList),
        ("errorName".toList, .str "PERMISSION_DENIED".toList),
        ("errorType".toList, .str "USER_ERROR".toList)]

/-- Payloads that have the three required members, each with one member of a
type the translation does not read: the message, a stack frame, the name, the
category, the code. -/
def illTypedPayloads : List Json :=
  [nullMessage, numericFrame, numericName, nullType, textCode]

end TrinoOdbc

namespace TrinoOdbc

/-! ### The loops -/

theorem toSizeT_lt (x : Int) : toSizeT x < 18446744073709551616 := by
  unfold toSizeT; omega

theorem chunkLoop_eq (lines : List Str) (chunkSize recNumber : Nat)
    (hR : recNumber < 18446744073709551616) :
    ∀ (fuel i currentChunk : Nat), currentChunk < 18446744073709551616 →
      (18446744073709551616 - currentChunk + recNumber) % 18446744073709551616 < fuel →
      chunkLoop lines chunkSize recNumber fuel i currentChunk =
        some (searchFrom lines chunkSize
          ((18446744073709551616 - currentChunk + recNumber) % 18446744073709551616) i) := by
  intro fuel
  induction fuel with
  | zero => intro i c _ h; omega
  | succ fuel ih =>
    intro i c hc hfuel
    unfold chunkLoop
    by_cases hi : i < lines.length
    · by_cases hcr : c = recNumber
      · subst hcr
        have hd : (18446744073709551616 - c + c) % 18446744073709551616 = 0 := by omega
        rw [hd]
        simp [hi, searchFrom]
      · have hd : (18446744073709551616 - c + recNumber) % 18446744073709551616 =
            (18446744073709551616 - (c + 1) % 18446744073709551616 + recNumber)
              % 18446744073709551616 + 1 := by omega
        rw [hd]
        simp only [hi, hcr, if_true, if_false, searchFrom, nextStart]
        apply ih
        · omega
        · omega
    · cases hdd : (18446744073709551616 - c + recNumber) % 18446744073709551616 <;>
        simp [hi, searchFrom]

theorem chunkLoop_total (lines : List Str) (chunkSize : Nat) (RecNumber : Int) :
    chunkLoop lines chunkSize (toSizeT RecNumber) loopFuel 0 1 =
      some (searchFrom lines chunkSize (passOf RecNumber) 0) := by
  have h := toSizeT_lt RecNumber
  have hp : passOf RecNumber =
      (18446744073709551616 - 1 + toSizeT RecNumber) % 18446744073709551616 := by
    unfold passOf; omega
  rw [hp]
  apply chunkLoop_eq _ _ _ h
  · omega
  · unfold loopFuel; omega

theorem innerLoop_eq (chunkSize : Nat) :
    ∀ (rest : List Str) (j tempLen : Nat) (tempChunk : Str),
      innerLoop chunkSize rest j tempLen tempChunk =
        (j + takeCount chunkSize rest tempLen,
          tempChunk ++ joinLines (rest.take (takeCount chunkSize rest tempLen))) := by
  intro rest
  induction rest with
  | nil => intro j t c; simp [innerLoop, takeCount, joinLines]
  | cons line rest ih =>
    intro j t c
    unfold innerLoop takeCount
    by_cases h : t + (line.length + 1) > chunkSize ∧ t > 0
    · simp [h, joinLines]
    · simp only [h, if_false]
      rw [ih]
      simp [joinLines, List.take_succ_cons, List.flatMap_cons]
      omega

theorem takeCount_le (chunkSize : Nat) :
    ∀ (rest : List Str) (tempLen : Nat), takeCount chunkSize rest tempLen ≤ rest.length := by
  intro rest
  induction rest with
  | nil => intro t; simp [takeCount]
  | cons line rest ih =>
    intro t
    unfold takeCount
    split
    · simp
    · have := ih (t + (line.length + 1)); simp; omega

theorem passOf_of_pos (K : Int) (h1 : 1 ≤ K) (h2 : K < 18446744073709551616) :
    passOf K = K.toNat - 1 := by
  unfold passOf toSizeT; omega

theorem takeCount_length (chunkSize : Nat) :
    ∀ (rest : List Str) (tempLen : Nat), 0 < tempLen →
      tempLen + (joinLines (rest.take (takeCount chunkSize rest tempLen))).length
        ≤ max chunkSize tempLen := by
  intro rest
  induction rest with
  | nil => intro t _; simp [takeCount, joinLines]
  | cons line rest ih =>
    intro t ht
    unfold takeCount
    by_cases h : t + (line.length + 1) > chunkSize ∧ t > 0
    · simp [h, joinLines]
    · simp only [h, if_false]
      have h2 := ih (t + (line.length + 1)) (by omega)
      simp only [joinLines, List.take_succ_cons, List.flatMap_cons, List.length_append,
        List.length_singleton] at h2 ⊢
      omega

theorem fillChunk_eq (lines : List Str) (chunkSize i : Nat) :
    fillChunk lines chunkSize i =
      (i + takeCount chunkSize (lines.drop i) 1,
        '\n' :: joinLines ((lines.drop i).take (takeCount chunkSize (lines.drop i) 1))) := by
  unfold fillChunk
  rw [innerLoop_eq]
  simp

theorem fillChunk_length (lines : List Str) (chunkSize i : Nat) :
    (fillChunk lines chunkSize i).2.length ≤ max chunkSize 1 := by
  rw [fillChunk_eq]
  have h := takeCount_length chunkSize (lines.drop i) 1 (by omega)
  simp only [List.length_cons]
  omega

theorem fillChunk_ne_nil (lines : List Str) (chunkSize i : Nat) :
    (fillChunk lines chunkSize i).2 ≠ [] := by
  rw [fillChunk_eq]; simp

theorem nextStart_eq (lines : List Str) (chunkSize i : Nat) :
    nextStart lines chunkSize i = i + takeCount chunkSize (lines.drop i) 1 := by
  unfold nextStart; rw [fillChunk_eq]

theorem le_nextStart (lines : List Str) (chunkSize i : Nat) :
    i ≤ nextStart lines chunkSize i := by
  rw [nextStart_eq]; omega

theorem nextStart_le (lines : List Str) (chunkSize i : Nat) (hi : i ≤ lines.length) :
    nextStart lines chunkSize i ≤ lines.length := by
  rw [nextStart_eq]
  have h := takeCount_le chunkSize (lines.drop i) 1
  simp only [List.length_drop] at h
  omega

theorem le_iterate_nextStart (lines : List Str) (chunkSize : Nat) :
    ∀ (d i : Nat), i ≤ (nextStart lines chunkSize)^[d] i := by
  intro d
  induction d with
  | zero => intro i; simp
  | succ d ih =>
    intro i
    rw [Function.iterate_succ_apply]
    exact le_trans (le_nextStart lines chunkSize i) (ih _)

theorem searchFrom_eq (lines : List Str) (chunkSize : Nat) :
    ∀ (d i : Nat), searchFrom lines chunkSize d i =
      if (nextStart lines chunkSize)^[d] i < lines.length then
        (true, (fillChunk lines chunkSize ((nextStart lines chunkSize)^[d] i)).2)
      else (false, []) := by
  intro d
  induction d with
  | zero => intro i; simp [searchFrom]
  | succ d ih =>
    intro i
    unfold searchFrom
    rw [Function.iterate_succ_apply]
    by_cases hi : i < lines.length
    · simp only [hi, if_true]; exact ih _
    · have h1 := le_iterate_nextStart lines chunkSize d (nextStart lines chunkSize i)
      have h2 := le_nextStart lines chunkSize i
      have h3 : ¬ (nextStart lines chunkSize)^[d] (nextStart lines chunkSize i) < lines.length := by
        omega
      simp [hi, h3]

theorem chunkLoop_chunkStart (lines : List Str) (chunkSize : Nat) (RecNumber : Int) :
    chunkLoop lines chunkSize (toSizeT RecNumber) loopFuel 0 1 =
      some (if chunkStart lines chunkSize (passOf RecNumber) < lines.length then
        (true, (fillChunk lines chunkSize (chunkStart lines chunkSize (passOf RecNumber))).2)
      else (false, [])) := by
  rw [chunkLoop_total, searchFrom_eq]; rfl

/-! ### The statement branch -/

theorem chunkSizeOf_lt (L : Int) (h : 0 < L) : chunkSizeOf L < L.toNat := by
  unfold chunkSizeOf toSizeT
  simp only [gt_iff_lt, h, if_true]
  omega

theorem chunkSizeOf_of_pos (L : Int) (h : 0 < L) (h2 : L ≤ 18446744073709551616) :
    chunkSizeOf L = L.toNat - 1 := by
  unfold chunkSizeOf toSizeT
  simp only [gt_iff_lt, h, if_true]
  omega

theorem chunkSizeOf_of_nonpos (L : Int) (h : L ≤ 0) : chunkSizeOf L = 0 := by
  unfold chunkSizeOf
  have : ¬ L > 0 := by omega
  simp [this]

theorem strncpy_s_ok (numberOfElements : Nat) (strSource : Str) (count : Nat)
    (h : count < numberOfElements) :
    strncpy_s numberOfElements strSource count =
      .ok (((cstr strSource).take count).enum ++ [(min count (cstr strSource).length, NUL)]) := by
  unfold strncpy_s
  have h1 : min count (cstr strSource).length < numberOfElements := by omega
  simp only [h1, if_true]
  have h2 : (cstr strSource).take (min count (cstr strSource).length)
      = (cstr strSource).take count := by
    rw [List.take_eq_take]; simp
  rw [h2]

theorem statementDiag_eq (odbcErr : OdbcError) (RecNumber : Int) (SqlStatePtr : Option Str)
    (NativeErrorPtr : Option Int) (MessageTextPtr : Option (List Char)) (BufferLength : Int)
    (TextLengthPtr : Option Int) :
    statementDiag odbcErr RecNumber SqlStatePtr NativeErrorPtr MessageTextPtr BufferLength
        TextLengthPtr =
      if chunkStart (buildLines odbcErr) (chunkSizeOf BufferLength) (passOf RecNumber)
          < (buildLines odbcErr).length then
        .ok ⟨SQL_SUCCESS,
          ⟨if RecNumber = 1 then SqlStatePtr.map (fun _ => odbcErr.sqlstate) else SqlStatePtr,
           if RecNumber = 1 then NativeErrorPtr.map (fun _ => odbcErr.native) else NativeErrorPtr,
           MessageTextPtr.map (fun buf => applyStores buf
             (if MessageTextPtr.isSome ∧ BufferLength > 0 then
               copyStores (selectedChunk odbcErr RecNumber BufferLength)
                 (min (selectedChunk odbcErr RecNumber BufferLength).length
                   (chunkSizeOf BufferLength))
              else [])),
           TextLengthPtr.map (fun _ => toSmallInt
             (min (selectedChunk odbcErr RecNumber BufferLength).length
               (chunkSizeOf BufferLength)))⟩,
          if MessageTextPtr.isSome ∧ BufferLength > 0 then
            copyStores (selectedChunk odbcErr RecNumber BufferLength)
              (min (selectedChunk odbcErr RecNumber BufferLength).length
                (chunkSizeOf BufferLength))
          else []⟩
      else
        .ok ⟨SQL_NO_DATA,
          ⟨if RecNumber = 1 then SqlStatePtr.map (fun _ => odbcErr.sqlstate) else SqlStatePtr,
           if RecNumber = 1 then NativeErrorPtr.map (fun _ => odbcErr.native) else NativeErrorPtr,
           MessageTextPtr, TextLengthPtr⟩, []⟩ := by
  unfold statementDiag selectedChunk
  simp only [chunkLoop_chunkStart, writeNullTermStringToPtr]
  by_cases hs : chunkStart (buildLines odbcErr) (chunkSizeOf BufferLength) (passOf RecNumber)
      < (buildLines odbcErr).length
  · have hne := fillChunk_ne_nil (buildLines odbcErr) (chunkSizeOf BufferLength)
      (chunkStart (buildLines odbcErr) (chunkSizeOf BufferLength) (passOf RecNumber))
    rw [if_pos hs, if_pos hs]
    generalize (fillChunk (buildLines odbcErr) (chunkSizeOf BufferLength)
      (chunkStart (buildLines odbcErr) (chunkSizeOf BufferLength) (passOf RecNumber))).2
        = chunk at hne ⊢
    have hemp : chunk.isEmpty = false := by
      cases chunk with
      | nil => exact absurd rfl hne
      | cons c cs => rfl
    simp only [Bool.not_true, Bool.false_or, hemp, Bool.false_eq_true, if_false]
    by_cases hc : MessageTextPtr.isSome ∧ BufferLength > 0
    · have hlt := chunkSizeOf_lt BufferLength hc.2
      rw [if_pos hc, if_pos hc]
      rw [strncpy_s_ok _ _ _ (by omega)]
      simp [copyStores, Except.map]
    · rw [if_neg hc, if_neg hc]
  · rw [if_neg hs, if_neg hs]
    simp

theorem SQLGetDiagRec_stmt (odbcErr : OdbcError) (RecNumber : Int) (SqlStatePtr : Option Str)
    (NativeErrorPtr : Option Int) (MessageTextPtr : Option (List Char)) (BufferLength : Int)
    (TextLengthPtr : Option Int) :
    SQLGetDiagRec SQL_HANDLE_STMT (stmtWithError odbcErr) RecNumber SqlStatePtr NativeErrorPtr
        MessageTextPtr BufferLength TextLengthPtr =
      statementDiag odbcErr RecNumber SqlStatePtr NativeErrorPtr MessageTextPtr BufferLength
        TextLengthPtr := by
  simp [SQLGetDiagRec, stmtWithError, SQL_HANDLE_STMT, SQL_HANDLE_ENV, SQL_HANDLE_DBC]

theorem copyStores_index_le (chunk : Str) (toCopy : Nat) :
    ∀ w ∈ copyStores chunk toCopy, w.1 ≤ toCopy := by
  intro w hw
  unfold copyStores at hw
  rcases List.mem_append.mp hw with h | h
  · have h1 := List.fst_lt_of_mem_enum h
    simp only [List.length_take] at h1
    omega
  · simp only [List.mem_cons, List.mem_singleton, List.not_mem_nil, or_false] at h
    rcases h with h | h <;> subst h <;> simp

theorem getlines_cons_ne_nil (c : Char) (cs : Str) : getlines (c :: cs) ≠ [] := by
  unfold getlines
  split
  · simp
  · split <;> simp

theorem buildLines_ne_nil (odbcErr : OdbcError) : buildLines odbcErr ≠ [] := by
  have h : "Trino Error Information(queryId:".toList
      = 'T' :: "rino Error Information(queryId:".toList := by rfl
  unfold buildLines OdbcErrorToString
  rw [h]
  simp only [List.cons_append, List.append_assoc]
  intro hnil
  exact getlines_cons_ne_nil _ _ (List.append_eq_nil.mp hnil).1

theorem buildLines_length_pos (odbcErr : OdbcError) : 0 < (buildLines odbcErr).length :=
  List.length_pos.mpr (buildLines_ne_nil odbcErr)

theorem takeCount_stuck (chunkSize : Nat) (line : Str) (rest : List Str)
    (hbig : chunkSize < line.length + 2) : takeCount chunkSize (line :: rest) 1 = 0 := by
  unfold takeCount
  have : 1 + (line.length + 1) > chunkSize ∧ 1 > 0 := by omega
  simp [this]

theorem fillChunk_stuck (lines : List Str) (chunkSize i : Nat) (line : Str)
    (hline : lines[i]? = some line) (hbig : chunkSize < line.length + 2) :
    fillChunk lines chunkSize i = (i, ['\n']) := by
  rw [fillChunk_eq]
  have hi : i < lines.length := by
    rcases List.getElem?_eq_some_iff.mp hline with ⟨h, _⟩
    exact h
  have hd : lines.drop i = line :: lines.drop (i + 1) := by
    rw [List.drop_eq_getElem_cons hi]
    congr 1
    rw [List.getElem?_eq_getElem hi] at hline
    exact Option.some.inj hline
  rw [hd, takeCount_stuck chunkSize line _ hbig]
  simp [joinLines]

theorem chunkStart_mono (lines : List Str) (chunkSize k e : Nat) :
    chunkStart lines chunkSize k ≤ chunkStart lines chunkSize (k + e) := by
  unfold chunkStart
  rw [Nat.add_comm, Function.iterate_add_apply]
  exact le_iterate_nextStart lines chunkSize e _

theorem chunkStart_stuck (lines : List Str) (chunkSize : Nat) (first : Str)
    (hfirst : lines[0]? = some first) (hbig : chunkSize < first.length + 2) (k : Nat) :
    chunkStart lines chunkSize k = 0 := by
  unfold chunkStart
  apply Function.iterate_fixed
  unfold nextStart
  rw [fillChunk_stuck lines chunkSize 0 first hfirst hbig]

theorem length_pos_of_getElem? (lines : List Str) (i : Nat) (line : Str)
    (h : lines[i]? = some line) : i < lines.length :=
  (List.getElem?_eq_some_iff.mp h).1

theorem toSmallInt_of_le (n : Nat) (h : n ≤ 32767) : toSmallInt n = (n : Int) := by
  unfold toSmallInt; omega

/-! ### The copy into the message buffer -/

theorem applyStores_append (buf : List Char) (a b : List (Nat × Char)) :
    applyStores buf (a ++ b) = applyStores (applyStores buf a) b := by
  unfold applyStores; rw [List.foldl_append]

theorem applyStores_enumFrom (l : List Char) :
    ∀ (k : Nat) (buf : List Char), k + l.length ≤ buf.length →
      applyStores buf (l.enumFrom k) = buf.take k ++ l ++ buf.drop (k + l.length) := by
  induction l with
  | nil => intro k buf _; simp [applyStores]
  | cons a l ih =>
    intro k buf h
    simp only [List.length_cons] at h
    have hk : k < buf.length := by omega
    have hstep : applyStores buf ((a :: l).enumFrom k)
        = applyStores (buf.set k a) (l.enumFrom (k + 1)) := by
      simp [applyStores, store]
    rw [hstep, ih (k + 1) (buf.set k a) (by simp; omega)]
    rw [List.set_eq_take_append_cons_drop, if_pos hk]
    have hlen : (List.take k buf).length = k := by simp; omega
    have h1 : List.take (k + 1) (List.take k buf ++ a :: List.drop (k + 1) buf)
        = List.take k buf ++ [a] := by
      rw [List.take_append_eq_append_take, hlen]
      simp
    have h2 : List.drop (k + 1 + l.length) (List.take k buf ++ a :: List.drop (k + 1) buf)
        = List.drop (k + (a :: l).length) buf := by
      rw [List.drop_append_eq_append_drop, hlen]
      have e1 : k + 1 + l.length - k = l.length + 1 := by omega
      have e2 : List.drop (k + 1 + l.length) (List.take k buf) = [] := by
        apply List.drop_eq_nil_of_le; simp; omega
      rw [e1, e2]
      simp only [List.nil_append, List.drop_succ_cons, List.drop_drop, List.length_cons]
      congr 1
      omega
    rw [h1, h2]
    simp

theorem applyStores_copy (buf l : List Char) (h : l.length < buf.length) :
    applyStores buf (l.enum ++ [(l.length, NUL), (l.length, NUL)])
      = l ++ NUL :: buf.drop (l.length + 1) := by
  rw [applyStores_append, List.enum, applyStores_enumFrom l 0 buf (by omega)]
  simp only [List.take_zero, List.nil_append, Nat.zero_add]
  obtain ⟨b, hb⟩ : ∃ b, buf.drop l.length = b :: buf.drop (l.length + 1) :=
    ⟨_, List.drop_eq_getElem_cons h⟩
  rw [hb]
  generalize buf.drop (l.length + 1) = rest
  simp [applyStores, store, List.set_append_right]

theorem cstr_take_of_not_mem (chunk : Str) (n : Nat) (h : NUL ∉ chunk.take n) :
    (cstr chunk).take n = chunk.take n ∧ min n (cstr chunk).length = min n chunk.length := by
  have hsplit : chunk = chunk.take n ++ chunk.drop n := (List.take_append_drop n chunk).symm
  have hall : ∀ a ∈ chunk.take n, (fun c => c != NUL) a = true := by
    intro a ha
    have : a ≠ NUL := fun e => h (e ▸ ha)
    simpa using this
  have hc : cstr chunk = chunk.take n ++ (chunk.drop n).takeWhile (fun c => c != NUL) := by
    unfold cstr
    conv_lhs => rw [hsplit]
    exact List.takeWhile_append_of_pos hall
  have hlen : (chunk.take n).length = min n chunk.length := List.length_take n chunk
  constructor
  · rw [hc]
    by_cases hn : n ≤ chunk.length
    · exact List.take_left' (by rw [hlen]; omega)
    · have hd : chunk.drop n = [] := List.drop_eq_nil_of_le (by omega)
      rw [hd]
      simp
  · have h1 : (cstr chunk).length ≤ chunk.length := by
      unfold cstr
      exact (List.takeWhile_sublist _).length_le
    have h2 : min n chunk.length ≤ (cstr chunk).length := by
      rw [hc, List.length_append, hlen]; omega
    omega

theorem selected_of_chunkLoop (odbcErr : OdbcError) (RecNumber BufferLength : Int) (chunk : Str)
    (hsel : chunkLoop (buildLines odbcErr) (chunkSizeOf BufferLength) (toSizeT RecNumber)
      loopFuel 0 1 = some (true, chunk)) :
    chunkStart (buildLines odbcErr) (chunkSizeOf BufferLength) (passOf RecNumber)
        < (buildLines odbcErr).length ∧
      selectedChunk odbcErr RecNumber BufferLength = chunk := by
  rw [chunkLoop_chunkStart] at hsel
  by_cases hs : chunkStart (buildLines odbcErr) (chunkSizeOf BufferLength) (passOf RecNumber)
      < (buildLines odbcErr).length
  · rw [if_pos hs] at hsel
    refine ⟨hs, ?_⟩
    have h2 := Option.some.inj hsel
    rw [selectedChunk]
    exact (Prod.mk.inj h2).2
  · rw [if_neg hs] at hsel
    have h2 := Option.some.inj hsel
    have h3 := (Prod.mk.inj h2).1
    exact absurd h3 (by decide)

theorem cstr_append_nul (l rest : List Char) (h : NUL ∉ l) : cstr (l ++ NUL :: rest) = l := by
  unfold cstr
  have hall : ∀ a ∈ l, (fun c => c != NUL) a = true := by
    intro a ha
    have : a ≠ NUL := fun e => h (e ▸ ha)
    simpa using this
  rw [List.takeWhile_append_of_pos hall]
  simp

theorem record_returned (odbcErr : OdbcError) (RecNumber BufferLength : Int)
    (buf : List Char) (SqlStatePtr : Option Str) (NativeErrorPtr : Option Int)
    (TextLengthPtr : Option Int) (n : Nat)
    (hL : 0 < BufferLength) (hsmall : isSmallInt BufferLength)
    (hbuf : BufferLength.toNat ≤ buf.length)
    (hs : chunkStart (buildLines odbcErr) (chunkSizeOf BufferLength) (passOf RecNumber)
        < (buildLines odbcErr).length)
    (hn : min (selectedChunk odbcErr RecNumber BufferLength).length (BufferLength.toNat - 1) = n)
    (hnul : NUL ∉ (selectedChunk odbcErr RecNumber BufferLength).take n) :
    SQLGetDiagRec SQL_HANDLE_STMT (stmtWithError odbcErr) RecNumber SqlStatePtr
        NativeErrorPtr (some buf) BufferLength TextLengthPtr =
      .ok ⟨SQL_SUCCESS,
        ⟨if RecNumber = 1 then SqlStatePtr.map (fun _ => odbcErr.sqlstate) else SqlStatePtr,
         if RecNumber = 1 then NativeErrorPtr.map (fun _ => odbcErr.native) else NativeErrorPtr,
         some ((selectedChunk odbcErr RecNumber BufferLength).take n ++ NUL :: buf.drop (n + 1)),
         TextLengthPtr.map (fun _ => (n : Int))⟩,
        ((selectedChunk odbcErr RecNumber BufferLength).take n).enum ++ [(n, NUL), (n, NUL)]⟩ := by
  have hcs : chunkSizeOf BufferLength = BufferLength.toNat - 1 :=
    chunkSizeOf_of_pos BufferLength hL (by unfold isSmallInt at hsmall; omega)
  rw [SQLGetDiagRec_stmt, statementDiag_eq, if_pos hs, hcs, hn]
  generalize selectedChunk odbcErr RecNumber BufferLength = chunk at hn hnul ⊢
  obtain ⟨hc1, hc2⟩ := cstr_take_of_not_mem chunk n hnul
  have hlen : (chunk.take n).length = n := by rw [List.length_take]; omega
  have hstores : copyStores chunk n = (chunk.take n).enum ++ [(n, NUL), (n, NUL)] := by
    unfold copyStores
    rw [hc1, hc2]
    have : min n chunk.length = n := by omega
    rw [this]
  have hcond : (some buf).isSome = true ∧ BufferLength > 0 := ⟨rfl, hL⟩
  have hnlt : n < buf.length := by unfold isSmallInt at hsmall; omega
  have happly : applyStores buf ((chunk.take n).enum ++ [(n, NUL), (n, NUL)])
      = chunk.take n ++ NUL :: buf.drop (n + 1) := by
    have h := applyStores_copy buf (chunk.take n) (by rw [hlen]; exact hnlt)
    rw [hlen] at h
    exact h
  have hsm : toSmallInt n = (n : Int) :=
    toSmallInt_of_le n (by unfold isSmallInt at hsmall; omega)
  simp only [hcond, and_self, if_true, hstores, Option.map_some', happly, hsm]

theorem messageOf_record (ret : Int) (SqlState : Option Str) (NativeError TextLength : Option Int)
    (l rest : List Char) (n : Nat) (h : NUL ∉ l) :
    messageOf (.ok ⟨ret, ⟨SqlState, NativeError, some (l ++ NUL :: rest), TextLength⟩,
      l.enum ++ [(n, NUL), (n, NUL)]⟩) = l := by
  unfold messageOf
  simp [cstr_append_nul l rest h]

/-! ### The partition when every line fits -/

theorem takeCount_pos (chunkSize : Nat) (line : Str) (rest : List Str)
    (hfit : line.length + 2 ≤ chunkSize) : 0 < takeCount chunkSize (line :: rest) 1 := by
  unfold takeCount
  have : ¬ (1 + (line.length + 1) > chunkSize ∧ 1 > 0) := by omega
  rw [if_neg this]
  omega

theorem nextStart_progress (lines : List Str) (chunkSize i : Nat)
    (hfit : ∀ l ∈ lines, l.length + 2 ≤ chunkSize) (hi : i < lines.length) :
    i < nextStart lines chunkSize i := by
  rw [nextStart_eq, List.drop_eq_getElem_cons hi]
  have := takeCount_pos chunkSize lines[i] (lines.drop (i + 1))
    (hfit _ (List.getElem_mem hi))
  omega

theorem chunkStart_succ (lines : List Str) (chunkSize k : Nat) :
    chunkStart lines chunkSize (k + 1) = nextStart lines chunkSize (chunkStart lines chunkSize k) := by
  unfold chunkStart
  rw [Function.iterate_succ_apply']

theorem chunkStart_le_length (lines : List Str) (chunkSize : Nat) :
    ∀ k, chunkStart lines chunkSize k ≤ lines.length := by
  intro k
  induction k with
  | zero => simp [chunkStart]
  | succ k ih => rw [chunkStart_succ]; exact nextStart_le lines chunkSize _ ih

theorem chunkStart_ge (lines : List Str) (chunkSize : Nat)
    (hfit : ∀ l ∈ lines, l.length + 2 ≤ chunkSize) :
    ∀ k, min k lines.length ≤ chunkStart lines chunkSize k := by
  intro k
  induction k with
  | zero => simp
  | succ k ih =>
    rw [chunkStart_succ]
    by_cases h : chunkStart lines chunkSize k < lines.length
    · have := nextStart_progress lines chunkSize _ hfit h
      omega
    · have := le_nextStart lines chunkSize (chunkStart lines chunkSize k)
      omega

theorem exists_partition (lines : List Str) (chunkSize : Nat)
    (hfit : ∀ l ∈ lines, l.length + 2 ≤ chunkSize) (hpos : 0 < lines.length) :
    ∃ n, 0 < n ∧ n ≤ lines.length ∧ partitionsInto lines chunkSize n := by
  have hex : ∃ k, chunkStart lines chunkSize k = lines.length := by
    refine ⟨lines.length, ?_⟩
    have h1 := chunkStart_ge lines chunkSize hfit lines.length
    have h2 := chunkStart_le_length lines chunkSize lines.length
    omega
  refine ⟨Nat.find hex, ?_, ?_, ?_, Nat.find_spec hex⟩
  · apply Nat.pos_of_ne_zero
    intro h0
    have h := Nat.find_spec hex
    rw [h0] at h
    simp [chunkStart] at h
    omega
  · apply Nat.find_min' hex
    have h1 := chunkStart_ge lines chunkSize hfit lines.length
    have h2 := chunkStart_le_length lines chunkSize lines.length
    omega
  · intro k hk
    have h1 := Nat.find_min hex hk
    have h2 := chunkStart_le_length lines chunkSize k
    omega

theorem joinLines_append (a b : List Str) : joinLines (a ++ b) = joinLines a ++ joinLines b := by
  unfold joinLines; simp

theorem concat_chunks (lines : List Str) (chunkSize : Nat) (f : Nat → Str) :
    ∀ n, (∀ k, k < n → f k = joinLines ((lines.drop (chunkStart lines chunkSize k)).take
        (chunkStart lines chunkSize (k + 1) - chunkStart lines chunkSize k))) →
      (List.range n).flatMap f = joinLines (lines.take (chunkStart lines chunkSize n)) := by
  intro n
  induction n with
  | zero => intro _; simp [chunkStart, joinLines]
  | succ n ih =>
    intro hf
    have hle : chunkStart lines chunkSize n ≤ chunkStart lines chunkSize (n + 1) := by
      rw [chunkStart_succ]; exact le_nextStart _ _ _
    rw [List.range_succ, List.flatMap_append, ih (fun k hk => hf k (by omega))]
    simp only [List.flatMap_cons, List.flatMap_nil, List.append_nil]
    rw [hf n (by omega), ← joinLines_append, ← List.take_add]
    congr 2
    omega

theorem mem_joinLines_slice (lines : List Str) (i m : Nat) (c : Char)
    (h : c ∈ joinLines ((lines.drop i).take m)) : c ∈ joinLines lines := by
  unfold joinLines at h ⊢
  rw [List.mem_flatMap] at h ⊢
  obtain ⟨l, hl, hc⟩ := h
  exact ⟨l, List.mem_of_mem_drop (List.mem_of_mem_take hl), hc⟩

theorem passOf_succ (k : Nat) (h : k < 32767) : passOf ((k : Int) + 1) = k := by
  rw [passOf_of_pos _ (by omega) (by omega)]
  omega

theorem not_mem_take_of_not_mem (l : List Char) (n : Nat) (h : NUL ∉ l) : NUL ∉ l.take n :=
  fun hm => h (List.mem_of_mem_take hm)

theorem selectedChunk_eq (odbcErr : OdbcError) (RecNumber BufferLength : Int) :
    selectedChunk odbcErr RecNumber BufferLength = '\n' :: joinLines
      (((buildLines odbcErr).drop (chunkStart (buildLines odbcErr) (chunkSizeOf BufferLength)
        (passOf RecNumber))).take
        (chunkStart (buildLines odbcErr) (chunkSizeOf BufferLength) (passOf RecNumber + 1)
          - chunkStart (buildLines odbcErr) (chunkSizeOf BufferLength) (passOf RecNumber))) := by
  rw [selectedChunk, fillChunk_eq, chunkStart_succ, nextStart_eq]
  simp

theorem message_of_record (odbcErr : OdbcError) (RecNumber BufferLength : Int)
    (buf : List Char) (SqlStatePtr : Option Str) (NativeErrorPtr : Option Int)
    (TextLengthPtr : Option Int)
    (hL : 2 ≤ BufferLength) (hsmall : isSmallInt BufferLength)
    (hbuf : BufferLength.toNat ≤ buf.length)
    (hs : chunkStart (buildLines odbcErr) (chunkSizeOf BufferLength) (passOf RecNumber)
        < (buildLines odbcErr).length)
    (hnul : NUL ∉ selectedChunk odbcErr RecNumber BufferLength) :
    retOf (SQLGetDiagRec SQL_HANDLE_STMT (stmtWithError odbcErr) RecNumber SqlStatePtr
        NativeErrorPtr (some buf) BufferLength TextLengthPtr) = some SQL_SUCCESS ∧
      messageOf (SQLGetDiagRec SQL_HANDLE_STMT (stmtWithError odbcErr) RecNumber SqlStatePtr
        NativeErrorPtr (some buf) BufferLength TextLengthPtr)
        = selectedChunk odbcErr RecNumber BufferLength := by
  have hcs : chunkSizeOf BufferLength = BufferLength.toNat - 1 :=
    chunkSizeOf_of_pos BufferLength (by omega) (by unfold isSmallInt at hsmall; omega)
  have hlen : (selectedChunk odbcErr RecNumber BufferLength).length
      ≤ max (chunkSizeOf BufferLength) 1 := by
    rw [selectedChunk]; exact fillChunk_length _ _ _
  have hn : min (selectedChunk odbcErr RecNumber BufferLength).length
      (BufferLength.toNat - 1) = (selectedChunk odbcErr RecNumber BufferLength).length := by
    omega
  have hrec := record_returned odbcErr RecNumber BufferLength buf SqlStatePtr
    NativeErrorPtr TextLengthPtr _ (by omega) hsmall hbuf hs hn
    (not_mem_take_of_not_mem _ _ hnul)
  rw [hrec, List.take_length]
  exact ⟨rfl, messageOf_record _ _ _ _ _ _ _ hnul⟩

theorem NUL_ne_newline : NUL ≠ '\n' := by decide

/-! ### The rendered text -/

theorem joinLines_getlines :
    ∀ s : Str, (s = [] ∨ s.getLast? = some '\n') → joinLines (getlines s) = s := by
  intro s
  induction s with
  | nil => intro _; simp [getlines, joinLines]
  | cons c cs ih =>
    intro h
    have hlast : cs = [] ∨ cs.getLast? = some '\n' := by
      cases cs with
      | nil => exact Or.inl rfl
      | cons d ds =>
        right
        rcases h with h | h
        · exact absurd h (by simp)
        · simpa [List.getLast?_cons_cons] using h
    by_cases hc : c = '\n'
    · subst hc
      have := ih hlast
      simp only [getlines, if_true, joinLines, List.flatMap_cons, List.nil_append] at this ⊢
      rw [this]; rfl
    · cases cs with
      | nil =>
        rcases h with h | h
        · exact absurd h (by simp)
        · simp at h; exact absurd h hc
      | cons d ds =>
        have hih := ih hlast
        have hne := getlines_cons_ne_nil d ds
        unfold getlines
        rw [if_neg hc]
        cases hg : getlines (d :: ds) with
        | nil => exact absurd hg hne
        | cons l ls =>
          rw [hg] at hih
          simp only [joinLines, List.flatMap_cons, List.cons_append, List.append_assoc] at hih ⊢
          rw [hih]

theorem getLast?_append_newline (a b : Str) (h : b.getLast? = some '\n') :
    (a ++ b).getLast? = some '\n' := by
  rw [List.getLast?_append, h]; rfl

theorem OdbcErrorToString_ends (err : OdbcError) :
    (OdbcErrorToString err false).getLast? = some '\n' := by
  have hn : "\n".toList.getLast? = some '\n' := rfl
  unfold OdbcErrorToString
  cases err.lineNumber <;> cases err.columnNumber <;>
    simp only [List.append_nil, Bool.false_eq_true, if_false] <;>
    exact getLast?_append_newline _ _ (getLast?_append_newline _ _ hn)

theorem joinLines_buildLines (err : OdbcError) :
    joinLines (buildLines err) = OdbcErrorToString err true := by
  have ht : "\t".toList = ['\t'] := rfl
  have hn : "\n".toList = ['\n'] := rfl
  have h1 := joinLines_getlines (OdbcErrorToString err false) (Or.inr (OdbcErrorToString_ends err))
  have h2 : joinLines (err.stack.map (fun entry => '\t' :: entry))
      = err.stack.flatMap (fun entry => "\t".toList ++ entry ++ "\n".toList) := by
    rw [ht, hn]
    unfold joinLines
    induction err.stack with
    | nil => rfl
    | cons e es ih => simp [List.flatMap_cons, ih]
  have h3 : OdbcErrorToString err true = OdbcErrorToString err false
      ++ err.stack.flatMap (fun entry => "\t".toList ++ entry ++ "\n".toList) := by
    unfold OdbcErrorToString
    simp
  rw [buildLines, joinLines_append, h1, h2, h3]

/-! ### The translation of a payload -/

theorem applyStores_enum_nul (buf l : List Char) (h : l.length < buf.length) :
    applyStores buf (l.enum ++ [(l.length, NUL)]) = l ++ NUL :: buf.drop (l.length + 1) := by
  rw [applyStores_append, List.enum, applyStores_enumFrom l 0 buf (by omega)]
  simp only [List.take_zero, List.nil_append, Nat.zero_add]
  obtain ⟨b, hb⟩ : ∃ b, buf.drop l.length = b :: buf.drop (l.length + 1) :=
    ⟨_, List.drop_eq_getElem_cons h⟩
  rw [hb]
  generalize buf.drop (l.length + 1) = rest
  simp [applyStores, store, List.set_append_right]

theorem contains_of_get? (j : Json) (key : Str) (v : Json) (h : j.get? key = some v) :
    j.contains key = true := by
  unfold Json.contains; rw [h]; rfl

/-- The record that `translate` builds for a well-typed payload. -/
theorem translate_of_carries (st : HandlerState) (err : Json) (queryId name type : Str)
    (code : Int) (upstream : Option Str) (stack : List Str)
    (h : carries err name type code upstream stack) :
    translate st err queryId = .ok {
      ret := if isWarning
          (match LookupEntryByName st name with
           | some r => if !r.sqlstate.isEmpty then r.sqlstate else fallbackByType name type
           | none => fallbackByType name type) then SQL_SUCCESS_WITH_INFO else SQL_ERROR
      sqlstate :=
        match LookupEntryByName st name with
        | some r => if !r.sqlstate.isEmpty then r.sqlstate else fallbackByType name type
        | none => fallbackByType name type
      native := code
      message := "[Trino] ".toList ++ type ++ ": ".toList ++ name ++ " (".toList ++
        intToString code ++ ")".toList ++
        (if !queryId.isEmpty then " [queryId=".toList ++ queryId ++ "]".toList else []) ++
        (match upstream with
         | some text => " - ".toList ++ text
         | none => [])
      description :=
        match LookupEntryByName st name with
        | some r => if !r.description.isEmpty then r.description else humanize_name name
        | none => humanize_name name
      stack := stack
      lineNumber := (locationOf err).bind (fun l => locationField l "lineNumber".toList)
      columnNumber := (locationOf err).bind (fun l => locationField l "columnNumber".toList)
      queryId := queryId } := by
  obtain ⟨hname, htype, ⟨v, hcode, hint⟩, hmsg, hstack⟩ := h
  have c1 := contains_of_get? _ _ _ hname
  have c2 := contains_of_get? _ _ _ htype
  have c3 := contains_of_get? _ _ _ hcode
  unfold translate
  simp only [c1, c2, c3, hname, htype, hcode, hmsg, hstack, Option.getD_some, Json.getString,
    hint, bind, Except.bind, pure, Except.pure, Bool.and_self, Bool.not_true,
    Bool.false_eq_true, if_false]
  cases upstream <;> rfl

theorem equalsIgnoreCase_iff (a b : Str) :
    equalsIgnoreCase a b = true ↔ a.map tolower = b.map tolower := by
  unfold equalsIgnoreCase; simp

theorem fallbackByType_eq (name type : Str) :
    fallbackByType name type =
      if name = "ALREADY_EXISTS".toList then "42S01".toList
      else if name = "NOT_FOUND".toList then "42S02".toList
      else if type.map tolower = "user_error".toList then "42000".toList
      else if type.map tolower = "insufficient_resources".toList then "HY001".toList
      else if type.map tolower = "external".toList then "HY000".toList
      else if type.map tolower = "internal_error".toList then "HY000".toList
      else "HY000".toList := by
  have h1 : "USER_ERROR".toList.map tolower = "user_error".toList := by decide
  have h2 : "INSUFFICIENT_RESOURCES".toList.map tolower = "insufficient_resources".toList := by
    decide
  have h3 : "EXTERNAL".toList.map tolower = "external".toList := by decide
  unfold fallbackByType equalsIgnoreCase
  rw [h1, h2, h3]
  simp only [decide_eq_true_eq]
  split_ifs <;> rfl

theorem FromTrinoJson_of_carries (st : HandlerState) (w : World) (err : Json)
    (queryId name type : Str) (code : Int) (upstream : Option Str) (stack : List Str)
    (h : carries err name type code upstream stack) :
    (FromTrinoJson st w err queryId).2 = .ok {
      ret := if isWarning
          (match LookupEntryByName (FromTrinoJson st w err queryId).1 name with
           | some r => if !r.sqlstate.isEmpty then r.sqlstate else fallbackByType name type
           | none => fallbackByType name type) then SQL_SUCCESS_WITH_INFO else SQL_ERROR
      sqlstate :=
        match LookupEntryByName (FromTrinoJson st w err queryId).1 name with
        | some r => if !r.sqlstate.isEmpty then r.sqlstate else fallbackByType name type
        | none => fallbackByType name type
      native := code
      message := "[Trino] ".toList ++ type ++ ": ".toList ++ name ++ " (".toList ++
        intToString code ++ ")".toList ++
        (if !queryId.isEmpty then " [queryId=".toList ++ queryId ++ "]".toList else []) ++
        (match upstream with
         | some text => " - ".toList ++ text
         | none => [])
      description :=
        match LookupEntryByName (FromTrinoJson st w err queryId).1 name with
        | some r => if !r.description.isEmpty then r.description else humanize_name name
        | none => humanize_name name
      stack := stack
      lineNumber := (locationOf err).bind (fun l => locationField l "lineNumber".toList)
      columnNumber := (locationOf err).bind (fun l => locationField l "columnNumber".toList)
      queryId := queryId } :=
  translate_of_carries _ err queryId name type code upstream stack h

theorem isEmpty_eq_false_of_ne (s : Str) (h : s ≠ []) : s.isEmpty = false := by
  cases s with
  | nil => exact absurd rfl h
  | cons c cs => rfl

theorem mergeItem_eq_patch (c : Catalog) (item : Json) :
    mergeItem c item = match patchOf item with
      | some p => applyPatch c p
      | none => c := by
  cases item with
  | obj members =>
    unfold mergeItem patchOf strMember intMember applyPatch patchEntry
    simp only [Json.is_object, Json.get?, Bool.not_true, Bool.false_eq_true, if_false]
    cases hn : findMember members "name".toList with
    | none => rfl
    | some v =>
      cases v with
      | str n =>
        simp only
        generalize findMember members "trino_code".toList = a
        generalize findMember members "sqlstate".toList = b
        generalize findMember members "description".toList = d
        generalize findEntry c n = prior
        congr 1
        refine congr (congr (congr (congrArg Entry.mk ?_) rfl) ?_) ?_
        · cases prior <;> cases a with
          | none => rfl
          | some v => cases v <;> rfl
        · cases prior <;> cases b with
          | none => rfl
          | some v => cases v <;> rfl
        · cases prior <;> cases d with
          | none => rfl
          | some v => cases v <;> rfl
      | _ => rfl
  | _ => rfl

theorem foldl_mergeItem (entries : List Json) (c : Catalog) :
    entries.foldl mergeItem c = (entries.filterMap patchOf).foldl applyPatch c := by
  induction entries generalizing c with
  | nil => rfl
  | cons item rest ih =>
    rw [List.foldl_cons, ih, mergeItem_eq_patch, List.filterMap_cons]
    cases patchOf item <;> rfl

theorem findEntry_assign (c : Catalog) (k : Str) (e : Entry) (name : Str) :
    findEntry (assign c k e) name = if k = name then some e else findEntry c name := by
  induction c with
  | nil => simp [assign, findEntry]
  | cons kv rest ih =>
    obtain ⟨k0, v0⟩ := kv
    by_cases h0 : k0 = k
    · subst h0
      by_cases h1 : k0 = name <;> simp [assign, findEntry, h1]
    · by_cases h1 : k0 = name
      · subst h1
        simp [assign, findEntry, h0, Ne.symm h0]
      · simp [assign, findEntry, h0, h1, ih]

theorem applyPatch_cons_same (k : Str) (v : Entry) (rest : Catalog) (p : Patch) (h : p.name = k) :
    applyPatch ((k, v) :: rest) p = (k, patchEntry v p) :: rest := by
  subst h
  simp [applyPatch, assign, findEntry]

theorem applyPatch_cons_other (k : Str) (v : Entry) (rest : Catalog) (p : Patch) (h : p.name ≠ k) :
    applyPatch ((k, v) :: rest) p = (k, v) :: applyPatch rest p := by
  simp [applyPatch, assign, findEntry, Ne.symm h]

theorem foldl_applyPatch_cons (L : List Patch) (k : Str) (v : Entry) (rest : Catalog) :
    L.foldl applyPatch ((k, v) :: rest)
      = (k, (L.filter (fun p => p.name = k)).foldl patchEntry v)
          :: (L.filter (fun p => ¬ p.name = k)).foldl applyPatch rest := by
  induction L generalizing v rest with
  | nil => rfl
  | cons p L ih =>
    by_cases h : p.name = k
    · rw [List.foldl_cons, applyPatch_cons_same k v rest p h, ih]
      simp [List.filter_cons, h]
    · rw [List.foldl_cons, applyPatch_cons_other k v rest p h, ih]
      simp [List.filter_cons, h]

theorem foldl_step_idem {α β : Type} (step : α → β → α)
    (hstep : ∀ p, (∀ x, step x p = x) ∨ (∃ v, ∀ x, step x p = v)) (L : List β) :
    (∀ x, L.foldl step x = x) ∨ (∃ v, ∀ x, L.foldl step x = v) := by
  induction L with
  | nil => exact Or.inl (fun _ => rfl)
  | cons p L ih =>
    rcases ih with ih | ⟨v, hv⟩
    · rcases hstep p with hp | ⟨v, hv⟩
      · exact Or.inl (fun x => by rw [List.foldl_cons, ih, hp])
      · exact Or.inr ⟨v, fun x => by rw [List.foldl_cons, ih, hv]⟩
    · exact Or.inr ⟨v, fun x => by rw [List.foldl_cons, hv]⟩

theorem foldl_idem_of_step {α β : Type} (step : α → β → α)
    (hstep : ∀ p, (∀ x, step x p = x) ∨ (∃ v, ∀ x, step x p = v)) (L : List β) (x : α) :
    L.foldl step (L.foldl step x) = L.foldl step x := by
  rcases foldl_step_idem step hstep L with h | ⟨v, hv⟩
  · rw [h, h]
  · rw [hv, hv]

theorem getD_step {α : Type} (o : Option α) :
    (∀ x : α, o.getD x = x) ∨ (∃ v, ∀ x : α, o.getD x = v) := by
  cases o with
  | none => exact Or.inl (fun _ => rfl)
  | some v => exact Or.inr ⟨v, fun _ => rfl⟩

theorem foldl_patchEntry_fields (L : List Patch) (v : Entry) :
    (L.foldl patchEntry v).trino_code
        = L.foldl (fun x p => (p.trino_code.map toInt32).getD x) v.trino_code ∧
    (L.foldl patchEntry v).trino_name = L.foldl (fun _ p => p.name) v.trino_name ∧
    (L.foldl patchEntry v).sqlstate = L.foldl (fun x p => p.sqlstate.getD x) v.sqlstate ∧
    (L.foldl patchEntry v).description
        = L.foldl (fun x p => p.description.getD x) v.description := by
  induction L generalizing v with
  | nil => exact ⟨rfl, rfl, rfl, rfl⟩
  | cons p L ih =>
    simp only [List.foldl_cons]
    exact ih (patchEntry v p)

theorem Entry_ext (a b : Entry) (h1 : a.trino_code = b.trino_code)
    (h2 : a.trino_name = b.trino_name) (h3 : a.sqlstate = b.sqlstate)
    (h4 : a.description = b.description) : a = b := by
  cases a; cases b; simp_all

theorem foldl_patchEntry_idem (L : List Patch) (v : Entry) :
    L.foldl patchEntry (L.foldl patchEntry v) = L.foldl patchEntry v := by
  obtain ⟨a1, a2, a3, a4⟩ := foldl_patchEntry_fields L (L.foldl patchEntry v)
  obtain ⟨b1, b2, b3, b4⟩ := foldl_patchEntry_fields L v
  apply Entry_ext
  · rw [a1, b1]
    exact foldl_idem_of_step _ (fun p => getD_step _) L _
  · rw [a2, b2]
    exact foldl_idem_of_step _ (fun p => Or.inr ⟨p.name, fun _ => rfl⟩) L _
  · rw [a3, b3]
    exact foldl_idem_of_step _ (fun p => getD_step _) L _
  · rw [a4, b4]
    exact foldl_idem_of_step _ (fun p => getD_step _) L _

theorem foldl_applyPatch_nil (p : Patch) (L : List Patch) :
    (p :: L).foldl applyPatch []
      = (p.name, ((p :: L).filter (fun q => q.name = p.name)).foldl patchEntry blankEntry)
          :: (L.filter (fun q => ¬ q.name = p.name)).foldl applyPatch [] := by
  have h0 : applyPatch [] p = [(p.name, patchEntry blankEntry p)] := rfl
  rw [List.foldl_cons, h0, foldl_applyPatch_cons]
  simp [List.filter_cons]

theorem foldl_applyPatch_nil_idem (n : Nat) :
    ∀ L : List Patch, L.length ≤ n →
      L.foldl applyPatch (L.foldl applyPatch []) = L.foldl applyPatch [] := by
  induction n with
  | zero =>
    intro L hL
    have : L = [] := List.length_eq_zero.mp (Nat.le_zero.mp hL)
    subst this
    rfl
  | succ n ih =>
    intro L hL
    cases L with
    | nil => rfl
    | cons p L =>
      have hlen : (L.filter (fun q => ¬ q.name = p.name)).length ≤ n :=
        le_trans (List.length_filter_le _ _) (Nat.le_of_succ_le_succ hL)
      have hg : (p :: L).filter (fun q => ¬ q.name = p.name)
          = L.filter (fun q => ¬ q.name = p.name) := by simp [List.filter_cons]
      rw [foldl_applyPatch_nil, foldl_applyPatch_cons, hg, ih _ hlen, foldl_patchEntry_idem]

theorem foldl_applyPatch_idem (c : Catalog) :
    ∀ L : List Patch, L.foldl applyPatch (L.foldl applyPatch c) = L.foldl applyPatch c := by
  induction c with
  | nil => exact fun L => foldl_applyPatch_nil_idem L.length L (le_refl _)
  | cons kv rest ih =>
    intro L
    obtain ⟨k, v⟩ := kv
    rw [foldl_applyPatch_cons, foldl_applyPatch_cons, ih, foldl_patchEntry_idem]

theorem foldl_mergeItem_idem (c : Catalog) (entries : List Json) :
    entries.foldl mergeItem (entries.foldl mergeItem c) = entries.foldl mergeItem c := by
  rw [foldl_mergeItem, foldl_mergeItem, foldl_applyPatch_idem]

/-! ### The reload -/

theorem ensureInitialized_of_initialized (st : HandlerState) (w : World)
    (h : st.initialized = true) : ensureInitialized st w = st := by
  unfold ensureInitialized
  rw [if_pos h]

theorem reloadBody_frame (st : HandlerState) (w : World) (path : Str) :
    (reloadBody st w path).1.initialized = st.initialized ∧
    (reloadBody st w path).1.config_dir = st.config_dir := by
  unfold reloadBody
  simp only
  split
  · exact ⟨rfl, rfl⟩
  · exact ⟨rfl, rfl⟩
  · split
    · exact ⟨rfl, rfl⟩
    · split
      · exact ⟨rfl, rfl⟩
      · split
        · exact ⟨rfl, rfl⟩
        · exact ⟨rfl, rfl⟩

theorem ensureInitialized_frame (st : HandlerState) (w : World) :
    (ensureInitialized st w).initialized = true ∧
    (ensureInitialized st w).config_dir = st.config_dir := by
  unfold ensureInitialized
  by_cases h : st.initialized = true
  · rw [if_pos h]
    exact ⟨h, rfl⟩
  · rw [if_neg h]
    exact reloadBody_frame _ w []

theorem resolve_congr (st st2 : HandlerState) (w : World) (h : st2.config_dir = st.config_dir) :
    resolve_default_json_path st2 w = resolve_default_json_path st w := by
  unfold resolve_default_json_path
  rw [h]

theorem reloadFile_congr (st st2 : HandlerState) (w : World) (path : Str)
    (h : st2.config_dir = st.config_dir) : reloadFile st2 w path = reloadFile st w path := by
  unfold reloadFile
  rw [resolve_congr st st2 w h]

theorem append_ne_nil_of_left {α : Type} (a b : List α) (h : a ≠ []) : a ++ b ≠ [] := by
  cases a with
  | nil => exact absurd rfl h
  | cons x xs => simp

theorem reloadBody_unloadable (st : HandlerState) (w : World) (path : Str)
    (h : unloadable w (reloadFile st w path)) :
    ∃ msg, reloadBody st w path = (st, false, some msg) ∧ msg ≠ [] := by
  unfold unloadable at h
  unfold reloadBody
  simp only
  rw [show (if (!path.isEmpty) = true then path else resolve_default_json_path st w)
    = reloadFile st w path from rfl]
  generalize reloadFile st w path = file at h ⊢
  cases hp : w.probe file with
  | failed => exact ⟨_, rfl, append_ne_nil_of_left _ _ (by decide)⟩
  | absent => exact ⟨_, rfl, append_ne_nil_of_left _ _ (by decide)⟩
  | present f =>
    rw [hp] at h
    simp only at h ⊢
    cases ho : f.openable with
    | false => exact ⟨_, rfl, append_ne_nil_of_left _ _ (by decide)⟩
    | true =>
      simp only [Bool.not_true, Bool.false_eq_true, if_false]
      cases hc : f.content with
      | none => exact ⟨_, rfl, append_ne_nil_of_left _ _ (by decide)⟩
      | some j =>
        simp only
        rw [ho, hc] at h
        rcases h with h | h | ⟨j2, hj, h⟩
        · exact absurd h (by decide)
        · exact absurd h (by simp)
        · cases hj
          cases he : j.get? "entries".toList with
          | none => exact ⟨_, rfl, append_ne_nil_of_left _ _ (by decide)⟩
          | some v =>
            cases v with
            | arr entries =>
              exfalso
              rcases h with h | h | ⟨v, hv, h⟩
              · cases j <;> simp [Json.get?] at he
                simp [Json.is_object] at h
              · rw [he] at h
                exact absurd h (by simp)
              · rw [he] at hv
                cases hv
                simp [Json.is_array] at h
            | _ => exact ⟨_, rfl, append_ne_nil_of_left _ _ (by decide)⟩

theorem reloadBody_loadable (st : HandlerState) (w : World) (path : Str) (f : File) (j : Json)
    (entries : List Json) (hp : w.probe (reloadFile st w path) = .present f)
    (ho : f.openable = true) (hc : f.content = some j)
    (he : j.get? "entries".toList = some (.arr entries)) :
    reloadBody st w path =
      ({ st with
          catalog := entries.foldl mergeItem st.catalog
          last_mtime := f.mtime.getD fileTimeMin
          effective_path := reloadFile st w path
          loaded_once := true }, true, none) := by
  unfold reloadBody
  simp only
  rw [show (if (!path.isEmpty) = true then path else resolve_default_json_path st w)
    = reloadFile st w path from rfl, hp]
  simp only [ho, hc, he, Bool.not_true, Bool.false_eq_true, if_false]

theorem reloadBody_result (st : HandlerState) (w : World) (path : Str) :
    unloadable w (reloadFile st w path) ∨
    ∃ f j entries, w.probe (reloadFile st w path) = .present f ∧ f.openable = true ∧
      f.content = some j ∧ j.get? "entries".toList = some (.arr entries) := by
  unfold unloadable
  cases hp : w.probe (reloadFile st w path) with
  | failed => exact Or.inl trivial
  | absent => exact Or.inl trivial
  | present f =>
    simp only
    cases ho : f.openable with
    | false => exact Or.inl (Or.inl rfl)
    | true =>
      cases hc : f.content with
      | none => exact Or.inl (Or.inr (Or.inl rfl))
      | some j =>
        cases he : j.get? "entries".toList with
        | none => exact Or.inl (Or.inr (Or.inr ⟨j, rfl, Or.inr (Or.inl he)⟩))
        | some v =>
          cases v with
          | arr entries => exact Or.inr ⟨f, j, entries, rfl, ho, hc, he⟩
          | _ => exact Or.inl (Or.inr (Or.inr ⟨j, rfl, Or.inr (Or.inr ⟨_, he, rfl⟩)⟩))

/-! ### Stack and location of a payload -/

theorem stackFrames_str (fs : List Str) :
    stackFrames (fs.map Json.str) = .ok (fs.map (fun s => '\t' :: s)) := by
  induction fs with
  | nil => rfl
  | cons s fs ih =>
    simp only [List.map_cons, stackFrames, Json.getString, ih, bind, Except.bind, pure,
      Except.pure]

theorem parseStack_eq (err : Json) (primary cause : Option (List Str))
    (hprimary : (((err.get? "failureInfo".toList).bind
        (fun info => info.get? "stack".toList)).map Json.items)
      = primary.map (fun fs => fs.map Json.str))
    (hcause : ((((err.get? "failureInfo".toList).bind
        (fun info => info.get? "cause".toList)).bind
        (fun c => if c.contains "type".toList then c.get? "stack".toList else none)).map
          Json.items)
      = cause.map (fun cs => cs.map Json.str)) :
    parseStack err = .ok
      (stackBlock "Stack:".toList primary ++ stackBlock "Caused By:".toList cause) := by
  unfold parseStack
  cases hinfo : err.get? "failureInfo".toList with
  | none =>
    rw [hinfo] at hprimary hcause
    cases primary <;> cases cause <;> simp at hprimary hcause
    rfl
  | some info =>
    rw [hinfo] at hprimary hcause
    simp only [Option.some_bind] at hprimary hcause
    simp only
    have h2 : ∀ acc : List Str, (match info.get? "cause".toList with
        | some c =>
          if c.contains "type".toList = true then
            match c.get? "stack".toList with
            | some stack => do
              let frames ← stackFrames stack.items
              let y ← pure ("Caused By:".toList :: frames)
              (fun cause => pure (acc ++ cause)) y
            | none => do
              let y ← pure []
              (fun cause => pure (acc ++ cause)) y
          else do
            let y ← pure []
            (fun cause => pure (acc ++ cause)) y
        | none => do
          let y ← pure []
          (fun cause => pure (acc ++ cause)) y)
        = (Except.ok (acc ++ stackBlock "Caused By:".toList cause) :
            Except Fault (List Str)) := by
      intro acc
      cases hc : info.get? "cause".toList with
      | none =>
        rw [hc] at hcause
        cases cause with
        | none => rfl
        | some fs => simp at hcause
      | some c =>
        rw [hc] at hcause
        simp only [Option.some_bind] at hcause
        by_cases ht : c.contains "type".toList = true
        · rw [if_pos ht] at hcause
          simp only [ht, if_true]
          cases hs : c.get? "stack".toList with
          | none =>
            rw [hs] at hcause
            cases cause with
            | none => rfl
            | some fs => simp at hcause
          | some stack =>
            rw [hs] at hcause
            cases cause with
            | none => simp at hcause
            | some fs =>
              simp only [Option.map_some', Option.some.injEq] at hcause
              simp only [hcause, stackFrames_str, bind, Except.bind, pure, Except.pure,
                stackBlock]
        · rw [if_neg ht] at hcause
          simp only [ht, if_false]
          cases cause with
          | none => rfl
          | some fs => simp at hcause
    cases hs : info.get? "stack".toList with
    | none =>
      rw [hs] at hprimary
      cases primary with
      | none => exact h2 []
      | some fs => simp at hprimary
    | some stack =>
      rw [hs] at hprimary
      cases primary with
      | none => simp at hprimary
      | some fs =>
        simp only [Option.map_some', Option.some.injEq] at hprimary
        simp only [hprimary, stackFrames_str]
        exact h2 _

theorem locationOf_top (err : Json) (top : Json) (h : err.get? "errorLocation".toList = some top)
    (hobj : top.is_object = true) : locationOf err = some top := by
  unfold locationOf
  rw [h]
  cases top <;> simp [Json.is_object] at hobj ⊢

theorem locationOf_nested (err : Json)
    (h : ∀ top, err.get? "errorLocation".toList = some top → top.is_object = false) :
    locationOf err
      = (err.get? "failureInfo".toList).bind (fun info => info.get? "errorLocation".toList) := by
  unfold locationOf
  generalize err.get? "failureInfo".toList = fi
  cases ht : err.get? "errorLocation".toList with
  | none => cases fi <;> rfl
  | some top =>
    have := h top ht
    cases top <;> first
      | (cases fi <;> rfl)
      | (simp [Json.is_object] at this)

theorem locationField_eq (loc : Json) (key : Str) (v : Int) :
    locationField loc key = some v ↔ ∃ n, loc.get? key = some (.int n) ∧ v = toInt32 n := by
  unfold locationField
  cases h : loc.get? key with
  | none => simp
  | some j => cases j <;> simp [eq_comm]

/-! ### Reload and auto-reload -/

theorem ReloadMappingFromJson_loadable (st : HandlerState) (w : World) (path : Str) (f : File)
    (j : Json) (entries : List Json) (hp : w.probe (reloadFile st w path) = .present f)
    (ho : f.openable = true) (hc : f.content = some j)
    (he : j.get? "entries".toList = some (.arr entries)) :
    ReloadMappingFromJson st w path =
      ({ ensureInitialized st w with
          catalog := entries.foldl mergeItem (ensureInitialized st w).catalog
          last_mtime := f.mtime.getD fileTimeMin
          effective_path := reloadFile st w path
          loaded_once := true }, true, none) := by
  have hfile : reloadFile (ensureInitialized st w) w path = reloadFile st w path :=
    reloadFile_congr st _ w path (ensureInitialized_frame st w).2
  unfold ReloadMappingFromJson
  rw [reloadBody_loadable (ensureInitialized st w) w path f j entries (by rw [hfile]; exact hp)
    ho hc he, hfile]

theorem ReloadMappingFromJson_unloadable (st : HandlerState) (w : World) (path : Str)
    (hfail : unloadable w (reloadFile st w path)) :
    ∃ msg, ReloadMappingFromJson st w path = (ensureInitialized st w, false, some msg) ∧
      msg ≠ [] := by
  have hfile : reloadFile (ensureInitialized st w) w path = reloadFile st w path :=
    reloadFile_congr st _ w path (ensureInitialized_frame st w).2
  exact reloadBody_unloadable (ensureInitialized st w) w path (by rw [hfile]; exact hfail)

theorem patchOf_none (item : Json)
    (h : item.is_object = false ∨ item.get? "name".toList = none ∨
      ∃ v, item.get? "name".toList = some v ∧ v.is_string = false) : patchOf item = none := by
  unfold patchOf strMember
  rcases h with h | h | ⟨v, hv, h⟩
  · cases item <;> simp [Json.is_object] at h <;> rfl
  · rw [h]
  · rw [hv]
    cases v <;> simp [Json.is_string] at h <;> rfl

theorem patchOf_some (item : Json) (name : Str)
    (h : item.get? "name".toList = some (.str name)) :
    patchOf item = some ⟨name, intMember item "trino_code".toList,
      strMember item "sqlstate".toList, strMember item "description".toList⟩ := by
  unfold patchOf
  have : strMember item "name".toList = some name := by
    unfold strMember
    rw [h]
  rw [this]

theorem autoReloadCall_spec (st : HandlerState) (w : World) :
    (autoReloadCall st w = some (resolve_default_json_path st w) ↔
      ∃ f m, w.probe (resolve_default_json_path st w) = .present f ∧ f.mtime = some m ∧
        (st.loaded_once = false ∨ m ≠ st.last_mtime)) ∧
    (autoReloadCall st w = none ↔
      ¬ ∃ f m, w.probe (resolve_default_json_path st w) = .present f ∧ f.mtime = some m ∧
        (st.loaded_once = false ∨ m ≠ st.last_mtime)) := by
  unfold autoReloadCall
  simp only
  cases hp : w.probe (resolve_default_json_path st w) with
  | failed => simp
  | absent => simp
  | present f =>
    cases hm : f.mtime with
    | none => simp [hm]
    | some m =>
      by_cases hc : st.loaded_once = false ∨ m ≠ st.last_mtime
      · have hc2 : (!st.loaded_once) = true ∨ m ≠ st.last_mtime := by
          rcases hc with h | h
          · exact Or.inl (by rw [h]; rfl)
          · exact Or.inr h
        simp only [if_pos hc2]
        simp [hm, hc]
      · have hc2 : ¬ ((!st.loaded_once) = true ∨ m ≠ st.last_mtime) := by
          intro h
          apply hc
          rcases h with h | h
          · exact Or.inl (by simpa using h)
          · exact Or.inr h
        simp only [if_neg hc2]
        simp [hm, hc]

theorem maybeAutoReloadFromDisk_eq (st : HandlerState) (w : World) :
    (∀ path, autoReloadCall st w = some path →
      maybeAutoReloadFromDisk st w = (ReloadMappingFromJson st w path).1) ∧
    (autoReloadCall st w = none → maybeAutoReloadFromDisk st w = st) := by
  unfold autoReloadCall maybeAutoReloadFromDisk
  simp only
  cases hp : w.probe (resolve_default_json_path st w) with
  | failed => exact ⟨fun _ h => absurd h (by simp), fun _ => rfl⟩
  | absent => exact ⟨fun _ h => absurd h (by simp), fun _ => rfl⟩
  | present f =>
    simp only
    cases hm : f.mtime with
    | none => exact ⟨fun _ h => absurd h (by simp), fun _ => rfl⟩
    | some m =>
      simp only
      by_cases hc : (!st.loaded_once) = true ∨ m ≠ st.last_mtime
      · rw [if_pos hc, if_pos hc]
        refine ⟨fun path h => ?_, fun h => absurd h (by simp)⟩
        cases h
        rfl
      · rw [if_neg hc, if_neg hc]
        exact ⟨fun _ h => absurd h (by simp), fun _ => rfl⟩

theorem autoReloadCall_none_of (st : HandlerState) (w : World) (f : File)
    (hp : w.probe (resolve_default_json_path st w) = .present f)
    (hlo : st.loaded_once = true) (hlm : st.last_mtime = f.mtime.getD fileTimeMin) :
    autoReloadCall st w = none := by
  unfold autoReloadCall
  simp only [hp]
  cases hm : f.mtime with
  | none => rfl
  | some m =>
    rw [hm] at hlm
    simp only [hlo, hlm, Option.getD_some]
    simp

theorem autoReloadCall_after_load (st : HandlerState) (w : World) (path : Str)
    (hpath : path = [] ∨ path = resolve_default_json_path st w)
    (hok : (ReloadMappingFromJson st w path).2.1 = true) :
    autoReloadCall (ReloadMappingFromJson st w path).1 w = none := by
  have hfile : reloadFile st w path = resolve_default_json_path st w := by
    unfold reloadFile
    rcases hpath with h | h
    · rw [h]; rfl
    · by_cases hp : (!path.isEmpty) = true
      · rw [if_pos hp, h]
      · rw [if_neg hp]
  rcases reloadBody_result st w path with hfail | ⟨f, j, entries, hp, ho, hc, he⟩
  · obtain ⟨msg, hmsg, -⟩ := ReloadMappingFromJson_unloadable st w path hfail
    rw [hmsg] at hok
    exact absurd hok Bool.false_ne_true
  · rw [ReloadMappingFromJson_loadable st w path f j entries hp ho hc he]
    rw [hfile] at hp
    refine autoReloadCall_none_of _ w f ?_ rfl rfl
    exact (congrArg w.probe (resolve_congr st _ w (ensureInitialized_frame st w).2)).trans hp

/-! ### The catalog keyed by name -/

theorem keys_assign (c : Catalog) (k : Str) (e : Entry) :
    (assign c k e).map (fun kv => kv.1)
      = if k ∈ c.map (fun kv => kv.1) then c.map (fun kv => kv.1)
        else c.map (fun kv => kv.1) ++ [k] := by
  induction c with
  | nil => simp [assign]
  | cons kv rest ih =>
    obtain ⟨k0, v0⟩ := kv
    by_cases h0 : k0 = k
    · subst h0
      simp only [assign, if_true, List.map_cons, List.mem_cons, true_or]
    · have h1 : ¬ k = k0 := fun h => h0 h.symm
      simp only [assign, if_neg h0, List.map_cons, ih, List.mem_cons, h1, false_or]
      by_cases hm : k ∈ rest.map (fun kv => kv.1)
      · simp only [if_pos hm]
      · simp only [if_neg hm, List.cons_append]

theorem mem_assign (c : Catalog) (k : Str) (e : Entry) (kv : Str × Entry)
    (h : kv ∈ assign c k e) : kv ∈ c ∨ kv = (k, e) := by
  induction c with
  | nil =>
    simp only [assign, List.mem_singleton] at h
    exact Or.inr h
  | cons kv0 rest ih =>
    obtain ⟨k0, v0⟩ := kv0
    by_cases h0 : k0 = k
    · subst h0
      simp only [assign, if_true, List.mem_cons] at h
      rcases h with h | h
      · exact Or.inr h
      · exact Or.inl (List.mem_cons_of_mem _ h)
    · simp only [assign, if_neg h0, List.mem_cons] at h
      rcases h with h | h
      · exact Or.inl (by rw [h]; exact List.mem_cons_self _ _)
      · rcases ih h with h2 | h2
        · exact Or.inl (List.mem_cons_of_mem _ h2)
        · exact Or.inr h2

theorem NameKeyed_assign (c : Catalog) (k : Str) (e : Entry) (hc : NameKeyed c)
    (he : e.trino_name = k) : NameKeyed (assign c k e) := by
  refine ⟨?_, ?_⟩
  · intro k2 e2 hmem
    rcases mem_assign c k e _ hmem with h | h
    · exact hc.1 k2 e2 h
    · cases h
      exact he
  · rw [keys_assign]
    by_cases hm : k ∈ c.map (fun kv => kv.1)
    · rw [if_pos hm]
      exact hc.2
    · rw [if_neg hm]
      exact List.Nodup.append hc.2 (List.nodup_singleton k) (List.disjoint_singleton.mpr hm)

theorem NameKeyed_mergeItem (c : Catalog) (item : Json) (hc : NameKeyed c) :
    NameKeyed (mergeItem c item) := by
  rw [mergeItem_eq_patch]
  cases patchOf item with
  | none => exact hc
  | some p => exact NameKeyed_assign c p.name _ hc rfl

theorem NameKeyed_foldl_mergeItem (entries : List Json) (c : Catalog) (hc : NameKeyed c) :
    NameKeyed (entries.foldl mergeItem c) := by
  induction entries generalizing c with
  | nil => exact hc
  | cons item rest ih => exact ih _ (NameKeyed_mergeItem c item hc)

theorem NameKeyed_nil : NameKeyed [] := ⟨fun _ _ h => absurd h (List.not_mem_nil _), List.nodup_nil⟩

theorem NameKeyed_foldl_rows (rows : List Entry) (c : Catalog) (hc : NameKeyed c) :
    NameKeyed (rows.foldl (fun catalog row => assign catalog row.trino_name row) c) := by
  induction rows generalizing c with
  | nil => exact hc
  | cons row rest ih => exact ih _ (NameKeyed_assign c row.trino_name row hc rfl)

theorem NameKeyed_buildCompiledDefaults : NameKeyed buildCompiledDefaults := by
  unfold buildCompiledDefaults
  exact NameKeyed_foldl_rows kDefaults [] NameKeyed_nil

theorem NameKeyed_reloadBody (st : HandlerState) (w : World) (path : Str)
    (h : NameKeyed st.catalog) : NameKeyed (reloadBody st w path).1.catalog := by
  rcases reloadBody_result st w path with hfail | ⟨f, j, entries, hp, ho, hc, he⟩
  · obtain ⟨msg, hmsg, -⟩ := reloadBody_unloadable st w path hfail
    rw [hmsg]
    exact h
  · rw [reloadBody_loadable st w path f j entries hp ho hc he]
    exact NameKeyed_foldl_mergeItem entries _ h

set_option maxRecDepth 100000 in
theorem NameKeyed_ensureInitialized (st : HandlerState) (w : World)
    (h : NameKeyed st.catalog) : NameKeyed (ensureInitialized st w).catalog := by
  unfold ensureInitialized
  by_cases hi : st.initialized = true
  · rw [if_pos hi]
    exact h
  · rw [if_neg hi]
    exact NameKeyed_reloadBody { st with initialized := true, catalog := buildCompiledDefaults } w []
      NameKeyed_buildCompiledDefaults

theorem NameKeyed_ReloadMappingFromJson (st : HandlerState) (w : World) (path : Str)
    (h : NameKeyed st.catalog) : NameKeyed (ReloadMappingFromJson st w path).1.catalog :=
  NameKeyed_reloadBody _ w path (NameKeyed_ensureInitialized st w h)

theorem NameKeyed_maybeAutoReloadFromDisk (st : HandlerState) (w : World)
    (h : NameKeyed st.catalog) : NameKeyed (maybeAutoReloadFromDisk st w).catalog := by
  cases hcall : autoReloadCall st w with
  | none =>
    rw [(maybeAutoReloadFromDisk_eq st w).2 hcall]
    exact h
  | some path =>
    rw [(maybeAutoReloadFromDisk_eq st w).1 path hcall]
    exact NameKeyed_ReloadMappingFromJson st w path h

theorem NameKeyed_of_Reachable (st : HandlerState) (h : Reachable st) : NameKeyed st.catalog := by
  induction h with
  | start => exact NameKeyed_nil
  | ensure st w _ ih => exact NameKeyed_ensureInitialized st w ih
  | reload st w path _ ih => exact NameKeyed_ReloadMappingFromJson st w path ih
  | translate st w err queryId _ ih =>
    exact NameKeyed_maybeAutoReloadFromDisk _ w (NameKeyed_ensureInitialized st w ih)
  | setDirectory st dir _ ih => exact ih

theorem mem_of_findEntry (c : Catalog) (name : Str) (e : Entry)
    (h : findEntry c name = some e) : (name, e) ∈ c := by
  induction c with
  | nil => simp [findEntry] at h
  | cons kv rest ih =>
    obtain ⟨k0, v0⟩ := kv
    by_cases h0 : k0 = name
    · subst h0
      simp only [findEntry, if_true, Option.some.injEq] at h
      rw [h]
      exact List.mem_cons_self _ _
    · simp only [findEntry, if_neg h0] at h
      exact List.mem_cons_of_mem _ (ih h)

theorem findEntry_of_mem (c : Catalog) (name : Str) (e : Entry)
    (hnodup : (c.map (fun kv => kv.1)).Nodup) (h : (name, e) ∈ c) :
    findEntry c name = some e := by
  induction c with
  | nil => exact absurd h (List.not_mem_nil _)
  | cons kv rest ih =>
    obtain ⟨k0, v0⟩ := kv
    simp only [List.map_cons, List.nodup_cons] at hnodup
    by_cases h0 : k0 = name
    · subst h0
      simp only [findEntry, if_true]
      rcases List.mem_cons.mp h with h1 | h1
      · cases h1
        rfl
      · exact absurd (List.mem_map_of_mem (fun kv => kv.1) h1) hnodup.1
    · simp only [findEntry, if_neg h0]
      rcases List.mem_cons.mp h with h1 | h1
      · cases h1
        exact absurd rfl h0
      · exact ih hnodup.2 h1

theorem findEntry_eq_none (c : Catalog) (name : Str) :
    findEntry c name = none ↔ name ∉ c.map (fun kv => kv.1) := by
  induction c with
  | nil => exact ⟨fun _ h => absurd h (List.not_mem_nil _), fun _ => rfl⟩
  | cons kv rest ih =>
    obtain ⟨k0, v0⟩ := kv
    by_cases h0 : k0 = name
    · subst h0
      simp only [findEntry, if_true, List.map_cons, List.mem_cons, true_or, not_true_eq_false,
        iff_false]
      exact fun h => Option.noConfusion h
    · have h1 : ¬ name = k0 := fun h => h0 h.symm
      simp only [findEntry, if_neg h0, List.map_cons, List.mem_cons, h1, false_or, ih]

theorem maybeAutoReloadFromDisk_initialized (st : HandlerState) (w : World)
    (h : st.initialized = true) : (maybeAutoReloadFromDisk st w).initialized = true := by
  cases hcall : autoReloadCall st w with
  | none =>
    rw [(maybeAutoReloadFromDisk_eq st w).2 hcall]
    exact h
  | some path =>
    rw [(maybeAutoReloadFromDisk_eq st w).1 path hcall]
    unfold ReloadMappingFromJson
    rw [(reloadBody_frame _ w path).1]
    exact (ensureInitialized_frame st w).1

/-! ### The greedy rule, the lines and the first record -/

theorem takeCount_iff (chunkSize : Nat) :
    ∀ (rest : List Str) (tempLen n : Nat), 0 < tempLen → n < rest.length →
      (n < takeCount chunkSize rest tempLen ↔
        tempLen + (joinLines (rest.take (n + 1))).length ≤ chunkSize) := by
  intro rest
  induction rest with
  | nil => intro t n _ hn; simp at hn
  | cons line rest ih =>
    intro t n ht hn
    unfold takeCount
    by_cases h : t + (line.length + 1) > chunkSize ∧ t > 0
    · simp only [h, and_self, if_true, Nat.not_lt_zero, false_iff, not_le]
      simp only [joinLines, List.take_succ_cons, List.flatMap_cons, List.length_append,
        List.length_singleton]
      omega
    · simp only [h, if_false]
      cases n with
      | zero =>
        simp only [joinLines, List.take_succ_cons, List.take_zero, List.flatMap_cons,
          List.flatMap_nil, List.length_append, List.length_singleton, List.length_nil]
        omega
      | succ n =>
        have hn2 : n < rest.length := by simpa using hn
        have := ih (t + (line.length + 1)) n (by omega) hn2
        simp only [joinLines, List.take_succ_cons, List.flatMap_cons, List.length_append,
          List.length_singleton] at this ⊢
        omega

theorem getlines_append_newline (l : Str) (rest : Str) (h : '\n' ∉ l) :
    getlines (l ++ '\n' :: rest) = l :: getlines rest := by
  induction l with
  | nil => simp [getlines]
  | cons c l ih =>
    have hc : c ≠ '\n' := fun e => h (by rw [e]; exact List.mem_cons_self _ _)
    have hl : '\n' ∉ l := fun e => h (List.mem_cons_of_mem _ e)
    rw [List.cons_append, getlines, if_neg hc, ih hl]

theorem getlines_joinLines (ls : List Str) (h : ∀ l ∈ ls, '\n' ∉ l) :
    getlines (joinLines ls) = ls := by
  induction ls with
  | nil => rfl
  | cons l ls ih =>
    have h1 : '\n' ∉ l := h l (List.mem_cons_self _ _)
    have h2 : ∀ x ∈ ls, '\n' ∉ x := fun x hx => h x (List.mem_cons_of_mem _ hx)
    have e : joinLines (l :: ls) = l ++ '\n' :: joinLines ls := by
      simp [joinLines, List.flatMap_cons]
    rw [e, getlines_append_newline l _ h1, ih h2]

theorem newline_not_mem_getlines : ∀ (s : Str) (l : Str), l ∈ getlines s → '\n' ∉ l := by
  intro s
  induction s with
  | nil => intro l hl; simp [getlines] at hl
  | cons c cs ih =>
    intro l hl
    unfold getlines at hl
    by_cases hc : c = '\n'
    · rw [if_pos hc] at hl
      rcases List.mem_cons.mp hl with h | h
      · rw [h]; exact List.not_mem_nil _
      · exact ih l h
    · rw [if_neg hc] at hl
      cases hg : getlines cs with
      | nil =>
        rw [hg] at hl
        simp only [List.mem_singleton] at hl
        rw [hl]
        simp only [List.mem_singleton]
        exact fun e => hc e.symm
      | cons l0 ls =>
        rw [hg] at hl ih
        simp only [List.mem_cons] at hl
        rcases hl with h | h
        · rw [h]
          intro hm
          rcases List.mem_cons.mp hm with e | e
          · exact hc e.symm
          · exact ih l0 (List.mem_cons_self _ _) e
        · exact ih l (List.mem_cons_of_mem _ h)

theorem count_newline_joinLines (ls : List Str) (h : ∀ l ∈ ls, '\n' ∉ l) :
    (joinLines ls).count '\n' = ls.length := by
  induction ls with
  | nil => rfl
  | cons l ls ih =>
    have h1 : '\n' ∉ l := h l (List.mem_cons_self _ _)
    have h2 : ∀ x ∈ ls, '\n' ∉ x := fun x hx => h x (List.mem_cons_of_mem _ hx)
    have e : joinLines (l :: ls) = l ++ '\n' :: joinLines ls := by
      simp [joinLines, List.flatMap_cons]
    rw [e, List.count_append, List.count_eq_zero_of_not_mem h1, List.count_cons_self, ih h2]
    simp

theorem statementDiag_returns (odbcErr : OdbcError) (RecNumber : Int) (SqlStatePtr : Option Str)
    (NativeErrorPtr : Option Int) (MessageTextPtr : Option (List Char)) (BufferLength : Int)
    (TextLengthPtr : Option Int) :
    ∃ r, SQLGetDiagRec SQL_HANDLE_STMT (stmtWithError odbcErr) RecNumber SqlStatePtr
      NativeErrorPtr MessageTextPtr BufferLength TextLengthPtr = .ok r ∧
      (r.ret = SQL_SUCCESS ∨ r.ret = SQL_NO_DATA) ∧
      (r.ret = SQL_SUCCESS ↔
        chunkStart (buildLines odbcErr) (chunkSizeOf BufferLength) (passOf RecNumber)
          < (buildLines odbcErr).length) ∧
      (r.ret = SQL_SUCCESS → r.slots.TextLength = TextLengthPtr.map (fun _ => toSmallInt
        (min (selectedChunk odbcErr RecNumber BufferLength).length
          (chunkSizeOf BufferLength)))) := by
  have hne : SQL_NO_DATA ≠ SQL_SUCCESS := by decide
  rw [SQLGetDiagRec_stmt, statementDiag_eq]
  by_cases hs : chunkStart (buildLines odbcErr) (chunkSizeOf BufferLength) (passOf RecNumber)
      < (buildLines odbcErr).length
  · rw [if_pos hs]
    exact ⟨_, rfl, Or.inl rfl, ⟨fun _ => hs, fun _ => rfl⟩, fun _ => rfl⟩
  · rw [if_neg hs]
    exact ⟨_, rfl, Or.inr rfl, ⟨fun h => absurd h hne, fun h => absurd h hs⟩,
      fun h => absurd h hne⟩

theorem chunkLoop_stuck_none (lines : List Str) (recNumber : Nat) (first : Str)
    (hfirst : lines[0]? = some first) (chunkSize : Nat) (hbig : chunkSize < first.length + 2) :
    ∀ (fuel currentChunk : Nat), currentChunk + fuel ≤ recNumber →
      recNumber < 18446744073709551616 →
      chunkLoop lines chunkSize recNumber fuel 0 currentChunk = none := by
  intro fuel
  induction fuel with
  | zero => intro c _ _; rfl
  | succ fuel ih =>
    intro c hc hrec
    have hlen : 0 < lines.length := length_pos_of_getElem? lines 0 first hfirst
    have hcr : c ≠ recNumber := by omega
    have hmod : (c + 1) % 18446744073709551616 = c + 1 := Nat.mod_eq_of_lt (by omega)
    unfold chunkLoop
    simp only [hlen, if_true, hcr, if_false, fillChunk_stuck lines chunkSize 0 first hfirst hbig,
      hmod]
    exact ih (c + 1) (by omega) hrec

theorem chunkSizeOf_le (BufferLength : Int) (hsmall : isSmallInt BufferLength) :
    chunkSizeOf BufferLength ≤ 32766 ∧
    (0 < BufferLength → (chunkSizeOf BufferLength : Int) = BufferLength - 1) := by
  unfold isSmallInt at hsmall
  by_cases h : 0 < BufferLength
  · have := chunkSizeOf_of_pos BufferLength h (by omega)
    constructor
    · omega
    · intro _
      omega
  · have := chunkSizeOf_of_nonpos BufferLength (by omega)
    constructor
    · omega
    · intro h2
      exact absurd h2 h

theorem joinLines_take_pos (lines : List Str) (n : Nat) (hn : 0 < n) (hl : 0 < lines.length) :
    0 < (joinLines (lines.take n)).length := by
  cases lines with
  | nil => simp at hl
  | cons l ls =>
    cases n with
    | zero => omega
    | succ n =>
      simp only [joinLines, List.take_succ_cons, List.flatMap_cons, List.length_append,
        List.length_singleton]
      omega

theorem selectedChunk_with_line (odbcErr : OdbcError) (RecNumber BufferLength : Int)
    (hs : chunkStart (buildLines odbcErr) (chunkSizeOf BufferLength) (passOf RecNumber)
        < (buildLines odbcErr).length)
    (hline : chunkStart (buildLines odbcErr) (chunkSizeOf BufferLength) (passOf RecNumber)
        < chunkStart (buildLines odbcErr) (chunkSizeOf BufferLength) (passOf RecNumber + 1)) :
    2 ≤ (selectedChunk odbcErr RecNumber BufferLength).length ∧
    (selectedChunk odbcErr RecNumber BufferLength).length ≤ chunkSizeOf BufferLength := by
  have hlen : (selectedChunk odbcErr RecNumber BufferLength).length
      ≤ max (chunkSizeOf BufferLength) 1 := by
    rw [selectedChunk]; exact fillChunk_length _ _ _
  have h2 : 2 ≤ (selectedChunk odbcErr RecNumber BufferLength).length := by
    rw [selectedChunk_eq, List.length_cons]
    have := joinLines_take_pos ((buildLines odbcErr).drop
      (chunkStart (buildLines odbcErr) (chunkSizeOf BufferLength) (passOf RecNumber)))
      (chunkStart (buildLines odbcErr) (chunkSizeOf BufferLength) (passOf RecNumber + 1)
        - chunkStart (buildLines odbcErr) (chunkSizeOf BufferLength) (passOf RecNumber))
      (by omega) (by rw [List.length_drop]; omega)
    omega
  exact ⟨h2, by omega⟩

/-! ### The bookkeeping of reloads -/

theorem reloadBody_true_iff (st : HandlerState) (w : World) (path : Str) :
    (reloadBody st w path).2.1 = true ↔ ∃ entries, loadable w (reloadFile st w path) entries := by
  constructor
  · intro hok
    rcases reloadBody_result st w path with hfail | ⟨f, j, entries, hp, ho, hc, he⟩
    · obtain ⟨msg, hmsg, -⟩ := reloadBody_unloadable st w path hfail
      rw [hmsg] at hok
      exact absurd hok Bool.false_ne_true
    · exact ⟨entries, f, j, hp, ho, hc, he⟩
  · rintro ⟨entries, f, j, hp, ho, hc, he⟩
    rw [reloadBody_loadable st w path f j entries hp ho hc he]

theorem reloadBody_false (st : HandlerState) (w : World) (path : Str)
    (h : (reloadBody st w path).2.1 = false) : (reloadBody st w path).1 = st := by
  rcases reloadBody_result st w path with hfail | ⟨f, j, entries, hp, ho, hc, he⟩
  · obtain ⟨msg, hmsg, -⟩ := reloadBody_unloadable st w path hfail
    rw [hmsg]
  · rw [reloadBody_loadable st w path f j entries hp ho hc he] at h
    exact absurd h (by simp)

theorem reloadBody_true (st : HandlerState) (w : World) (path : Str)
    (h : (reloadBody st w path).2.1 = true) :
    (reloadBody st w path).1.effective_path = reloadFile st w path ∧
    (reloadBody st w path).1.loaded_once = true := by
  obtain ⟨entries, f, j, hp, ho, hc, he⟩ := (reloadBody_true_iff st w path).mp h
  rw [reloadBody_loadable st w path f j entries hp ho hc he]
  exact ⟨rfl, rfl⟩

theorem Booked_body (st : HandlerState) (w : World) (path : Str) (last : Option Str)
    (h : Booked st last) : Booked (reloadBody st w path).1 (lastLoadedBody st w path last) := by
  unfold lastLoadedBody
  by_cases hok : (reloadBody st w path).2.1 = true
  · rw [if_pos hok]
    obtain ⟨h1, h2⟩ := reloadBody_true st w path hok
    exact ⟨h1, h2⟩
  · rw [if_neg hok, reloadBody_false st w path (by simpa using hok)]
    exact h

set_option maxRecDepth 100000 in
theorem Booked_ensure (st : HandlerState) (w : World) (last : Option Str)
    (h : Booked st last) : Booked (ensureInitialized st w) (lastLoadedEnsure st w last) := by
  unfold ensureInitialized lastLoadedEnsure
  by_cases hi : st.initialized = true
  · rw [if_pos hi, if_pos hi]
    exact h
  · rw [if_neg hi, if_neg hi]
    exact Booked_body { st with initialized := true, catalog := buildCompiledDefaults } w [] last h

theorem Booked_reload (st : HandlerState) (w : World) (path : Str) (last : Option Str)
    (h : Booked st last) :
    Booked (ReloadMappingFromJson st w path).1 (lastLoadedReload st w path last) :=
  Booked_body _ w path _ (Booked_ensure st w last h)

theorem Booked_auto (st : HandlerState) (w : World) (last : Option Str)
    (h : Booked st last) : Booked (maybeAutoReloadFromDisk st w) (lastLoadedAuto st w last) := by
  unfold lastLoadedAuto
  cases hcall : autoReloadCall st w with
  | none =>
    rw [(maybeAutoReloadFromDisk_eq st w).2 hcall]
    exact h
  | some path =>
    rw [(maybeAutoReloadFromDisk_eq st w).1 path hcall]
    exact Booked_reload st w path last h

theorem Booked_of_History (st : HandlerState) (last : Option Str) (h : History st last) :
    Booked st last := by
  induction h with
  | start => exact ⟨rfl, rfl⟩
  | ensure st w last _ ih => exact Booked_ensure st w last ih
  | reload st w path last _ ih => exact Booked_reload st w path last ih
  | translate st w err queryId last _ ih =>
    exact Booked_auto _ w _ (Booked_ensure st w last ih)
  | setDirectory st dir last _ ih => exact ih

/-! ### The frame of a reload and the compiled table -/

theorem findEntry_foldl_applyPatch_of_not_mem (L : List Patch) (c : Catalog) (name : Str)
    (h : name ∉ L.map (fun p => p.name)) :
    findEntry (L.foldl applyPatch c) name = findEntry c name := by
  induction L generalizing c with
  | nil => rfl
  | cons p L ih =>
    simp only [List.map_cons, List.mem_cons, not_or] at h
    rw [List.foldl_cons, ih _ h.2, applyPatch, findEntry_assign, if_neg (fun e => h.1 e.symm)]

theorem findEntry_foldl_applyPatch_isSome (L : List Patch) (c : Catalog) (name : Str)
    (h : (findEntry c name).isSome = true) :
    (findEntry (L.foldl applyPatch c) name).isSome = true := by
  induction L generalizing c with
  | nil => exact h
  | cons p L ih =>
    rw [List.foldl_cons]
    apply ih
    rw [applyPatch, findEntry_assign]
    by_cases hp : p.name = name
    · rw [if_pos hp]; rfl
    · rw [if_neg hp]; exact h

theorem catalog_nil_of_Reachable (st : HandlerState) (h : Reachable st) :
    st.initialized = false → st.catalog = [] := by
  induction h with
  | start => exact fun _ => rfl
  | ensure st w _ _ =>
    intro hi
    rw [(ensureInitialized_frame st w).1] at hi
    exact absurd hi (by simp)
  | reload st w path _ _ =>
    intro hi
    unfold ReloadMappingFromJson at hi
    rw [(reloadBody_frame _ w path).1, (ensureInitialized_frame st w).1] at hi
    exact absurd hi (by simp)
  | translate st w err queryId _ _ =>
    intro hi
    have := maybeAutoReloadFromDisk_initialized (ensureInitialized st w) w
      (ensureInitialized_frame st w).1
    rw [show (FromTrinoJson st w err queryId).1
      = maybeAutoReloadFromDisk (ensureInitialized st w) w from rfl, this] at hi
    exact absurd hi (by simp)
  | setDirectory st dir _ ih => exact ih

theorem mem_foldl_rows (rows : List Entry) (c : Catalog) (kv : Str × Entry)
    (h : kv ∈ rows.foldl (fun catalog row => assign catalog row.trino_name row) c) :
    kv ∈ c ∨ kv.2 ∈ rows := by
  induction rows generalizing c with
  | nil => exact Or.inl h
  | cons row rows ih =>
    rw [List.foldl_cons] at h
    rcases ih _ h with h1 | h1
    · rcases mem_assign c row.trino_name row kv h1 with h2 | h2
      · exact Or.inl h2
      · right
        rw [h2]
        exact List.mem_cons_self _ _
    · exact Or.inr (List.mem_cons_of_mem _ h1)

theorem mem_kDefaults_of_findEntry (name : Str) (e : Entry)
    (h : findEntry buildCompiledDefaults name = some e) : e ∈ kDefaults := by
  have hmem := mem_of_findEntry _ _ _ h
  unfold buildCompiledDefaults at hmem
  rcases mem_foldl_rows kDefaults [] _ hmem with h1 | h1
  · exact absurd h1 (List.not_mem_nil _)
  · exact h1

theorem translate_missing (st : HandlerState) (err : Json) (queryId : Str)
    (hmissing : err.contains "errorName".toList = false ∨
      err.contains "errorType".toList = false ∨ err.contains "errorCode".toList = false) :
    translate st err queryId = .ok
      ⟨SQL_ERROR, "HY000".toList, 0,
       "[Trino] Unexpected error payload (missing fields).".toList,
       "Unexpected error payload".toList, [], none, none, []⟩ := by
  have hc : (err.contains "errorName".toList && err.contains "errorType".toList &&
      err.contains "errorCode".toList) = false := by
    generalize err.contains "errorName".toList = a at hmissing ⊢
    generalize err.contains "errorType".toList = b at hmissing ⊢
    generalize err.contains "errorCode".toList = c at hmissing ⊢
    revert hmissing
    cases a <;> cases b <;> cases c <;> simp
  simp only [translate, hc, Bool.not_false, if_true]
  rfl

theorem mem_overrideNames (entries : List Json) (name : Str) :
    name ∈ overrideNames entries ↔
      ∃ item ∈ entries, item.get? "name".toList = some (.str name) := by
  unfold overrideNames
  simp only [List.mem_map, List.mem_filterMap]
  constructor
  · rintro ⟨p, ⟨item, hitem, hp⟩, hname⟩
    refine ⟨item, hitem, ?_⟩
    cases hg : item.get? "name".toList with
    | none =>
      rw [patchOf_none item (Or.inr (Or.inl hg))] at hp
      cases hp
    | some v =>
      cases v with
      | str n =>
        rw [patchOf_some item n hg] at hp
        cases hp
        rw [← hname]
      | _ =>
        rw [patchOf_none item (Or.inr (Or.inr ⟨_, hg, rfl⟩))] at hp
        cases hp
  · rintro ⟨item, hitem, hg⟩
    exact ⟨_, ⟨item, hitem, patchOf_some item name hg⟩, rfl⟩

/-! ### The compiled table and the first record -/

set_option maxRecDepth 1000000 in
theorem kDefaults_names_nodup : (kDefaults.map (fun row => row.trino_name)).Nodup := by
  decide

set_option maxRecDepth 1000000 in
theorem kDefaults_length : kDefaults.length = 177 := by decide

theorem findEntry_foldl_rows_of_not_mem (rows : List Entry) (c : Catalog) (name : Str)
    (h : name ∉ rows.map (fun row => row.trino_name)) :
    findEntry (rows.foldl (fun catalog row => assign catalog row.trino_name row) c) name
      = findEntry c name := by
  induction rows generalizing c with
  | nil => rfl
  | cons r rows ih =>
    simp only [List.map_cons, List.mem_cons, not_or] at h
    rw [List.foldl_cons, ih _ h.2, findEntry_assign, if_neg (fun e => h.1 e.symm)]

theorem findEntry_foldl_rows (rows : List Entry) (c : Catalog) (row : Entry)
    (hnodup : (rows.map (fun row => row.trino_name)).Nodup) (hrow : row ∈ rows) :
    findEntry (rows.foldl (fun catalog row => assign catalog row.trino_name row) c)
      row.trino_name = some row := by
  induction rows generalizing c with
  | nil => exact absurd hrow (List.not_mem_nil _)
  | cons r rows ih =>
    simp only [List.map_cons, List.nodup_cons] at hnodup
    rw [List.foldl_cons]
    rcases List.mem_cons.mp hrow with h | h
    · subst h
      rw [findEntry_foldl_rows_of_not_mem rows _ _ hnodup.1, findEntry_assign, if_pos rfl]
    · exact ih _ hnodup.2 h

theorem findEntry_buildCompiledDefaults (row : Entry) (hrow : row ∈ kDefaults) :
    findEntry buildCompiledDefaults row.trino_name = some row := by
  unfold buildCompiledDefaults
  exact findEntry_foldl_rows kDefaults [] row kDefaults_names_nodup hrow

set_option maxRecDepth 1000000 in
theorem buildCompiledDefaults_length : buildCompiledDefaults.length = 177 := by decide

theorem ensureInitialized_first (st : HandlerState) (w : World) (h : st.initialized = false) :
    ensureInitialized st w
      = (reloadBody { st with initialized := true, catalog := buildCompiledDefaults } w []).1 := by
  unfold ensureInitialized
  rw [if_neg (by rw [h]; exact Bool.false_ne_true)]

theorem chunkStart_zero (lines : List Str) (chunkSize : Nat) :
    chunkStart lines chunkSize 0 = 0 := rfl

theorem selectedChunk_first (odbcErr : OdbcError) (BufferLength : Int) :
    selectedChunk odbcErr 1 BufferLength = '\n' :: joinLines ((buildLines odbcErr).take
      (chunkStart (buildLines odbcErr) (chunkSizeOf BufferLength) 1)) := by
  have h0 : passOf 1 = 0 := by decide
  rw [selectedChunk_eq, h0]
  simp [chunkStart]

theorem first_record (odbcErr : OdbcError) (BufferLength : Int)
    (SqlStatePtr : Option Str) (NativeErrorPtr : Option Int)
    (MessageTextPtr : Option (List Char)) (TextLengthPtr : Option Int) :
    SQLGetDiagRec SQL_HANDLE_STMT (stmtWithError odbcErr) 1 SqlStatePtr NativeErrorPtr
        MessageTextPtr BufferLength TextLengthPtr =
      .ok ⟨SQL_SUCCESS,
        ⟨SqlStatePtr.map (fun _ => odbcErr.sqlstate),
         NativeErrorPtr.map (fun _ => odbcErr.native),
         MessageTextPtr.map (fun buf => applyStores buf
           (if MessageTextPtr.isSome ∧ BufferLength > 0 then
             copyStores (selectedChunk odbcErr 1 BufferLength)
               (min (selectedChunk odbcErr 1 BufferLength).length (chunkSizeOf BufferLength))
            else [])),
         TextLengthPtr.map (fun _ => toSmallInt
           (min (selectedChunk odbcErr 1 BufferLength).length (chunkSizeOf BufferLength)))⟩,
        if MessageTextPtr.isSome ∧ BufferLength > 0 then
          copyStores (selectedChunk odbcErr 1 BufferLength)
            (min (selectedChunk odbcErr 1 BufferLength).length (chunkSizeOf BufferLength))
        else []⟩ := by
  have h0 : passOf 1 = 0 := by decide
  have hs : chunkStart (buildLines odbcErr) (chunkSizeOf BufferLength) (passOf 1)
      < (buildLines odbcErr).length := by
    rw [h0]
    exact buildLines_length_pos odbcErr
  rw [SQLGetDiagRec_stmt, statementDiag_eq, if_pos hs]
  simp only [if_true]

/-! ### Claims -/

/-- C4: without a stored error, that is a statement whose query reports
`hasError()` false or a connection whose `ErrorInfo` reports that no error
occurred, `SQLGetDiagRec` returns `SQL_NO_DATA` for every record number and
every buffer capacity, stores no byte in the message buffer and leaves all
four output slots as they were. -/
theorem no_stored_error_no_data (odbcErr : OdbcError) (sqlStateCode errorMessage : Str)
    (RecNumber : Int) (SqlStatePtr : Option Str) (NativeErrorPtr : Option Int)
    (MessageTextPtr : Option (List Char)) (BufferLength : Int) (TextLengthPtr : Option Int) :
    SQLGetDiagRec SQL_HANDLE_STMT (.stmt ⟨⟨false, odbcErr⟩⟩) RecNumber SqlStatePtr
        NativeErrorPtr MessageTextPtr BufferLength TextLengthPtr =
      .ok ⟨SQL_NO_DATA, ⟨SqlStatePtr, NativeErrorPtr, MessageTextPtr, TextLengthPtr⟩, []⟩ ∧
    SQLGetDiagRec SQL_HANDLE_DBC (.dbc ⟨⟨false, sqlStateCode, errorMessage⟩⟩) RecNumber
        SqlStatePtr NativeErrorPtr MessageTextPtr BufferLength TextLengthPtr =
      .ok ⟨SQL_NO_DATA, ⟨SqlStatePtr, NativeErrorPtr, MessageTextPtr, TextLengthPtr⟩, []⟩ := by
  constructor <;>
    simp [SQLGetDiagRec, Connection.getError, SQL_HANDLE_STMT, SQL_HANDLE_ENV, SQL_HANDLE_DBC]

/-- C5: on a statement handle the return code, the byte stores into the
message buffer and the reported length depend on the stored error, the record
number and the capacity only: two calls that agree on these three, whatever
the contents of their output slots and buffers (supplied in both calls or in
neither), observe the same. The call takes the handle as a value and returns
no new handle state, so earlier requests cannot change a later one. -/
theorem diag_deterministic (odbcErr : OdbcError) (RecNumber BufferLength : Int)
    (sp1 sp2 : Option Str) (np1 np2 : Option Int) (mp1 mp2 : Option (List Char))
    (tp1 tp2 : Option Int) (hm : mp1.isSome = mp2.isSome) (ht : tp1.isSome = tp2.isSome) :
    (SQLGetDiagRec SQL_HANDLE_STMT (stmtWithError odbcErr) RecNumber sp1 np1 mp1 BufferLength
        tp1).map observe =
      (SQLGetDiagRec SQL_HANDLE_STMT (stmtWithError odbcErr) RecNumber sp2 np2 mp2 BufferLength
        tp2).map observe := by
  rw [SQLGetDiagRec_stmt, SQLGetDiagRec_stmt, statementDiag_eq, statementDiag_eq]
  have ht2 : ∀ v : Int, tp1.map (fun _ => v) = tp2.map (fun _ => v) := by
    intro v
    cases tp1 <;> cases tp2 <;> simp_all
  split
  · simp only [Except.map, observe, hm, ht2]
  · simp [Except.map, observe]

/-- Witness of C5: the first record of the sample error, requested once with
empty slots and once with filled ones. -/
theorem diag_deterministic_witness :
    (SQLGetDiagRec SQL_HANDLE_STMT (stmtWithError sampleError) 1 none none
        (some (List.replicate 80 'x')) 80 (some 0)).map observe =
      (SQLGetDiagRec SQL_HANDLE_STMT (stmtWithError sampleError) 1 (some []) (some 7)
        (some (List.replicate 90 'y')) 80 (some 5)).map observe :=
  diag_deterministic sampleError 1 80 none (some []) none (some 7)
    (some (List.replicate 80 'x')) (some (List.replicate 90 'y')) (some 0) (some 5) rfl rfl

/-- C8: for every stored statement error, record number and capacity `L`, the
call returns without a fault and every byte it stores into the message buffer,
the copied bytes and both NUL terminators, goes to an index below `L`; with
`L ≤ 0` it stores nothing. -/
theorem buffer_safety (odbcErr : OdbcError) (RecNumber : Int) (SqlStatePtr : Option Str)
    (NativeErrorPtr : Option Int) (MessageTextPtr : Option (List Char)) (BufferLength : Int)
    (TextLengthPtr : Option Int) :
    ∃ r, SQLGetDiagRec SQL_HANDLE_STMT (stmtWithError odbcErr) RecNumber SqlStatePtr
        NativeErrorPtr MessageTextPtr BufferLength TextLengthPtr = .ok r ∧
      (∀ w ∈ r.messageStores, (w.1 : Int) < BufferLength) ∧
      (BufferLength ≤ 0 → r.messageStores = []) := by
  rw [SQLGetDiagRec_stmt, statementDiag_eq]
  split
  · refine ⟨_, rfl, ?_, ?_⟩
    · intro w hw
      simp only at hw
      split at hw
      · rename_i hc
        have h1 := copyStores_index_le _ _ w hw
        have h2 := chunkSizeOf_lt BufferLength hc.2
        omega
      · simp at hw
    · intro hL
      have : ¬ (MessageTextPtr.isSome ∧ BufferLength > 0) := by omega
      simp [this]
  · exact ⟨_, rfl, by simp, by simp⟩

/-- C10: on a statement handle with a stored error the call returns, and a
request for record 1 leaves the error's SQLSTATE in the state buffer and its
native code in the native-error slot, each when supplied, while a request for
any other record number leaves both as they were. -/
theorem codes_only_on_first_record (odbcErr : OdbcError) (RecNumber : Int)
    (SqlStatePtr : Option Str) (NativeErrorPtr : Option Int)
    (MessageTextPtr : Option (List Char)) (BufferLength : Int) (TextLengthPtr : Option Int) :
    ∃ r, SQLGetDiagRec SQL_HANDLE_STMT (stmtWithError odbcErr) RecNumber SqlStatePtr
        NativeErrorPtr MessageTextPtr BufferLength TextLengthPtr = .ok r ∧
      (RecNumber = 1 → r.slots.SqlState = SqlStatePtr.map (fun _ => odbcErr.sqlstate) ∧
        r.slots.NativeError = NativeErrorPtr.map (fun _ => odbcErr.native)) ∧
      (RecNumber ≠ 1 → r.slots.SqlState = SqlStatePtr ∧
        r.slots.NativeError = NativeErrorPtr) := by
  rw [SQLGetDiagRec_stmt, statementDiag_eq]
  split
  · refine ⟨_, rfl, ?_, ?_⟩
    · intro h; simp [h]
    · intro h; simp [h]
  · refine ⟨_, rfl, ?_, ?_⟩
    · intro h; simp [h]
    · intro h; simp [h]

/-- C3: if the outer loop consumes the rendered lines of a stored statement
error in exactly `n` passes under the budget of capacity `L`, every request for
a record number `K > n` returns `SQL_NO_DATA` and stores no message byte. -/
theorem out_of_range_no_data (odbcErr : OdbcError) (RecNumber BufferLength : Int) (n : Nat)
    (SqlStatePtr : Option Str) (NativeErrorPtr : Option Int)
    (MessageTextPtr : Option (List Char)) (TextLengthPtr : Option Int)
    (hpart : partitionsInto (buildLines odbcErr) (chunkSizeOf BufferLength) n)
    (hK : (n : Int) < RecNumber) (hsmall : isSmallInt RecNumber) :
    ∃ r, SQLGetDiagRec SQL_HANDLE_STMT (stmtWithError odbcErr) RecNumber SqlStatePtr
        NativeErrorPtr MessageTextPtr BufferLength TextLengthPtr = .ok r ∧
      r.ret = SQL_NO_DATA ∧ r.messageStores = [] ∧
      r.slots.MessageText = MessageTextPtr ∧ r.slots.TextLength = TextLengthPtr := by
  rw [SQLGetDiagRec_stmt, statementDiag_eq]
  have hp : passOf RecNumber = n + (RecNumber.toNat - 1 - n) := by
    rw [passOf_of_pos RecNumber (by omega) (by unfold isSmallInt at hsmall; omega)]
    omega
  have hm := chunkStart_mono (buildLines odbcErr) (chunkSizeOf BufferLength) n
    (RecNumber.toNat - 1 - n)
  rw [← hp, hpart.2] at hm
  rw [if_neg (by omega)]
  exact ⟨_, rfl, rfl, rfl, rfl, rfl⟩

/-- Witness of C3 (Scenario D): the sample error makes exactly 2 chunks under
capacity 80, and record 3 is out of range. -/
theorem out_of_range_no_data_witness :
    partitionsInto (buildLines sampleError) (chunkSizeOf 80) 2 ∧ ((2 : Nat) : Int) < 3 ∧
      isSmallInt 3 ∧
      ∃ r, SQLGetDiagRec SQL_HANDLE_STMT (stmtWithError sampleError) 3 none none
          (some (List.replicate 80 'x')) 80 (some 0) = .ok r ∧
        r.ret = SQL_NO_DATA ∧ r.messageStores = [] ∧
        r.slots.MessageText = some (List.replicate 80 'x') ∧ r.slots.TextLength = some 0 :=
  ⟨by decide, by decide, by decide,
    out_of_range_no_data sampleError 3 80 2 none none (some (List.replicate 80 'x')) (some 0)
      (by decide) (by decide) (by decide)⟩

/-- C2, what the code does: a rendered line that, with its terminator, exceeds
the budget of capacity `L` is never appended: a pass of the outer loop that
starts at such a line leaves the bare leading newline as its chunk and
continues at the same line. When the first line is such a line, the loop
selects the bare newline for every record number and the call returns
`SQL_SUCCESS`: the line is never placed in a chunk and the partition never
advances past it. -/
theorem oversized_line_never_placed (odbcErr : OdbcError) (RecNumber BufferLength : Int)
    (first : Str) (SqlStatePtr : Option Str) (NativeErrorPtr : Option Int)
    (MessageTextPtr : Option (List Char)) (TextLengthPtr : Option Int)
    (hfirst : (buildLines odbcErr)[0]? = some first)
    (hbig : chunkSizeOf BufferLength < first.length + 1) :
    (∀ (i : Nat) (line : Str), (buildLines odbcErr)[i]? = some line →
        chunkSizeOf BufferLength < line.length + 1 →
        fillChunk (buildLines odbcErr) (chunkSizeOf BufferLength) i = (i, ['\n'])) ∧
      chunkLoop (buildLines odbcErr) (chunkSizeOf BufferLength) (toSizeT RecNumber)
        loopFuel 0 1 = some (true, ['\n']) ∧
      ∃ r, SQLGetDiagRec SQL_HANDLE_STMT (stmtWithError odbcErr) RecNumber SqlStatePtr
          NativeErrorPtr MessageTextPtr BufferLength TextLengthPtr = .ok r ∧
        r.ret = SQL_SUCCESS := by
  have hfill := fillChunk_stuck (buildLines odbcErr) (chunkSizeOf BufferLength) 0 first hfirst
    (by omega)
  have hstart := chunkStart_stuck (buildLines odbcErr) (chunkSizeOf BufferLength) first hfirst
    (by omega) (passOf RecNumber)
  have hpos := length_pos_of_getElem? _ 0 first hfirst
  refine ⟨?_, ?_, ?_⟩
  · intro i line hline hlarge
    exact fillChunk_stuck _ _ i line hline (by omega)
  · rw [chunkLoop_chunkStart, hstart, if_pos hpos, hfill]
  · rw [SQLGetDiagRec_stmt, statementDiag_eq, hstart, if_pos hpos]
    exact ⟨_, rfl, rfl⟩

/-- Witness of C2: the first line of the sample error has 35 bytes and the
capacity is 20; record 2 is again the bare newline. -/
theorem oversized_line_never_placed_witness :
    (∀ (i : Nat) (line : Str), (buildLines sampleError)[i]? = some line →
        chunkSizeOf 20 < line.length + 1 →
        fillChunk (buildLines sampleError) (chunkSizeOf 20) i = (i, ['\n'])) ∧
      chunkLoop (buildLines sampleError) (chunkSizeOf 20) (toSizeT 2) loopFuel 0 1
        = some (true, ['\n']) ∧
      ∃ r, SQLGetDiagRec SQL_HANDLE_STMT (stmtWithError sampleError) 2 none none
          (some (List.replicate 20 'x')) 20 (some 0) = .ok r ∧
        r.ret = SQL_SUCCESS :=
  oversized_line_never_placed sampleError 2 20 "Trino Error Information(queryId:q1)".toList
    none none (some (List.replicate 20 'x')) (some 0) (by decide) (by decide)

/-- C9, what the code does: with capacity 0 every request for a record,
whatever its number, on a statement handle with a stored error returns
`SQL_SUCCESS`, reports length 0 and stores no byte, so no record number is
ever answered with `SQL_NO_DATA`. -/
theorem zero_capacity_never_exhausts (odbcErr : OdbcError) (RecNumber : Int)
    (SqlStatePtr : Option Str) (NativeErrorPtr : Option Int)
    (MessageTextPtr : Option (List Char)) (TextLengthPtr : Option Int) :
    ∃ r, SQLGetDiagRec SQL_HANDLE_STMT (stmtWithError odbcErr) RecNumber SqlStatePtr
        NativeErrorPtr MessageTextPtr 0 TextLengthPtr = .ok r ∧
      r.ret = SQL_SUCCESS ∧ r.messageStores = [] ∧
      r.slots.TextLength = TextLengthPtr.map (fun _ => 0) ∧
      r.slots.MessageText = MessageTextPtr := by
  have hpos := buildLines_length_pos odbcErr
  have hfirst : (buildLines odbcErr)[0]? = some ((buildLines odbcErr)[0]) :=
    List.getElem?_eq_getElem hpos
  have hcs : chunkSizeOf 0 = 0 := chunkSizeOf_of_nonpos 0 (le_refl 0)
  have hstart := chunkStart_stuck (buildLines odbcErr) (chunkSizeOf 0) _ hfirst
    (by omega) (passOf RecNumber)
  rw [SQLGetDiagRec_stmt, statementDiag_eq, hstart, if_pos hpos]
  refine ⟨_, rfl, rfl, ?_, ?_, ?_⟩
  · simp
  · simp only [hcs, Nat.min_zero]
    rfl
  · cases MessageTextPtr <;> simp [applyStores]

/-- C7 (amended): when a record is returned for a statement handle with
capacity `L > 0` and a supplied message buffer of at least `L` bytes, and the
first `min (length of the selected chunk) (L - 1)` bytes of the chunk hold no
NUL byte, then exactly those bytes are copied, the buffer holds them followed
by a NUL terminator, and the text-length slot, when supplied, holds their
number. -/
theorem truncation_and_length (odbcErr : OdbcError) (RecNumber BufferLength : Int)
    (chunk : Str) (buf : List Char) (SqlStatePtr : Option Str) (NativeErrorPtr : Option Int)
    (TextLengthPtr : Option Int)
    (hL : 0 < BufferLength) (hsmall : isSmallInt BufferLength)
    (hbuf : BufferLength.toNat ≤ buf.length)
    (hsel : chunkLoop (buildLines odbcErr) (chunkSizeOf BufferLength) (toSizeT RecNumber)
      loopFuel 0 1 = some (true, chunk))
    (hnul : NUL ∉ chunk.take (BufferLength.toNat - 1)) :
    ∃ r buf', SQLGetDiagRec SQL_HANDLE_STMT (stmtWithError odbcErr) RecNumber SqlStatePtr
        NativeErrorPtr (some buf) BufferLength TextLengthPtr = .ok r ∧
      r.ret = SQL_SUCCESS ∧
      r.messageStores = (chunk.take (min chunk.length (BufferLength.toNat - 1))).enum ++
        [(min chunk.length (BufferLength.toNat - 1), NUL),
         (min chunk.length (BufferLength.toNat - 1), NUL)] ∧
      r.slots.MessageText = some buf' ∧
      buf'.take (min chunk.length (BufferLength.toNat - 1) + 1) =
        chunk.take (min chunk.length (BufferLength.toNat - 1)) ++ [NUL] ∧
      r.slots.TextLength =
        TextLengthPtr.map (fun _ => ((min chunk.length (BufferLength.toNat - 1) : Nat) : Int)) := by
  obtain ⟨hs, hchunk⟩ := selected_of_chunkLoop odbcErr RecNumber BufferLength chunk hsel
  subst hchunk
  generalize hn : min (selectedChunk odbcErr RecNumber BufferLength).length
    (BufferLength.toNat - 1) = n
  have htake : (selectedChunk odbcErr RecNumber BufferLength).take n
      = (selectedChunk odbcErr RecNumber BufferLength).take (BufferLength.toNat - 1) := by
    rw [List.take_eq_take, ← hn]; omega
  have hlen : ((selectedChunk odbcErr RecNumber BufferLength).take n).length = n := by
    rw [List.length_take]; omega
  refine ⟨_, _, record_returned odbcErr RecNumber BufferLength buf SqlStatePtr NativeErrorPtr
    TextLengthPtr n hL hsmall hbuf hs hn (by rw [htake]; exact hnul), rfl, rfl, rfl, ?_, rfl⟩
  rw [List.take_append_eq_append_take, hlen]
  simp

set_option maxRecDepth 100000 in
/-- Witness of C7: the first record of the sample error under capacity 80. -/
theorem truncation_and_length_witness :
    ∃ r buf', SQLGetDiagRec SQL_HANDLE_STMT (stmtWithError sampleError) 1 none none
        (some (List.replicate 80 'x')) 80 (some 0) = .ok r ∧
      r.ret = SQL_SUCCESS ∧
      r.messageStores =
        ((selectedChunk sampleError 1 80).take
          (min (selectedChunk sampleError 1 80).length ((80 : Int).toNat - 1))).enum ++
        [(min (selectedChunk sampleError 1 80).length ((80 : Int).toNat - 1), NUL),
         (min (selectedChunk sampleError 1 80).length ((80 : Int).toNat - 1), NUL)] ∧
      r.slots.MessageText = some buf' ∧
      buf'.take (min (selectedChunk sampleError 1 80).length ((80 : Int).toNat - 1) + 1) =
        (selectedChunk sampleError 1 80).take
          (min (selectedChunk sampleError 1 80).length ((80 : Int).toNat - 1)) ++ [NUL] ∧
      r.slots.TextLength = (some (0 : Int)).map (fun _ =>
        ((min (selectedChunk sampleError 1 80).length ((80 : Int).toNat - 1) : Nat) : Int)) :=
  truncation_and_length sampleError 1 80 (selectedChunk sampleError 1 80)
    (List.replicate 80 'x') none none (some 0) (by decide) (by decide) (by decide) (by decide)
    (by decide)

set_option maxRecDepth 100000 in
/-- Counterexample to C7 as stated: the message of `nulError` holds a NUL
byte. Under capacity 200 record 1 is returned, its chunk has 120 bytes and the
reported length is 120, but the copy stops at the NUL: the buffer holds a C
string of 117 bytes, and its first 121 bytes are not the chunk followed by a
terminator. -/
theorem truncation_counterexample :
    chunkLoop (buildLines nulError) (chunkSizeOf 200) (toSizeT 1) loopFuel 0 1
        = some (true, selectedChunk nulError 1 200) ∧
      retOf (SQLGetDiagRec SQL_HANDLE_STMT (stmtWithError nulError) 1 none none
        (some (List.replicate 200 'x')) 200 (some 0)) = some SQL_SUCCESS ∧
      min (selectedChunk nulError 1 200).length (200 - 1) = 120 ∧
      lengthOf (SQLGetDiagRec SQL_HANDLE_STMT (stmtWithError nulError) 1 none none
        (some (List.replicate 200 'x')) 200 (some 0)) = some 120 ∧
      (cstr (bufferOf (SQLGetDiagRec SQL_HANDLE_STMT (stmtWithError nulError) 1 none none
        (some (List.replicate 200 'x')) 200 (some 0)))).length = 117 ∧
      (bufferOf (SQLGetDiagRec SQL_HANDLE_STMT (stmtWithError nulError) 1 none none
        (some (List.replicate 200 'x')) 200 (some 0))).take (120 + 1)
        ≠ (selectedChunk nulError 1 200).take 120 ++ [NUL] := by
  decide

/-- C1 (amended): for every stored statement error and capacity `L` such that
every rendered line fits the budget behind the newline that opens each chunk
(length + 2 ≤ L - 1), the rendered text holds no NUL byte and there are fewer
than 32767 lines, with a message buffer of at least `L` bytes: there is an
`n ≥ 1` such that records 1 to `n` are returned, each message beginning with
one newline byte that is not part of the text, record `n + 1` returns
`SQL_NO_DATA`, and the messages of records 1 to `n`, each without its leading
newline, concatenated in order, are exactly the rendered text. -/
theorem chunking_coverage (odbcErr : OdbcError) (BufferLength : Int) (buf : List Char)
    (SqlStatePtr : Option Str) (NativeErrorPtr : Option Int) (TextLengthPtr : Option Int)
    (hsmall : isSmallInt BufferLength) (hbuf : BufferLength.toNat ≤ buf.length)
    (hfit : ∀ l ∈ buildLines odbcErr, (l.length : Int) + 2 ≤ BufferLength - 1)
    (hrec : (buildLines odbcErr).length < 32767)
    (hnul : NUL ∉ joinLines (buildLines odbcErr)) :
    ∃ n : Nat, 0 < n ∧
      (∀ k, k < n →
        retOf (SQLGetDiagRec SQL_HANDLE_STMT (stmtWithError odbcErr) ((k : Int) + 1)
          SqlStatePtr NativeErrorPtr (some buf) BufferLength TextLengthPtr)
            = some SQL_SUCCESS ∧
        (messageOf (SQLGetDiagRec SQL_HANDLE_STMT (stmtWithError odbcErr) ((k : Int) + 1)
          SqlStatePtr NativeErrorPtr (some buf) BufferLength TextLengthPtr)).head?
            = some '\n') ∧
      retOf (SQLGetDiagRec SQL_HANDLE_STMT (stmtWithError odbcErr) ((n : Int) + 1)
        SqlStatePtr NativeErrorPtr (some buf) BufferLength TextLengthPtr) = some SQL_NO_DATA ∧
      (List.range n).flatMap (fun k =>
        (messageOf (SQLGetDiagRec SQL_HANDLE_STMT (stmtWithError odbcErr) ((k : Int) + 1)
          SqlStatePtr NativeErrorPtr (some buf) BufferLength TextLengthPtr)).drop 1)
        = joinLines (buildLines odbcErr) := by
  have hpos := buildLines_length_pos odbcErr
  have hL : 2 ≤ BufferLength := by
    have h0 := hfit _ (List.getElem_mem hpos)
    omega
  have hcs : chunkSizeOf BufferLength = BufferLength.toNat - 1 :=
    chunkSizeOf_of_pos BufferLength (by omega) (by unfold isSmallInt at hsmall; omega)
  have hfit2 : ∀ l ∈ buildLines odbcErr, l.length + 2 ≤ chunkSizeOf BufferLength := by
    intro l hl
    have := hfit l hl
    omega
  obtain ⟨n, hn0, hnle, hpart⟩ :=
    exists_partition (buildLines odbcErr) (chunkSizeOf BufferLength) hfit2 hpos
  have hmsg : ∀ k, k < n →
      retOf (SQLGetDiagRec SQL_HANDLE_STMT (stmtWithError odbcErr) ((k : Int) + 1)
        SqlStatePtr NativeErrorPtr (some buf) BufferLength TextLengthPtr)
          = some SQL_SUCCESS ∧
      messageOf (SQLGetDiagRec SQL_HANDLE_STMT (stmtWithError odbcErr) ((k : Int) + 1)
        SqlStatePtr NativeErrorPtr (some buf) BufferLength TextLengthPtr)
        = '\n' :: joinLines (((buildLines odbcErr).drop
            (chunkStart (buildLines odbcErr) (chunkSizeOf BufferLength) k)).take
            (chunkStart (buildLines odbcErr) (chunkSizeOf BufferLength) (k + 1)
              - chunkStart (buildLines odbcErr) (chunkSizeOf BufferLength) k)) := by
    intro k hk
    have hp : passOf ((k : Int) + 1) = k := passOf_succ k (by omega)
    have hsel := selectedChunk_eq odbcErr ((k : Int) + 1) BufferLength
    rw [hp] at hsel
    have hnul2 : NUL ∉ selectedChunk odbcErr ((k : Int) + 1) BufferLength := by
      rw [hsel]
      intro hm
      rcases List.mem_cons.mp hm with h | h
      · exact NUL_ne_newline h
      · exact hnul (mem_joinLines_slice _ _ _ _ h)
    have h := message_of_record odbcErr ((k : Int) + 1) BufferLength buf SqlStatePtr
      NativeErrorPtr TextLengthPtr hL hsmall hbuf (by rw [hp]; exact hpart.1 k hk) hnul2
    rw [hsel] at h
    exact h
  refine ⟨n, hn0, ?_, ?_, ?_⟩
  · intro k hk
    obtain ⟨h1, h2⟩ := hmsg k hk
    exact ⟨h1, by rw [h2]; rfl⟩
  · have hp : passOf ((n : Int) + 1) = n := passOf_succ n (by omega)
    rw [SQLGetDiagRec_stmt, statementDiag_eq, hp, hpart.2, if_neg (lt_irrefl _)]
    rfl
  · rw [concat_chunks (buildLines odbcErr) (chunkSizeOf BufferLength) _ n
      (fun k hk => by rw [(hmsg k hk).2]; rfl)]
    rw [hpart.2, List.take_length]

set_option maxRecDepth 100000 in
/-- Witness of C1: the sample error under capacity 80. -/
theorem chunking_coverage_witness :
    ∃ n : Nat, 0 < n ∧
      (∀ k, k < n →
        retOf (SQLGetDiagRec SQL_HANDLE_STMT (stmtWithError sampleError) ((k : Int) + 1)
          none none (some (List.replicate 80 'x')) 80 (some 0))
            = some SQL_SUCCESS ∧
        (messageOf (SQLGetDiagRec SQL_HANDLE_STMT (stmtWithError sampleError) ((k : Int) + 1)
          none none (some (List.replicate 80 'x')) 80 (some 0))).head?
            = some '\n') ∧
      retOf (SQLGetDiagRec SQL_HANDLE_STMT (stmtWithError sampleError) ((n : Int) + 1)
        none none (some (List.replicate 80 'x')) 80 (some 0)) = some SQL_NO_DATA ∧
      (List.range n).flatMap (fun k =>
        (messageOf (SQLGetDiagRec SQL_HANDLE_STMT (stmtWithError sampleError) ((k : Int) + 1)
          none none (some (List.replicate 80 'x')) 80 (some 0))).drop 1)
        = joinLines (buildLines sampleError) :=
  chunking_coverage sampleError 80 (List.replicate 80 'x') none none (some 0) (by decide)
    (by decide) (by decide) (by decide) (by decide)

set_option maxRecDepth 100000 in
/-- Counterexample to C1 as stated: for the sample error under capacity 80,
records 1 and 2 are returned and record 3 is the first to return
`SQL_NO_DATA`, but the two messages concatenated are not the rendered text:
each begins with a newline byte that the text does not hold, so the
concatenation is two bytes longer. -/
theorem chunking_coverage_counterexample :
    retOf (SQLGetDiagRec SQL_HANDLE_STMT (stmtWithError sampleError) 1 none none
        (some (List.replicate 80 'x')) 80 (some 0)) = some SQL_SUCCESS ∧
      retOf (SQLGetDiagRec SQL_HANDLE_STMT (stmtWithError sampleError) 2 none none
        (some (List.replicate 80 'x')) 80 (some 0)) = some SQL_SUCCESS ∧
      retOf (SQLGetDiagRec SQL_HANDLE_STMT (stmtWithError sampleError) 3 none none
        (some (List.replicate 80 'x')) 80 (some 0)) = some SQL_NO_DATA ∧
      messageOf (SQLGetDiagRec SQL_HANDLE_STMT (stmtWithError sampleError) 1 none none
          (some (List.replicate 80 'x')) 80 (some 0)) ++
        messageOf (SQLGetDiagRec SQL_HANDLE_STMT (stmtWithError sampleError) 2 none none
          (some (List.replicate 80 'x')) 80 (some 0))
        ≠ joinLines (buildLines sampleError) ∧
      (messageOf (SQLGetDiagRec SQL_HANDLE_STMT (stmtWithError sampleError) 1 none none
          (some (List.replicate 80 'x')) 80 (some 0)) ++
        messageOf (SQLGetDiagRec SQL_HANDLE_STMT (stmtWithError sampleError) 2 none none
          (some (List.replicate 80 'x')) 80 (some 0))).length
        = (joinLines (buildLines sampleError)).length + 2 := by
  decide

/-- C6 (amended): for every stored statement error, capacity `L ≥ 1` with a
message buffer of at least `L` bytes, and record number for which a record is
returned and whose chunk holds no NUL byte, the chunk is one newline byte
followed by complete, consecutive lines of the rendered line sequence, each
with its terminator; the message left in the buffer is that whole chunk when
`L ≥ 2` and is empty when `L = 1`. -/
theorem line_alignment (odbcErr : OdbcError) (RecNumber BufferLength : Int)
    (chunk : Str) (buf : List Char) (SqlStatePtr : Option Str) (NativeErrorPtr : Option Int)
    (TextLengthPtr : Option Int)
    (hL : 0 < BufferLength) (hsmall : isSmallInt BufferLength)
    (hbuf : BufferLength.toNat ≤ buf.length)
    (hsel : chunkLoop (buildLines odbcErr) (chunkSizeOf BufferLength) (toSizeT RecNumber)
      loopFuel 0 1 = some (true, chunk))
    (hnul : NUL ∉ chunk) :
    retOf (SQLGetDiagRec SQL_HANDLE_STMT (stmtWithError odbcErr) RecNumber SqlStatePtr
        NativeErrorPtr (some buf) BufferLength TextLengthPtr) = some SQL_SUCCESS ∧
    ∃ i m, chunk = '\n' :: joinLines (((buildLines odbcErr).drop i).take m) ∧
      ((BufferLength = 1 ∧
          messageOf (SQLGetDiagRec SQL_HANDLE_STMT (stmtWithError odbcErr) RecNumber SqlStatePtr
            NativeErrorPtr (some buf) BufferLength TextLengthPtr) = []) ∨
       (2 ≤ BufferLength ∧
          messageOf (SQLGetDiagRec SQL_HANDLE_STMT (stmtWithError odbcErr) RecNumber SqlStatePtr
            NativeErrorPtr (some buf) BufferLength TextLengthPtr) =
            '\n' :: joinLines (((buildLines odbcErr).drop i).take m))) := by
  obtain ⟨hs, hchunk⟩ := selected_of_chunkLoop odbcErr RecNumber BufferLength chunk hsel
  subst hchunk
  have hcs : chunkSizeOf BufferLength = BufferLength.toNat - 1 :=
    chunkSizeOf_of_pos BufferLength hL (by unfold isSmallInt at hsmall; omega)
  have hrec := fun n hn => record_returned odbcErr RecNumber BufferLength buf SqlStatePtr
    NativeErrorPtr TextLengthPtr n hL hsmall hbuf hs hn (not_mem_take_of_not_mem _ n hnul)
  have hform : selectedChunk odbcErr RecNumber BufferLength = '\n' :: joinLines
      (((buildLines odbcErr).drop (chunkStart (buildLines odbcErr) (chunkSizeOf BufferLength)
        (passOf RecNumber))).take (takeCount (chunkSizeOf BufferLength)
          ((buildLines odbcErr).drop (chunkStart (buildLines odbcErr)
            (chunkSizeOf BufferLength) (passOf RecNumber))) 1)) := by
    rw [selectedChunk, fillChunk_eq]
  have hlen : (selectedChunk odbcErr RecNumber BufferLength).length
      ≤ max (chunkSizeOf BufferLength) 1 := by
    rw [selectedChunk]; exact fillChunk_length _ _ _
  have hpos : 0 < (selectedChunk odbcErr RecNumber BufferLength).length := by
    rw [hform]; simp
  constructor
  · rw [hrec _ rfl]; rfl
  · refine ⟨_, _, hform, ?_⟩
    by_cases h1 : BufferLength = 1
    · left
      refine ⟨h1, ?_⟩
      have hn : min (selectedChunk odbcErr RecNumber BufferLength).length
          (BufferLength.toNat - 1) = 0 := by omega
      rw [hrec 0 hn]
      exact messageOf_record _ _ _ _ _ _ 0 (by simp)
    · right
      refine ⟨by omega, ?_⟩
      have hn : min (selectedChunk odbcErr RecNumber BufferLength).length
          (BufferLength.toNat - 1) = (selectedChunk odbcErr RecNumber BufferLength).length := by
        omega
      rw [hrec _ hn, List.take_length]
      rw [messageOf_record _ _ _ _ _ _ _ hnul]
      exact hform

set_option maxRecDepth 100000 in
/-- Witness of C6: the second record of the sample error under capacity 80. -/
theorem line_alignment_witness :
    retOf (SQLGetDiagRec SQL_HANDLE_STMT (stmtWithError sampleError) 2 none none
        (some (List.replicate 80 'x')) 80 (some 0)) = some SQL_SUCCESS ∧
    ∃ i m, selectedChunk sampleError 2 80
        = '\n' :: joinLines (((buildLines sampleError).drop i).take m) ∧
      (((80 : Int) = 1 ∧
          messageOf (SQLGetDiagRec SQL_HANDLE_STMT (stmtWithError sampleError) 2 none none
            (some (List.replicate 80 'x')) 80 (some 0)) = []) ∨
       (2 ≤ (80 : Int) ∧
          messageOf (SQLGetDiagRec SQL_HANDLE_STMT (stmtWithError sampleError) 2 none none
            (some (List.replicate 80 'x')) 80 (some 0)) =
            '\n' :: joinLines (((buildLines sampleError).drop i).take m))) :=
  line_alignment sampleError 2 80 (selectedChunk sampleError 2 80) (List.replicate 80 'x')
    none none (some 0) (by decide) (by decide) (by decide) (by decide) (by decide)

set_option maxRecDepth 100000 in
/-- Counterexample to C6 as stated: the first record of the sample error
under capacity 80 is returned, and its message is not the concatenation of any
run of consecutive rendered lines with their terminators, because it begins
with a newline byte of its own. -/
theorem line_alignment_counterexample :
    retOf (SQLGetDiagRec SQL_HANDLE_STMT (stmtWithError sampleError) 1 none none
        (some (List.replicate 80 'x')) 80 (some 0)) = some SQL_SUCCESS ∧
      ¬ ∃ i m, messageOf (SQLGetDiagRec SQL_HANDLE_STMT (stmtWithError sampleError) 1 none none
          (some (List.replicate 80 'x')) 80 (some 0))
        = joinLines (((buildLines sampleError).drop i).take m) := by
  refine ⟨by decide, ?_⟩
  rintro ⟨i, m, h⟩
  have hlen : (buildLines sampleError).length = 8 := by decide
  have hb : ∀ i < 9, ∀ m < 9,
      messageOf (SQLGetDiagRec SQL_HANDLE_STMT (stmtWithError sampleError) 1 none none
          (some (List.replicate 80 'x')) 80 (some 0))
        ≠ joinLines (((buildLines sampleError).drop i).take m) := by decide
  have h1 : (buildLines sampleError).drop i = (buildLines sampleError).drop (min i 8) := by
    by_cases hi : i ≤ 8
    · rw [Nat.min_eq_left hi]
    · rw [Nat.min_eq_right (by omega), List.drop_eq_nil_of_le (by omega),
        List.drop_eq_nil_of_le (by omega)]
  have h2 : ((buildLines sampleError).drop (min i 8)).take m
      = ((buildLines sampleError).drop (min i 8)).take (min m 8) := by
    rw [List.take_eq_take, List.length_drop]; omega
  rw [h1, h2] at h
  exact hb (min i 8) (by omega) (min m 8) (by omega) h

/-- C11 (amended): for every stored statement error, whatever its
classification, and every record number and capacity, the call returns
`SQL_SUCCESS` or `SQL_NO_DATA`: whenever a record is returned the status is
`SQL_SUCCESS`, also for a warning-classified error and for a hard error. The
status stored in the error itself is only rendered into the text. -/
theorem record_status_is_success (odbcErr : OdbcError) (RecNumber : Int)
    (SqlStatePtr : Option Str) (NativeErrorPtr : Option Int)
    (MessageTextPtr : Option (List Char)) (BufferLength : Int) (TextLengthPtr : Option Int) :
    ∃ r, SQLGetDiagRec SQL_HANDLE_STMT (stmtWithError odbcErr) RecNumber SqlStatePtr
        NativeErrorPtr MessageTextPtr BufferLength TextLengthPtr = .ok r ∧
      (r.ret = SQL_SUCCESS ∨ r.ret = SQL_NO_DATA) ∧
      (r.ret = SQL_SUCCESS ↔
        chunkStart (buildLines odbcErr) (chunkSizeOf BufferLength) (passOf RecNumber)
          < (buildLines odbcErr).length) := by
  rw [SQLGetDiagRec_stmt, statementDiag_eq]
  split
  · rename_i h
    exact ⟨_, rfl, Or.inl rfl, by simp [h]⟩
  · rename_i h
    refine ⟨_, rfl, Or.inr rfl, ?_⟩
    constructor
    · intro h2
      have h3 : SQL_NO_DATA ≠ SQL_SUCCESS := by decide
      exact absurd h2 h3
    · intro h2; exact absurd h2 h

set_option maxRecDepth 100000 in
/-- Counterexample to C11 as stated: record 1 of the sample error, a hard
error with status `SQL_ERROR`, and record 1 of a warning-classified error with
status `SQL_SUCCESS_WITH_INFO`, are both returned with status `SQL_SUCCESS`. -/
theorem record_status_counterexample :
    sampleError.ret = SQL_ERROR ∧ isWarning sampleError.sqlstate = false ∧
      retOf (SQLGetDiagRec SQL_HANDLE_STMT (stmtWithError sampleError) 1 none none
        (some (List.replicate 200 'x')) 200 (some 0)) = some SQL_SUCCESS ∧
      warningError.ret = SQL_SUCCESS_WITH_INFO ∧ isWarning warningError.sqlstate = true ∧
      retOf (SQLGetDiagRec SQL_HANDLE_STMT (stmtWithError warningError) 1 none none
        (some (List.replicate 200 'x')) 200 (some 0)) = some SQL_SUCCESS ∧
      SQL_SUCCESS ≠ SQL_ERROR ∧ SQL_SUCCESS ≠ SQL_SUCCESS_WITH_INFO := by
  decide

/-- C12: on a connection handle a record is returned exactly when the record
number is 1 and the stored `ErrorInfo` reports an error. The record is not
chunked: the state buffer receives the stored SQLSTATE, the native-error slot
-1, the length slot the length of the stored message, and the message buffer
the whole stored message followed by a NUL, whatever the capacity. Every other
request returns `SQL_NO_DATA` and leaves the output slots as they were. -/
theorem connection_single_record (conn : Connection) (RecNumber : Int)
    (SqlStatePtr : Option Str) (NativeErrorPtr : Option Int)
    (MessageTextPtr : Option (List Char)) (BufferLength : Int) (TextLengthPtr : Option Int) :
    (RecNumber = 1 ∧ conn.getError.errorOccurred = true →
      SQLGetDiagRec SQL_HANDLE_DBC (.dbc conn) RecNumber SqlStatePtr NativeErrorPtr
          MessageTextPtr BufferLength TextLengthPtr =
        .ok ⟨SQL_SUCCESS,
          ⟨SqlStatePtr.map (fun _ => conn.getError.sqlStateCode),
           NativeErrorPtr.map (fun _ => -1),
           MessageTextPtr.map (fun buf => applyStores buf
             (match MessageTextPtr with
              | none => []
              | some _ => conn.getError.errorMessage.enum ++
                  [(conn.getError.errorMessage.length, NUL)])),
           TextLengthPtr.map (fun _ => toSmallInt conn.getError.errorMessage.length)⟩,
          match MessageTextPtr with
          | none => []
          | some _ => conn.getError.errorMessage.enum ++
              [(conn.getError.errorMessage.length, NUL)]⟩ ∧
      ∀ buf, MessageTextPtr = some buf → conn.getError.errorMessage.length < buf.length →
        bufferOf (SQLGetDiagRec SQL_HANDLE_DBC (.dbc conn) RecNumber SqlStatePtr NativeErrorPtr
          MessageTextPtr BufferLength TextLengthPtr) =
          conn.getError.errorMessage ++ NUL :: buf.drop (conn.getError.errorMessage.length + 1)) ∧
    (¬ (RecNumber = 1 ∧ conn.getError.errorOccurred = true) →
      SQLGetDiagRec SQL_HANDLE_DBC (.dbc conn) RecNumber SqlStatePtr NativeErrorPtr
          MessageTextPtr BufferLength TextLengthPtr =
        .ok ⟨SQL_NO_DATA, ⟨SqlStatePtr, NativeErrorPtr, MessageTextPtr, TextLengthPtr⟩, []⟩) := by
  constructor
  · intro h
    have hcall : SQLGetDiagRec SQL_HANDLE_DBC (.dbc conn) RecNumber SqlStatePtr NativeErrorPtr
          MessageTextPtr BufferLength TextLengthPtr =
        .ok ⟨SQL_SUCCESS,
          ⟨SqlStatePtr.map (fun _ => conn.getError.sqlStateCode),
           NativeErrorPtr.map (fun _ => -1),
           MessageTextPtr.map (fun buf => applyStores buf
             (match MessageTextPtr with
              | none => []
              | some _ => conn.getError.errorMessage.enum ++
                  [(conn.getError.errorMessage.length, NUL)])),
           TextLengthPtr.map (fun _ => toSmallInt conn.getError.errorMessage.length)⟩,
          match MessageTextPtr with
          | none => []
          | some _ => conn.getError.errorMessage.enum ++
              [(conn.getError.errorMessage.length, NUL)]⟩ := by
      simp only [SQLGetDiagRec, SQL_HANDLE_DBC, SQL_HANDLE_ENV, h, and_self, if_true,
        writeNullTermStringToPtr, writeNullTermStringStores]
      rfl
    refine ⟨hcall, ?_⟩
    intro buf hbuf hlen
    rw [hcall, hbuf]
    simp only [bufferOf, Option.map_some', Option.getD_some]
    exact applyStores_enum_nul buf _ hlen
  · intro h
    simp only [SQLGetDiagRec, SQL_HANDLE_DBC, SQL_HANDLE_ENV, h, if_false]
    rfl

/-- Witness of C12: record 1 of a connection with the stored error "08001",
"cannot connect", and record 2 of the same connection. -/
theorem connection_single_record_witness :
    (SQLGetDiagRec SQL_HANDLE_DBC (.dbc failedConnection) 1 (some []) (some 0)
        (some (List.replicate 20 'x')) 20 (some 0) =
      .ok ⟨SQL_SUCCESS,
        ⟨(some ([] : Str)).map (fun _ => failedConnection.getError.sqlStateCode),
         (some (0 : Int)).map (fun _ => -1),
         (some (List.replicate 20 'x')).map (fun buf => applyStores buf
           (match some (List.replicate 20 'x') with
            | none => []
            | some _ => failedConnection.getError.errorMessage.enum ++
                [(failedConnection.getError.errorMessage.length, NUL)])),
         (some (0 : Int)).map (fun _ => toSmallInt failedConnection.getError.errorMessage.length)⟩,
        match some (List.replicate 20 'x') with
        | none => []
        | some _ => failedConnection.getError.errorMessage.enum ++
            [(failedConnection.getError.errorMessage.length, NUL)]⟩ ∧
      ∀ buf, some (List.replicate 20 'x') = some buf →
        failedConnection.getError.errorMessage.length < buf.length →
        bufferOf (SQLGetDiagRec SQL_HANDLE_DBC (.dbc failedConnection) 1 (some []) (some 0)
          (some (List.replicate 20 'x')) 20 (some 0)) =
          failedConnection.getError.errorMessage ++
            NUL :: buf.drop (failedConnection.getError.errorMessage.length + 1)) ∧
    SQLGetDiagRec SQL_HANDLE_DBC (.dbc failedConnection) 2 (some []) (some 0)
        (some (List.replicate 20 'x')) 20 (some 0) =
      .ok ⟨SQL_NO_DATA, ⟨some [], some 0, some (List.replicate 20 'x'), some 0⟩, []⟩ :=
  ⟨(connection_single_record failedConnection 1 (some []) (some 0)
      (some (List.replicate 20 'x')) 20 (some 0)).1 ⟨rfl, rfl⟩,
   (connection_single_record failedConnection 2 (some []) (some 0)
      (some (List.replicate 20 'x')) 20 (some 0)).2 (by decide)⟩

/-- C13: with handle type environment or descriptor the call returns
`SQL_NO_DATA`, stores no byte and leaves every output slot as it was, for
every handle, record number and capacity. -/
theorem env_and_desc_no_data (Handle : Handle) (RecNumber : Int)
    (SqlStatePtr : Option Str) (NativeErrorPtr : Option Int)
    (MessageTextPtr : Option (List Char)) (BufferLength : Int) (TextLengthPtr : Option Int) :
    SQLGetDiagRec SQL_HANDLE_ENV Handle RecNumber SqlStatePtr NativeErrorPtr MessageTextPtr
        BufferLength TextLengthPtr =
      .ok ⟨SQL_NO_DATA, ⟨SqlStatePtr, NativeErrorPtr, MessageTextPtr, TextLengthPtr⟩, []⟩ ∧
    SQLGetDiagRec SQL_HANDLE_DESC Handle RecNumber SqlStatePtr NativeErrorPtr MessageTextPtr
        BufferLength TextLengthPtr =
      .ok ⟨SQL_NO_DATA, ⟨SqlStatePtr, NativeErrorPtr, MessageTextPtr, TextLengthPtr⟩, []⟩ := by
  constructor <;>
    simp [SQLGetDiagRec, SQL_HANDLE_STMT, SQL_HANDLE_ENV, SQL_HANDLE_DBC, SQL_HANDLE_DESC]

/-- C14: for every handle type other than environment, connection, statement
and descriptor the call returns `SQL_ERROR`, which is neither `SQL_NO_DATA`
nor a success status, for every handle, record number and capacity, and
leaves the output slots as they were. -/
theorem unknown_handle_type_error (HandleType : Int) (Handle : Handle) (RecNumber : Int)
    (SqlStatePtr : Option Str) (NativeErrorPtr : Option Int)
    (MessageTextPtr : Option (List Char)) (BufferLength : Int) (TextLengthPtr : Option Int)
    (henv : HandleType ≠ SQL_HANDLE_ENV) (hdbc : HandleType ≠ SQL_HANDLE_DBC)
    (hstmt : HandleType ≠ SQL_HANDLE_STMT) (hdesc : HandleType ≠ SQL_HANDLE_DESC) :
    SQLGetDiagRec HandleType Handle RecNumber SqlStatePtr NativeErrorPtr MessageTextPtr
        BufferLength TextLengthPtr =
      .ok ⟨SQL_ERROR, ⟨SqlStatePtr, NativeErrorPtr, MessageTextPtr, TextLengthPtr⟩, []⟩ ∧
    SQL_ERROR ≠ SQL_NO_DATA ∧ SQL_ERROR ≠ SQL_SUCCESS ∧ SQL_ERROR ≠ SQL_SUCCESS_WITH_INFO := by
  refine ⟨?_, by decide, by decide, by decide⟩
  simp [SQLGetDiagRec, henv, hdbc, hstmt, hdesc]

/-- Witness of C14: handle type 7. -/
theorem unknown_handle_type_error_witness :
    SQLGetDiagRec 7 (.stmt ⟨⟨true, sampleError⟩⟩) 1 none none (some []) 0 (some 0) =
      .ok ⟨SQL_ERROR, ⟨none, none, some [], some 0⟩, []⟩ ∧
    SQL_ERROR ≠ SQL_NO_DATA ∧ SQL_ERROR ≠ SQL_SUCCESS ∧ SQL_ERROR ≠ SQL_SUCCESS_WITH_INFO :=
  unknown_handle_type_error 7 (.stmt ⟨⟨true, sampleError⟩⟩) 1 none none (some []) 0 (some 0)
    (by decide) (by decide) (by decide) (by decide)

/-- C15: for every payload in which `errorName`, `errorType` or `errorCode`
is absent, and every correlation id, state of the globals and file system,
`FromTrinoJson` returns, without an exception, the fixed record with SQLSTATE
"HY000", native code 0, status `SQL_ERROR` and the message
"[Trino] Unexpected error payload (missing fields).". -/
theorem malformed_payload_fallback (st : HandlerState) (w : World) (err : Json) (queryId : Str)
    (hmissing : err.contains "errorName".toList = false ∨
      err.contains "errorType".toList = false ∨ err.contains "errorCode".toList = false) :
    (FromTrinoJson st w err queryId).2 = .ok
      ⟨SQL_ERROR, "HY000".toList, 0,
       "[Trino] Unexpected error payload (missing fields).".toList,
       "Unexpected error payload".toList, [], none, none, []⟩ := by
  have hc : (err.contains "errorName".toList && err.contains "errorType".toList &&
      err.contains "errorCode".toList) = false := by
    generalize err.contains "errorName".toList = a at hmissing ⊢
    generalize err.contains "errorType".toList = b at hmissing ⊢
    generalize err.contains "errorCode".toList = c at hmissing ⊢
    revert hmissing
    cases a <;> cases b <;> cases c <;> simp
  simp only [FromTrinoJson, translate, hc, Bool.not_false, if_true]
  rfl

/-- Witness of C15 (Scenario A): a payload without `errorCode`. -/
theorem malformed_payload_fallback_witness :
    (FromTrinoJson HandlerState.initial bareWorld missingCode "q7".toList).2 = .ok
      ⟨SQL_ERROR, "HY000".toList, 0,
       "[Trino] Unexpected error payload (missing fields).".toList,
       "Unexpected error payload".toList, [], none, none, []⟩ :=
  malformed_payload_fallback HandlerState.initial bareWorld missingCode "q7".toList
    (Or.inr (Or.inr rfl))

/-- C17 (amended): for every payload that carries name and category as
strings and a code that converts to `int`, with a message that is absent or a
string and stack frames that are strings, and whose name has no entry in the
consulted catalog or an entry with an empty SQLSTATE, the SQLSTATE is decided
in this order: name "ALREADY_EXISTS" gives "42S01", name "NOT_FOUND" gives
"42S02"; otherwise the category, compared without regard to the case of ASCII
letters, decides: USER_ERROR gives "42000", INSUFFICIENT_RESOURCES "HY001",
EXTERNAL "HY000", INTERNAL_ERROR "HY000"; otherwise "HY000". -/
theorem ordered_fallback (st : HandlerState) (w : World) (err : Json)
    (queryId name type : Str) (code : Int) (upstream : Option Str) (stack : List Str)
    (h : carries err name type code upstream stack)
    (hrow : ∀ row, LookupEntryByName (FromTrinoJson st w err queryId).1 name = some row →
      row.sqlstate = []) :
    ∃ r, (FromTrinoJson st w err queryId).2 = .ok r ∧
      r.sqlstate =
        if name = "ALREADY_EXISTS".toList then "42S01".toList
        else if name = "NOT_FOUND".toList then "42S02".toList
        else if type.map tolower = "user_error".toList then "42000".toList
        else if type.map tolower = "insufficient_resources".toList then "HY001".toList
        else if type.map tolower = "external".toList then "HY000".toList
        else if type.map tolower = "internal_error".toList then "HY000".toList
        else "HY000".toList := by
  refine ⟨_, FromTrinoJson_of_carries st w err queryId name type code upstream stack h, ?_⟩
  rw [← fallbackByType_eq]
  cases hl : LookupEntryByName (FromTrinoJson st w err queryId).1 name with
  | none => rfl
  | some row =>
    have he := hrow row hl
    simp only [he]
    rfl

set_option maxRecDepth 1000000 in
/-- Witness of C17: a name that is in no catalog, with category
"user_error". -/
theorem ordered_fallback_witness :
    ∃ r, (FromTrinoJson HandlerState.initial bareWorld unknownLowerCase "q7".toList).2 = .ok r ∧
      r.sqlstate =
        if "SOME_NEW_ERROR".toList = "ALREADY_EXISTS".toList then "42S01".toList
        else if "SOME_NEW_ERROR".toList = "NOT_FOUND".toList then "42S02".toList
        else if "user_error".toList.map tolower = "user_error".toList then "42000".toList
        else if "user_error".toList.map tolower = "insufficient_resources".toList
          then "HY001".toList
        else if "user_error".toList.map tolower = "external".toList then "HY000".toList
        else if "user_error".toList.map tolower = "internal_error".toList then "HY000".toList
        else "HY000".toList :=
  ordered_fallback HandlerState.initial bareWorld unknownLowerCase "q7".toList
    "SOME_NEW_ERROR".toList "user_error".toList 7 (some "boom".toList)
    ["Stack:".toList, "\tat x.y".toList]
    ⟨rfl, rfl, ⟨_, rfl, rfl⟩, rfl, rfl⟩ (by decide)

set_option maxRecDepth 1000000 in
/-- Counterexample to C17 as stated, in two payloads. First, the name
"SOME_NEW_ERROR" has no catalog entry and is neither of the two special names,
the category "user_error" is none of the four category names, and the SQLSTATE
is "42000", not the generic default "HY000". Second, the same name with the
category "USER_ERROR" and the member `message` holding `null`: the call ends
with the exception `type_error` and returns no record, so no SQLSTATE; the
same happens when a stack frame, the name, the category or the code has a type
the translation does not read. -/
theorem ordered_fallback_counterexample :
    LookupEntryByName (FromTrinoJson HandlerState.initial bareWorld unknownLowerCase
        "q7".toList).1 "SOME_NEW_ERROR".toList = none ∧
      "SOME_NEW_ERROR".toList ≠ "ALREADY_EXISTS".toList ∧
      "SOME_NEW_ERROR".toList ≠ "NOT_FOUND".toList ∧
      "user_error".toList ≠ "USER_ERROR".toList ∧
      "user_error".toList ≠ "INSUFFICIENT_RESOURCES".toList ∧
      "user_error".toList ≠ "EXTERNAL".toList ∧
      "user_error".toList ≠ "INTERNAL_ERROR".toList ∧
      ((FromTrinoJson HandlerState.initial bareWorld unknownLowerCase "q7".toList).2.toOption.map
        (fun r => r.sqlstate)) = some "42000".toList ∧
      "42000".toList ≠ "HY000".toList ∧
      hasRequired unknownNullMessage = true ∧
      LookupEntryByName (FromTrinoJson HandlerState.initial bareWorld unknownNullMessage
        "q7".toList).1 "SOME_NEW_ERROR".toList = none ∧
      faultOf (FromTrinoJson HandlerState.initial bareWorld unknownNullMessage "q7".toList).2
        = some Fault.typeError ∧
      ((FromTrinoJson HandlerState.initial bareWorld unknownNullMessage
        "q7".toList).2.toOption.map (fun r => r.sqlstate)) = none ∧
      (∀ err ∈ illTypedPayloads, hasRequired err = true ∧
        faultOf (FromTrinoJson warningState bareWorld err "q7".toList).2
          = some Fault.typeError) := by
  decide

/-- C21 (amended): for every payload that carries name and category as
strings and a code that converts to `int`, with a message that is absent or a
string and stack frames that are strings, the stack of the record is: when
`failureInfo` has a stack, the header "Stack:" followed by each frame behind
one tab, in payload order; then, when the nested cause of `failureInfo` has
both a `type` member and a stack of its own, the header "Caused By:" followed
by the frames of the cause behind one tab; and nothing else (no lines at all
without `failureInfo`, no second block for a cause without `type`). -/
theorem stack_assembly (st : HandlerState) (w : World) (err : Json) (queryId name type : Str)
    (code : Int) (upstream : Option Str) (primary cause : Option (List Str))
    (hname : err.get? "errorName".toList = some (.str name))
    (htype : err.get? "errorType".toList = some (.str type))
    (hcode : ∃ v, err.get? "errorCode".toList = some v ∧ v.getInt = .ok code)
    (hmessage : err.get? "message".toList = upstream.map Json.str)
    (hprimary : (((err.get? "failureInfo".toList).bind
        (fun info => info.get? "stack".toList)).map Json.items)
      = primary.map (fun fs => fs.map Json.str))
    (hcause : ((((err.get? "failureInfo".toList).bind
        (fun info => info.get? "cause".toList)).bind
        (fun c => if c.contains "type".toList then c.get? "stack".toList else none)).map
          Json.items)
      = cause.map (fun cs => cs.map Json.str)) :
    ∃ r, (FromTrinoJson st w err queryId).2 = .ok r ∧
      r.stack = stackBlock "Stack:".toList primary ++ stackBlock "Caused By:".toList cause :=
  ⟨_, FromTrinoJson_of_carries st w err queryId name type code upstream _
    ⟨hname, htype, hcode, hmessage, parseStack_eq err primary cause hprimary hcause⟩, rfl⟩

set_option maxRecDepth 1000000 in
/-- Witness of C21: a payload with two frames and a cause that has a type and
one frame. -/
theorem stack_assembly_witness :
    (∃ r, (FromTrinoJson HandlerState.initial bareWorld causeWithType "q7".toList).2 = .ok r ∧
      r.stack = stackBlock "Stack:".toList (some ["at a".toList, "at a2".toList]) ++
        stackBlock "Caused By:".toList (some ["at b".toList])) ∧
    ((FromTrinoJson HandlerState.initial bareWorld causeWithType "q7".toList).2.toOption.map
      (fun r => r.stack))
      = some ["Stack:".toList, "\tat a".toList, "\tat a2".toList, "Caused By:".toList,
          "\tat b".toList] :=
  ⟨stack_assembly HandlerState.initial bareWorld causeWithType "q7".toList
    "SOME_NEW_ERROR".toList "EXTERNAL".toList 7 none (some ["at a".toList, "at a2".toList])
    (some ["at b".toList]) rfl rfl ⟨_, rfl, rfl⟩ rfl rfl rfl, by decide⟩

set_option maxRecDepth 1000000 in
/-- Counterexample to C21 as stated, in two payloads. First, the nested cause
of the payload carries its own stack (one frame "at b") but no `type` member,
and the stack of the record is the primary block alone: no "Caused By:" block
is appended. Second, the payload of Scenario B with a stack of one string frame
and the member `message` holding `null`: the call ends with the exception
`type_error` (line 603) and returns no record, so no stack; the same happens
when a stack frame, the name, the category or the code has a type the
translation does not read. -/
theorem stack_assembly_counterexample :
    ((causeWithoutType.get? "failureInfo".toList).bind (fun info =>
      (info.get? "cause".toList).bind (fun c => c.get? "stack".toList)))
      = some (.arr [.str "at b".toList]) ∧
    ((FromTrinoJson HandlerState.initial bareWorld causeWithoutType "q7".toList).2.toOption.map
      (fun r => r.stack)) = some ["Stack:".toList, "\tat a".toList] ∧
    ["Stack:".toList, "\tat a".toList]
      ≠ ["Stack:".toList, "\tat a".toList, "Caused By:".toList, "\tat b".toList] ∧
    hasRequired nullMessage = true ∧
    ((nullMessage.get? "failureInfo".toList).bind (fun info => info.get? "stack".toList))
      = some (.arr [.str "at a".toList]) ∧
    faultOf (FromTrinoJson HandlerState.initial bareWorld nullMessage "q7".toList).2
      = some Fault.typeError ∧
    ((FromTrinoJson HandlerState.initial bareWorld nullMessage "q7".toList).2.toOption.map
      (fun r => r.stack)) = none ∧
    (∀ err ∈ illTypedPayloads, hasRequired err = true ∧
      faultOf (FromTrinoJson warningState bareWorld err "q7".toList).2
        = some Fault.typeError) :=
  ⟨rfl, by decide, by decide, by decide, rfl, by decide, by decide, by decide⟩

/-- C22 (amended): for every payload that carries name and category as
strings and a code that converts to `int`, with a message that is absent or a
string and stack frames that are strings, line and column of the record are
both read from the top-level `errorLocation` when the payload has one that is
an object; otherwise (no top-level `errorLocation`, or one that is not an
object) both are read from `failureInfo.errorLocation` when that is present;
otherwise both are unset. Reading a location (`locationField`) gives the member
converted to 32 bits when it is present and an integer, and leaves the field
unset otherwise; the two sources are never mixed. -/
theorem location_precedence (st : HandlerState) (w : World) (err : Json)
    (queryId name type : Str) (code : Int) (upstream : Option Str) (stack : List Str)
    (h : carries err name type code upstream stack) :
    ∃ r, (FromTrinoJson st w err queryId).2 = .ok r ∧
      (∀ top, err.get? "errorLocation".toList = some top → top.is_object = true →
        r.lineNumber = locationField top "lineNumber".toList ∧
        r.columnNumber = locationField top "columnNumber".toList) ∧
      ((∀ top, err.get? "errorLocation".toList = some top → top.is_object = false) →
        (∀ info nested, err.get? "failureInfo".toList = some info →
          info.get? "errorLocation".toList = some nested →
          r.lineNumber = locationField nested "lineNumber".toList ∧
          r.columnNumber = locationField nested "columnNumber".toList) ∧
        (((err.get? "failureInfo".toList).bind
            (fun info => info.get? "errorLocation".toList)) = none →
          r.lineNumber = none ∧ r.columnNumber = none)) := by
  refine ⟨_, FromTrinoJson_of_carries st w err queryId name type code upstream stack h, ?_, ?_⟩
  · intro top htop hobj
    simp only [locationOf_top err top htop hobj, Option.some_bind, and_self]
  · intro hno
    simp only [locationOf_nested err hno]
    refine ⟨?_, ?_⟩
    · intro info nested hinfo hnested
      simp only [hinfo, hnested, Option.some_bind, and_self]
    · intro hnone
      simp only [hnone, Option.none_bind, and_self]

set_option maxRecDepth 1000000 in
/-- Witness of C22: a payload with a location object at top level (line 1,
column 2) and another one inside `failureInfo` (line 3, column 5) gives line 1
and column 2. -/
theorem location_precedence_witness :
    (∃ r, (FromTrinoJson HandlerState.initial bareWorld twoLocations "q7".toList).2 = .ok r ∧
      (∀ top, twoLocations.get? "errorLocation".toList = some top → top.is_object = true →
        r.lineNumber = locationField top "lineNumber".toList ∧
        r.columnNumber = locationField top "columnNumber".toList) ∧
      ((∀ top, twoLocations.get? "errorLocation".toList = some top → top.is_object = false) →
        (∀ info nested, twoLocations.get? "failureInfo".toList = some info →
          info.get? "errorLocation".toList = some nested →
          r.lineNumber = locationField nested "lineNumber".toList ∧
          r.columnNumber = locationField nested "columnNumber".toList) ∧
        (((twoLocations.get? "failureInfo".toList).bind
            (fun info => info.get? "errorLocation".toList)) = none →
          r.lineNumber = none ∧ r.columnNumber = none))) ∧
    ((FromTrinoJson HandlerState.initial bareWorld twoLocations "q7".toList).2.toOption.map
      (fun r => (r.lineNumber, r.columnNumber))) = some (some 1, some 2) :=
  ⟨location_precedence HandlerState.initial bareWorld twoLocations "q7".toList
    "SYNTAX_ERROR".toList "USER_ERROR".toList 1 none [] ⟨rfl, rfl, ⟨_, rfl, rfl⟩, rfl, rfl⟩,
    by decide⟩

set_option maxRecDepth 1000000 in
/-- Counterexample to C22 as stated, in two payloads. First, the payload has a
top-level `errorLocation` (the value `null`, which holds no line and no
column), yet line and column of the record are 3 and 5, read from
`failureInfo.errorLocation`. Second, the payload of Scenario B with a top-level
location object (line 1, column 2) and the member `message` holding `null`: the
call ends with the exception `type_error` (line 603) and returns no record, so
no line and no column; the same happens when a stack frame, the name, the
category or the code has a type the translation does not read. -/
theorem location_precedence_counterexample :
    nullLocation.contains "errorLocation".toList = true ∧
    (nullLocation.get? "errorLocation".toList).bind
      (fun top => locationField top "lineNumber".toList) = none ∧
    (nullLocation.get? "errorLocation".toList).bind
      (fun top => locationField top "columnNumber".toList) = none ∧
    ((FromTrinoJson HandlerState.initial bareWorld nullLocation "q7".toList).2.toOption.map
      (fun r => (r.lineNumber, r.columnNumber))) = some (some 3, some 5) ∧
    hasRequired nullMessage = true ∧
    (nullMessage.get? "errorLocation".toList).bind
      (fun top => locationField top "lineNumber".toList) = some 1 ∧
    (nullMessage.get? "errorLocation".toList).bind
      (fun top => locationField top "columnNumber".toList) = some 2 ∧
    faultOf (FromTrinoJson HandlerState.initial bareWorld nullMessage "q7".toList).2
      = some Fault.typeError ∧
    ((FromTrinoJson HandlerState.initial bareWorld nullMessage "q7".toList).2.toOption.map
      (fun r => (r.lineNumber, r.columnNumber))) = none ∧
    (∀ err ∈ illTypedPayloads, hasRequired err = true ∧
      faultOf (FromTrinoJson warningState bareWorld err "q7".toList).2
        = some Fault.typeError) :=
  ⟨rfl, rfl, rfl, by decide, by decide, rfl, rfl, by decide, by decide, by decide⟩

/-- C23 (amended): for every state of the globals and every reload whose file
is absent, cannot be opened, is not valid JSON, is not a JSON object, or lacks
an `entries` array, `ReloadMappingFromJson` returns false with a non-empty
message for the message slot, and nothing of the file is applied: the globals
are those the call of `ensureInitialized` at its start leaves, which are the
globals before the call whenever the handler was initialised before. (On an
uninitialised handler that first step seeds the catalog.) -/
theorem reload_failure_atomic (st : HandlerState) (w : World) (path : Str)
    (hfail : unloadable w (reloadFile st w path)) :
    ∃ msg, ReloadMappingFromJson st w path = (ensureInitialized st w, false, some msg) ∧
      msg ≠ [] ∧
      (st.initialized = true → (ReloadMappingFromJson st w path).1 = st) := by
  obtain ⟨msg, hmsg, hne⟩ := ReloadMappingFromJson_unloadable st w path hfail
  refine ⟨msg, hmsg, hne, fun hinit => ?_⟩
  rw [hmsg, ensureInitialized_of_initialized st w hinit]

set_option maxRecDepth 1000000 in
/-- Witness of C23: a reload of a file that does not exist, on an initialised
handler. -/
theorem reload_failure_atomic_witness :
    unloadable bareWorld (reloadFile warningState bareWorld "missing.json".toList) ∧
    (∃ msg, ReloadMappingFromJson warningState bareWorld "missing.json".toList
        = (ensureInitialized warningState bareWorld, false, some msg) ∧
      msg ≠ [] ∧
      (warningState.initialized = true →
        (ReloadMappingFromJson warningState bareWorld "missing.json".toList).1
          = warningState)) ∧
    (ReloadMappingFromJson warningState bareWorld "missing.json".toList).2.2
      = some "JSON file not found: missing.json".toList :=
  ⟨trivial, reload_failure_atomic warningState bareWorld "missing.json".toList trivial,
    by decide⟩

set_option maxRecDepth 1000000 in
/-- Counterexample to C23 as stated: at program start the catalog is empty
and holds no entry for "TABLE_NOT_FOUND"; a reload of a file that does not
exist returns false, and afterwards the catalog holds the 177 compiled
entries. -/
theorem reload_failure_counterexample :
    unloadable bareWorld (reloadFile HandlerState.initial bareWorld "missing.json".toList) ∧
    (ReloadMappingFromJson HandlerState.initial bareWorld "missing.json".toList).2.1 = false ∧
    HandlerState.initial.catalog.length = 0 ∧
    LookupEntryByName HandlerState.initial "TABLE_NOT_FOUND".toList = none ∧
    (ReloadMappingFromJson HandlerState.initial bareWorld "missing.json".toList).1.catalog.length
      = 177 ∧
    LookupEntryByName
        (ReloadMappingFromJson HandlerState.initial bareWorld "missing.json".toList).1
        "TABLE_NOT_FOUND".toList
      = some ⟨46, "TABLE_NOT_FOUND".toList, "42S02".toList,
          "Base table or view not found".toList⟩ := by
  refine ⟨trivial, by decide, by decide, by decide, by decide, by decide⟩

/-- C24 (amended): a reload of a file that is found, opens, parses and has an
`entries` array returns true and leaves the catalog that results from passing
the entries in order through `mergeItem`; an entry that is not an object or
whose name is absent or not a string changes nothing; for every other entry
the entry stored under its name has, independently for each field, the value of
the override when the field is present and well typed (the integer converted to
the 32-bit `int` of the stored code; the string; the string), else the value
the catalog held for that name just before this entry, else the default (-1,
empty string); the entries of all other names are untouched. -/
theorem merge_algorithm :
    (∀ (st : HandlerState) (w : World) (path : Str) (f : File) (j : Json) (entries : List Json),
      w.probe (reloadFile st w path) = .present f → f.openable = true → f.content = some j →
      j.get? "entries".toList = some (.arr entries) →
      (ReloadMappingFromJson st w path).2.1 = true ∧
      (ReloadMappingFromJson st w path).1.catalog
        = entries.foldl mergeItem (ensureInitialized st w).catalog) ∧
    (∀ (catalog : Catalog) (item : Json),
      (item.is_object = false ∨ item.get? "name".toList = none ∨
        ∃ v, item.get? "name".toList = some v ∧ v.is_string = false) →
      mergeItem catalog item = catalog) ∧
    (∀ (catalog : Catalog) (item : Json) (name : Str),
      item.get? "name".toList = some (.str name) →
      findEntry (mergeItem catalog item) name = some
        ⟨((intMember item "trino_code".toList).map toInt32).getD
            (((findEntry catalog name).map (fun row => row.trino_code)).getD (-1)),
          name,
          (strMember item "sqlstate".toList).getD
            (((findEntry catalog name).map (fun row => row.sqlstate)).getD []),
          (strMember item "description".toList).getD
            (((findEntry catalog name).map (fun row => row.description)).getD [])⟩ ∧
      ∀ other, other ≠ name →
        findEntry (mergeItem catalog item) other = findEntry catalog other) := by
  refine ⟨?_, ?_, ?_⟩
  · intro st w path f j entries hp ho hc he
    rw [ReloadMappingFromJson_loadable st w path f j entries hp ho hc he]
    exact ⟨rfl, rfl⟩
  · intro catalog item h
    rw [mergeItem_eq_patch, patchOf_none item h]
  · intro catalog item name h
    rw [mergeItem_eq_patch, patchOf_some item name h]
    simp only [applyPatch]
    refine ⟨?_, ?_⟩
    · rw [findEntry_assign, if_pos rfl]
      cases findEntry catalog name <;> rfl
    · intro other hne
      rw [findEntry_assign, if_neg (Ne.symm hne)]

set_option maxRecDepth 1000000 in
/-- Counterexample to C24 as stated: the override entry names "MY_ERROR" and
has the integer member `trino_code` 4294967301; the code stored for the name is
5, not the value of the override. -/
theorem merge_algorithm_counterexample :
    wideCode.get? "name".toList = some (.str "MY_ERROR".toList) ∧
    wideCode.get? "trino_code".toList = some (.int 4294967301) ∧
    (findEntry (mergeItem buildCompiledDefaults wideCode) "MY_ERROR".toList).map
      (fun row => row.trino_code) = some 5 ∧
    (5 : Int) ≠ 4294967301 := by
  refine ⟨rfl, rfl, by decide, by decide⟩

/-- C25: for every catalog and every list of override entries (also one that
names the same entry several times with different partial fields), passing the
list through the merge a second time leaves exactly the catalog the first pass
produced; and a second successful reload of the same file in the same
environment leaves the globals of the first one. -/
theorem upsert_idempotent :
    (∀ (catalog : Catalog) (entries : List Json),
      entries.foldl mergeItem (entries.foldl mergeItem catalog)
        = entries.foldl mergeItem catalog) ∧
    (∀ (st : HandlerState) (w : World) (path : Str),
      (ReloadMappingFromJson st w path).2.1 = true →
      ReloadMappingFromJson (ReloadMappingFromJson st w path).1 w path
        = ((ReloadMappingFromJson st w path).1, true, none)) := by
  refine ⟨foldl_mergeItem_idem, ?_⟩
  intro st w path hok
  rcases reloadBody_result st w path with hfail | ⟨f, j, entries, hp, ho, hc, he⟩
  · obtain ⟨msg, hmsg, -⟩ := ReloadMappingFromJson_unloadable st w path hfail
    rw [hmsg] at hok
    exact absurd hok Bool.false_ne_true
  · have h1 := ReloadMappingFromJson_loadable st w path f j entries hp ho hc he
    rw [h1]
    simp only
    generalize hst1 : ({ ensureInitialized st w with
          catalog := entries.foldl mergeItem (ensureInitialized st w).catalog
          last_mtime := f.mtime.getD fileTimeMin
          effective_path := reloadFile st w path
          loaded_once := true } : HandlerState) = st1
    have hinit : st1.initialized = true := by
      rw [← hst1]
      exact (ensureInitialized_frame st w).1
    have hdir : st1.config_dir = st.config_dir := by
      rw [← hst1]
      exact (ensureInitialized_frame st w).2
    have hfile : reloadFile st1 w path = reloadFile st w path := reloadFile_congr st st1 w path hdir
    have h2 := ReloadMappingFromJson_loadable st1 w path f j entries (by rw [hfile]; exact hp)
      ho hc he
    rw [h2, ensureInitialized_of_initialized st1 w hinit, hfile]
    have hcat : entries.foldl mergeItem st1.catalog = st1.catalog := by
      rw [← hst1]
      exact foldl_mergeItem_idem _ entries
    rw [hcat, ← hst1]

set_option maxRecDepth 1000000 in
/-- C26: in the catalog seeded from the compiled table, and in the globals a
first initialisation leaves when there is no override file, the lookup of
"TABLE_NOT_FOUND" returns the entry with code 46 and SQLSTATE "42S02". -/
theorem compiled_default_lookup :
    findEntry buildCompiledDefaults "TABLE_NOT_FOUND".toList
      = some ⟨46, "TABLE_NOT_FOUND".toList, "42S02".toList,
          "Base table or view not found".toList⟩ ∧
    LookupEntryByName (ensureInitialized HandlerState.initial bareWorld) "TABLE_NOT_FOUND".toList
      = some ⟨46, "TABLE_NOT_FOUND".toList, "42S02".toList,
          "Base table or view not found".toList⟩ := by
  constructor <;> decide

/-- C27: the default override path is the value of the environment variable
`TRINO_ODBC_ERRORMAP_PATH` when it is set, as it is and whatever the file
system holds; else the configured directory joined with
"trino_odbc_errors.json" when a non-empty directory was set; else the directory
of the module joined with the same file name when that directory is known; else
the bare file name. -/
theorem path_resolution_precedence (st : HandlerState) (w : World) :
    (∀ env, w.envPath = some env → resolve_default_json_path st w = env) ∧
    (w.envPath = none → st.config_dir ≠ [] →
      resolve_default_json_path st w
        = w.pathJoin st.config_dir "trino_odbc_errors.json".toList) ∧
    (w.envPath = none → st.config_dir = [] → w.moduleDir ≠ [] →
      resolve_default_json_path st w
        = w.pathJoin w.moduleDir "trino_odbc_errors.json".toList) ∧
    (w.envPath = none → st.config_dir = [] → w.moduleDir = [] →
      resolve_default_json_path st w = "trino_odbc_errors.json".toList) := by
  unfold resolve_default_json_path
  refine ⟨?_, ?_, ?_, ?_⟩
  · intro env h
    rw [h]
  · intro h hc
    rw [h]
    simp only [isEmpty_eq_false_of_ne _ hc, Bool.not_false, if_true]
  · intro h hc hm
    rw [h, hc]
    simp only [isEmpty_eq_false_of_ne _ hm, List.isEmpty_nil, Bool.not_true, Bool.not_false,
      Bool.false_eq_true, if_false, if_true]
  · intro h hc hm
    rw [h, hc, hm]
    rfl

/-- C28: `maybeAutoReloadFromDisk` calls `ReloadMappingFromJson`, on the
resolved default path, if and only if the file exists, its modification time
can be read, and no load has succeeded yet or the time differs from the
recorded one; without the call the globals are unchanged. After a successful
load of the default file, a further check in the same environment makes no call
and leaves the globals (catalog, effective path, recorded time) unchanged. -/
theorem auto_reload_trigger (st : HandlerState) (w : World) :
    (autoReloadCall st w = some (resolve_default_json_path st w) ↔
      ∃ f m, w.probe (resolve_default_json_path st w) = .present f ∧ f.mtime = some m ∧
        (st.loaded_once = false ∨ m ≠ st.last_mtime)) ∧
    (autoReloadCall st w = none ↔
      ¬ ∃ f m, w.probe (resolve_default_json_path st w) = .present f ∧ f.mtime = some m ∧
        (st.loaded_once = false ∨ m ≠ st.last_mtime)) ∧
    (∀ path, autoReloadCall st w = some path →
      maybeAutoReloadFromDisk st w = (ReloadMappingFromJson st w path).1) ∧
    (autoReloadCall st w = none → maybeAutoReloadFromDisk st w = st) ∧
    (∀ path, (path = [] ∨ path = resolve_default_json_path st w) →
      (ReloadMappingFromJson st w path).2.1 = true →
      autoReloadCall (ReloadMappingFromJson st w path).1 w = none ∧
      maybeAutoReloadFromDisk (ReloadMappingFromJson st w path).1 w
        = (ReloadMappingFromJson st w path).1) := by
  refine ⟨(autoReloadCall_spec st w).1, (autoReloadCall_spec st w).2,
    (maybeAutoReloadFromDisk_eq st w).1, (maybeAutoReloadFromDisk_eq st w).2, ?_⟩
  intro path hpath hok
  have hnone := autoReloadCall_after_load st w path hpath hok
  exact ⟨hnone, (maybeAutoReloadFromDisk_eq _ w).2 hnone⟩

/-- C29: in every state of the globals reachable from program start through
the entry points of the handler (initialisation, successful and failed reloads,
translations, changes of the configured directory), every entry of the catalog
is stored under its own name, no name is stored twice, two stored entries with
the same name are the same entry, and `LookupEntryByName` returns the stored
entry whose name is asked for when there is one and none otherwise. -/
theorem name_keyed_catalog (st : HandlerState) (h : Reachable st) :
    (∀ k e, (k, e) ∈ st.catalog → e.trino_name = k) ∧
    (st.catalog.map (fun kv => kv.1)).Nodup ∧
    (∀ e1 e2, e1 ∈ st.catalog.map (fun kv => kv.2) → e2 ∈ st.catalog.map (fun kv => kv.2) →
      e1.trino_name = e2.trino_name → e1 = e2) ∧
    (∀ n e, e ∈ st.catalog.map (fun kv => kv.2) → e.trino_name = n →
      LookupEntryByName st n = some e) ∧
    (∀ n, (∀ e, e ∈ st.catalog.map (fun kv => kv.2) → e.trino_name ≠ n) →
      LookupEntryByName st n = none) ∧
    (∀ n e, LookupEntryByName st n = some e →
      e ∈ st.catalog.map (fun kv => kv.2) ∧ e.trino_name = n) := by
  obtain ⟨hkey, hnodup⟩ := NameKeyed_of_Reachable st h
  have hfind : ∀ n e, e ∈ st.catalog.map (fun kv => kv.2) → e.trino_name = n →
      findEntry st.catalog n = some e := by
    intro n e he hn
    obtain ⟨⟨k, e2⟩, hmem, heq⟩ := List.mem_map.mp he
    simp only at heq
    subst heq
    have := hkey k e2 hmem
    rw [← hn, this]
    exact findEntry_of_mem _ _ _ hnodup hmem
  refine ⟨hkey, hnodup, ?_, hfind, ?_, ?_⟩
  · intro e1 e2 h1 h2 hn
    have a := hfind _ e1 h1 hn
    have b := hfind _ e2 h2 rfl
    rw [a] at b
    exact Option.some.inj b
  · intro n hno
    unfold LookupEntryByName
    rw [findEntry_eq_none]
    intro hmem
    obtain ⟨⟨k, e⟩, hmem2, hk⟩ := List.mem_map.mp hmem
    simp only at hk
    subst hk
    exact hno e (List.mem_map_of_mem (fun kv => kv.2) hmem2) (hkey _ _ hmem2)
  · intro n e hl
    have hmem := mem_of_findEntry _ _ _ hl
    exact ⟨List.mem_map_of_mem (fun kv => kv.2) hmem, hkey _ _ hmem⟩

set_option maxRecDepth 1000000 in
/-- Witness of C29: the globals after a first reload that finds an override
file with two entries for the new name "MY_ERROR" and one for the compiled name
"TABLE_NOT_FOUND": 178 entries, one of them for "MY_ERROR". -/
theorem name_keyed_catalog_witness :
    Reachable (ReloadMappingFromJson HandlerState.initial overrideWorld []).1 ∧
    LookupEntryByName (ReloadMappingFromJson HandlerState.initial overrideWorld []).1
      "MY_ERROR".toList = some ⟨900, "MY_ERROR".toList, "01000".toList, "Mine".toList⟩ ∧
    (ReloadMappingFromJson HandlerState.initial overrideWorld []).1.catalog.length = 178 ∧
    ((∀ k e, (k, e) ∈ (ReloadMappingFromJson HandlerState.initial overrideWorld []).1.catalog →
      e.trino_name = k) ∧
    ((ReloadMappingFromJson HandlerState.initial overrideWorld []).1.catalog.map
      (fun kv => kv.1)).Nodup) :=
  ⟨Reachable.reload _ _ _ Reachable.start, by decide, by decide,
    ⟨(name_keyed_catalog _ (Reachable.reload _ overrideWorld [] Reachable.start)).1,
     (name_keyed_catalog _ (Reachable.reload _ overrideWorld [] Reachable.start)).2.1⟩⟩

set_option maxRecDepth 1000000 in
/-- C30: a call of `ensureInitialized` on an uninitialised handler seeds the
catalog from the compiled table and then makes one `ReloadMappingFromJson` of
the default override. When that file cannot be loaded the catalog holds the
177 rows of `kDefaults`, each under its name, and nothing else; when it is
loaded the catalog is the compiled one with the entries of the file merged in,
the effective path is the default path, and every compiled row that the file
does not name is still there. Afterwards the handler is initialised. On an
initialised handler every call of `ensureInitialized`, made directly or at the
start of `ReloadMappingFromJson` or `FromTrinoJson`, leaves all globals
unchanged, and no entry point clears the flag: entries upserted by an earlier
reload are never reset to the compiled defaults (the SQLSTATE "42S99" that the
sample override gives "TABLE_NOT_FOUND" is still there after a later
`ensureInitialized`, and its entry "MY_ERROR" after a later `FromTrinoJson`). -/
theorem one_shot_initialization (st : HandlerState) (w : World) :
    (st.initialized = false →
      ensureInitialized st w
        = (ReloadMappingFromJson
            { st with initialized := true, catalog := buildCompiledDefaults } w []).1 ∧
      (unloadable w (resolve_default_json_path st w) →
        (ensureInitialized st w).catalog = buildCompiledDefaults ∧
        (ensureInitialized st w).catalog.length = 177 ∧
        (∀ row ∈ kDefaults,
          LookupEntryByName (ensureInitialized st w) row.trino_name = some row) ∧
        (∀ name e, LookupEntryByName (ensureInitialized st w) name = some e →
          e ∈ kDefaults)) ∧
      (∀ entries, loadable w (resolve_default_json_path st w) entries →
        (ensureInitialized st w).catalog = entries.foldl mergeItem buildCompiledDefaults ∧
        GetEffectiveConfigPath (ensureInitialized st w) = resolve_default_json_path st w ∧
        (∀ row ∈ kDefaults, row.trino_name ∉ overrideNames entries →
          LookupEntryByName (ensureInitialized st w) row.trino_name = some row))) ∧
    kDefaults.length = 177 ∧
    (kDefaults.map (fun row => row.trino_name)).Nodup ∧
    (ensureInitialized st w).initialized = true ∧
    (∀ (later : HandlerState) (w2 : World), later.initialized = true →
      ensureInitialized later w2 = later ∧
      (∀ path, ReloadMappingFromJson later w2 path = reloadBody later w2 path ∧
        (ReloadMappingFromJson later w2 path).1.initialized = true) ∧
      (∀ err queryId, FromTrinoJson later w2 err queryId
          = (maybeAutoReloadFromDisk later w2,
              translate (maybeAutoReloadFromDisk later w2) err queryId) ∧
        (FromTrinoJson later w2 err queryId).1.initialized = true) ∧
      (∀ dir, (SetConfigDirectory later dir).initialized = true)) ∧
    LookupEntryByName (ReloadMappingFromJson HandlerState.initial overrideWorld []).1
      "TABLE_NOT_FOUND".toList
      = some ⟨46, "TABLE_NOT_FOUND".toList, "42S99".toList,
          "Base table or view not found".toList⟩ ∧
    LookupEntryByName
      (ensureInitialized (ReloadMappingFromJson HandlerState.initial overrideWorld []).1
        bareWorld) "TABLE_NOT_FOUND".toList
      = some ⟨46, "TABLE_NOT_FOUND".toList, "42S99".toList,
          "Base table or view not found".toList⟩ ∧
    LookupEntryByName
      (FromTrinoJson (ReloadMappingFromJson HandlerState.initial overrideWorld []).1
        bareWorld permissionDenied []).1 "MY_ERROR".toList
      = some ⟨900, "MY_ERROR".toList, "01000".toList, "Mine".toList⟩ := by
  refine ⟨?_, kDefaults_length, kDefaults_names_nodup, (ensureInitialized_frame st w).1, ?_,
    by decide, by decide, by decide⟩
  · intro hinit
    have hseed := ensureInitialized_first st w hinit
    refine ⟨?_, ?_, ?_⟩
    · rw [hseed]
      unfold ReloadMappingFromJson
      rw [ensureInitialized_of_initialized _ w rfl]
    · intro hfail
      obtain ⟨msg, hmsg, -⟩ := reloadBody_unloadable
        { st with initialized := true, catalog := buildCompiledDefaults } w [] hfail
      have hcat : (ensureInitialized st w).catalog = buildCompiledDefaults := by
        rw [hseed, hmsg]
      refine ⟨hcat, by rw [hcat]; exact buildCompiledDefaults_length, ?_, ?_⟩
      · intro row hrow
        unfold LookupEntryByName
        rw [hcat]
        exact findEntry_buildCompiledDefaults row hrow
      · intro name e he
        unfold LookupEntryByName at he
        rw [hcat] at he
        exact mem_kDefaults_of_findEntry name e he
    · rintro entries ⟨f, j, hp, ho, hc, he⟩
      have hbody := reloadBody_loadable
        { st with initialized := true, catalog := buildCompiledDefaults } w [] f j entries
        hp ho hc he
      have hcat : (ensureInitialized st w).catalog
          = entries.foldl mergeItem buildCompiledDefaults := by
        rw [hseed, hbody]
      refine ⟨hcat, ?_, ?_⟩
      · rw [GetEffectiveConfigPath, hseed, hbody]
        rfl
      · intro row hrow hname
        unfold LookupEntryByName
        rw [hcat, foldl_mergeItem, findEntry_foldl_applyPatch_of_not_mem _ _ _ hname]
        exact findEntry_buildCompiledDefaults row hrow
  · intro later w2 hlater
    have hens := ensureInitialized_of_initialized later w2 hlater
    refine ⟨hens, ?_, ?_, ?_⟩
    · intro path
      unfold ReloadMappingFromJson
      rw [hens]
      exact ⟨rfl, by rw [(reloadBody_frame later w2 path).1]; exact hlater⟩
    · intro err queryId
      unfold FromTrinoJson
      simp only [hens]
      exact ⟨trivial, maybeAutoReloadFromDisk_initialized later w2 hlater⟩
    · intro dir
      exact hlater

/-- C31 (amended): in every state reachable from program start through the
entry points of the handler, `GetEffectiveConfigPath` returns the empty string
when no call of `ReloadMappingFromJson` has returned true, and otherwise the
file of the most recent call that did, the calls made inside
`ensureInitialized` and `maybeAutoReloadFromDisk` included. A call of
`ReloadMappingFromJson` returns true exactly when its file is found, opens,
parses and holds an `entries` array, and then the effective path is that file.
A call that returns false leaves the globals as the `ensureInitialized` at its
start left them: on an initialised handler the effective path, the recorded
modification time and the loaded-once flag are unchanged. -/
theorem effective_path_bookkeeping :
    (∀ (st : HandlerState) (last : Option Str), History st last →
      GetEffectiveConfigPath st = last.getD [] ∧ st.loaded_once = last.isSome) ∧
    (∀ (st : HandlerState) (w : World) (path : Str),
      ((ReloadMappingFromJson st w path).2.1 = true ↔
        ∃ entries, loadable w (reloadFile st w path) entries) ∧
      ((ReloadMappingFromJson st w path).2.1 = true →
        GetEffectiveConfigPath (ReloadMappingFromJson st w path).1 = reloadFile st w path) ∧
      ((ReloadMappingFromJson st w path).2.1 = false →
        (ReloadMappingFromJson st w path).1 = ensureInitialized st w ∧
        (st.initialized = true →
          (ReloadMappingFromJson st w path).1.effective_path = st.effective_path ∧
          (ReloadMappingFromJson st w path).1.last_mtime = st.last_mtime ∧
          (ReloadMappingFromJson st w path).1.loaded_once = st.loaded_once))) := by
  refine ⟨fun st last h => Booked_of_History st last h, ?_⟩
  intro st w path
  have hfile : reloadFile (ensureInitialized st w) w path = reloadFile st w path :=
    reloadFile_congr st _ w path (ensureInitialized_frame st w).2
  refine ⟨?_, ?_, ?_⟩
  · unfold ReloadMappingFromJson
    rw [reloadBody_true_iff, hfile]
  · intro hok
    unfold ReloadMappingFromJson at hok ⊢
    rw [GetEffectiveConfigPath, (reloadBody_true _ w path hok).1, hfile]
  · intro hfalse
    unfold ReloadMappingFromJson at hfalse ⊢
    rw [reloadBody_false _ w path hfalse]
    refine ⟨rfl, fun hinit => ?_⟩
    rw [ensureInitialized_of_initialized st w hinit]
    exact ⟨rfl, rfl, rfl⟩

set_option maxRecDepth 1000000 in
/-- Counterexample to C31 as stated: as the first call of a process whose
working directory holds the default override file, a reload of a file that does
not exist returns false, yet the effective path goes from empty to
"trino_odbc_errors.json", the recorded modification time from 0 to 17 and the
loaded-once flag from false to true. -/
theorem effective_path_counterexample :
    (ReloadMappingFromJson HandlerState.initial overrideWorld "missing.json".toList).2.1 = false ∧
    GetEffectiveConfigPath HandlerState.initial = [] ∧
    GetEffectiveConfigPath
        (ReloadMappingFromJson HandlerState.initial overrideWorld "missing.json".toList).1
      = "trino_odbc_errors.json".toList ∧
    HandlerState.initial.last_mtime = 0 ∧
    (ReloadMappingFromJson HandlerState.initial overrideWorld "missing.json".toList).1.last_mtime
      = 17 ∧
    HandlerState.initial.loaded_once = false ∧
    (ReloadMappingFromJson HandlerState.initial overrideWorld "missing.json".toList).1.loaded_once
      = true := by
  refine ⟨by decide, rfl, by decide, rfl, by decide, rfl, by decide⟩

/-- C32 (amended): for every stored error and capacity `L`, with the budget
`L - 1` (0 when `L ≤ 0`), every pass `k` of the outer loop builds the chunk
that opens with one newline byte and holds the lines from its start up to the
start of the next pass; line `m` from the start on is in the chunk if and only
if the opening newline byte plus the contributions (length plus one
terminator) of the lines from the start up to and including `m` stay within
the budget. So a chunk ends before a line only if adding that line would take
the accumulated length, opening byte included, above the budget. -/
theorem greedy_budget_rule (odbcErr : OdbcError) (BufferLength : Int) (k : Nat) :
    chunkStart (buildLines odbcErr) (chunkSizeOf BufferLength) k
      ≤ chunkStart (buildLines odbcErr) (chunkSizeOf BufferLength) (k + 1) ∧
    chunkStart (buildLines odbcErr) (chunkSizeOf BufferLength) (k + 1)
      ≤ (buildLines odbcErr).length ∧
    (fillChunk (buildLines odbcErr) (chunkSizeOf BufferLength)
        (chunkStart (buildLines odbcErr) (chunkSizeOf BufferLength) k)).2
      = '\n' :: joinLines (((buildLines odbcErr).drop
          (chunkStart (buildLines odbcErr) (chunkSizeOf BufferLength) k)).take
          (chunkStart (buildLines odbcErr) (chunkSizeOf BufferLength) (k + 1)
            - chunkStart (buildLines odbcErr) (chunkSizeOf BufferLength) k)) ∧
    (∀ m, chunkStart (buildLines odbcErr) (chunkSizeOf BufferLength) k ≤ m →
      m < (buildLines odbcErr).length →
      (m < chunkStart (buildLines odbcErr) (chunkSizeOf BufferLength) (k + 1) ↔
        1 + (joinLines (((buildLines odbcErr).drop
            (chunkStart (buildLines odbcErr) (chunkSizeOf BufferLength) k)).take
            (m + 1 - chunkStart (buildLines odbcErr) (chunkSizeOf BufferLength) k))).length
          ≤ chunkSizeOf BufferLength)) ∧
    (0 < BufferLength → BufferLength ≤ 32767 →
      (chunkSizeOf BufferLength : Int) = BufferLength - 1) ∧
    (BufferLength ≤ 0 → chunkSizeOf BufferLength = 0) := by
  refine ⟨?_, chunkStart_le_length _ _ _, ?_, ?_, ?_, chunkSizeOf_of_nonpos BufferLength⟩
  · rw [chunkStart_succ]
    exact le_nextStart _ _ _
  · rw [fillChunk_eq, chunkStart_succ, nextStart_eq, Nat.add_sub_cancel_left]
  · intro m hm hlen
    rw [chunkStart_succ, nextStart_eq]
    generalize chunkStart (buildLines odbcErr) (chunkSizeOf BufferLength) k = i at hm ⊢
    have hn : m - i < ((buildLines odbcErr).drop i).length := by
      rw [List.length_drop]
      omega
    have h := takeCount_iff (chunkSizeOf BufferLength) ((buildLines odbcErr).drop i) 1 (m - i)
      (by omega) hn
    have e : m + 1 - i = m - i + 1 := by omega
    rw [e, ← h]
    omega
  · intro h1 h2
    rw [chunkSizeOf_of_pos BufferLength h1 (by omega)]
    omega

set_option maxRecDepth 100000 in
/-- Counterexample to C32 as stated: for the sample error under capacity 46
the budget is 45 and the first two lines contribute 36 + 9 = 45, which stays
within the budget, yet the first chunk ends before the second line, which
opens the second chunk; the first chunk is not the last one. -/
theorem greedy_budget_counterexample :
    chunkSizeOf 46 = 45 ∧
    ((buildLines sampleError).take 2).map (fun l => l.length + 1) = [36, 9] ∧
    (joinLines ((buildLines sampleError).take 2)).length = 45 ∧
    chunkStart (buildLines sampleError) (chunkSizeOf 46) 0 = 0 ∧
    chunkStart (buildLines sampleError) (chunkSizeOf 46) 1 = 1 ∧
    chunkStart (buildLines sampleError) (chunkSizeOf 46) 2 = 4 ∧
    (buildLines sampleError).length = 8 := by
  decide

set_option maxRecDepth 100000 in
/-- C33: for every stored error, the lines the retrieval partitions are the
lines of the summary `OdbcErrorToString(err, false)` followed by one line per
stack entry, in stack order, each behind one tab. The lines of the summary are
its split at newlines: they hold no newline, joined with a newline after each
they give the summary, they are the only such sequence, and there is one for
every newline of the summary, so a message with a newline inside contributes
two lines. Every selected chunk is a newline byte and a run of consecutive
lines of this sequence. -/
theorem rendered_line_sequence (odbcErr : OdbcError) :
    buildLines odbcErr
      = getlines (OdbcErrorToString odbcErr false)
        ++ odbcErr.stack.map (fun entry => "\t".toList ++ entry) ∧
    (∀ l ∈ getlines (OdbcErrorToString odbcErr false), '\n' ∉ l) ∧
    joinLines (getlines (OdbcErrorToString odbcErr false)) = OdbcErrorToString odbcErr false ∧
    (∀ ls : List Str, (∀ l ∈ ls, '\n' ∉ l) →
      joinLines ls = OdbcErrorToString odbcErr false →
      ls = getlines (OdbcErrorToString odbcErr false)) ∧
    (getlines (OdbcErrorToString odbcErr false)).length
      = (OdbcErrorToString odbcErr false).count '\n' ∧
    (∀ RecNumber BufferLength : Int, ∃ start count,
      selectedChunk odbcErr RecNumber BufferLength = '\n' :: joinLines
        (((getlines (OdbcErrorToString odbcErr false)
          ++ odbcErr.stack.map (fun entry => "\t".toList ++ entry)).drop start).take count)) ∧
    buildLines twoLineError
      = ["Trino Error Information(queryId:q1)".toList, "\tret: -1".toList,
         "\tsqlstate: 42000".toList, "\tnative: 4".toList, "\tdescription: d".toList,
         "\tmessage: first".toList, "second".toList, "\tat a.b".toList] := by
  have hjoin := joinLines_getlines (OdbcErrorToString odbcErr false)
    (Or.inr (OdbcErrorToString_ends odbcErr))
  have hfree := newline_not_mem_getlines (OdbcErrorToString odbcErr false)
  refine ⟨rfl, hfree, hjoin, ?_, ?_, ?_, by decide⟩
  · intro ls hls hj
    rw [← hj, getlines_joinLines ls hls]
  · conv_rhs => rw [← hjoin]
    rw [count_newline_joinLines _ hfree]
  · intro RecNumber BufferLength
    exact ⟨_, _, selectedChunk_eq odbcErr RecNumber BufferLength⟩

/-- C34: for every stored error, every capacity and every record number
`K` from 1 to 32767, the outer loop of the statement branch ends within `K`
passes: run with fuel `K` it gives the result it gives with any larger fuel,
and the call returns. With capacity 0, where no pass advances the line index,
the loop needs all `K` passes: fuel `K - 1` does not finish it. -/
theorem chunk_search_terminates (odbcErr : OdbcError) (BufferLength RecNumber : Int)
    (SqlStatePtr : Option Str) (NativeErrorPtr : Option Int)
    (MessageTextPtr : Option (List Char)) (TextLengthPtr : Option Int)
    (hK : 1 ≤ RecNumber) (hsmall : isSmallInt RecNumber) :
    (∃ r, chunkLoop (buildLines odbcErr) (chunkSizeOf BufferLength) (toSizeT RecNumber)
      RecNumber.toNat 0 1 = some r) ∧
    chunkLoop (buildLines odbcErr) (chunkSizeOf BufferLength) (toSizeT RecNumber)
        RecNumber.toNat 0 1
      = chunkLoop (buildLines odbcErr) (chunkSizeOf BufferLength) (toSizeT RecNumber)
        loopFuel 0 1 ∧
    (∃ r, SQLGetDiagRec SQL_HANDLE_STMT (stmtWithError odbcErr) RecNumber SqlStatePtr
      NativeErrorPtr MessageTextPtr BufferLength TextLengthPtr = .ok r) ∧
    (BufferLength ≤ 0 →
      chunkLoop (buildLines odbcErr) (chunkSizeOf BufferLength) (toSizeT RecNumber)
        (RecNumber.toNat - 1) 0 1 = none) := by
  have hsz : toSizeT RecNumber = RecNumber.toNat := by
    unfold toSizeT
    unfold isSmallInt at hsmall
    omega
  have hlt : RecNumber.toNat < 18446744073709551616 := by
    unfold isSmallInt at hsmall
    omega
  have hpos : 0 < RecNumber.toNat := by omega
  have hfuel : (18446744073709551616 - 1 + RecNumber.toNat) % 18446744073709551616
      < RecNumber.toNat := by omega
  have h1 := chunkLoop_eq (buildLines odbcErr) (chunkSizeOf BufferLength) RecNumber.toNat hlt
    RecNumber.toNat 0 1 (by omega) hfuel
  have h2 := chunkLoop_eq (buildLines odbcErr) (chunkSizeOf BufferLength) RecNumber.toNat hlt
    loopFuel 0 1 (by omega) (by unfold loopFuel; omega)
  rw [hsz]
  refine ⟨⟨_, h1⟩, by rw [h1, h2], ?_, ?_⟩
  · obtain ⟨r, hr, -⟩ := statementDiag_returns odbcErr RecNumber SqlStatePtr NativeErrorPtr
      MessageTextPtr BufferLength TextLengthPtr
    exact ⟨r, hr⟩
  · intro hL
    obtain ⟨first, hfirst⟩ : ∃ first, (buildLines odbcErr)[0]? = some first := by
      cases hb : buildLines odbcErr with
      | nil => exact absurd hb (buildLines_ne_nil odbcErr)
      | cons a l => exact ⟨a, by simp⟩
    rw [chunkSizeOf_of_nonpos BufferLength hL]
    exact chunkLoop_stuck_none _ _ first hfirst 0 (by omega) _ 1 (by omega) hlt

set_option maxRecDepth 100000 in
/-- Witness of C34: record 3 of the sample error under capacity 0, where the
line index never advances: three passes finish the loop, two do not. -/
theorem chunk_search_terminates_witness :
    ((∃ r, chunkLoop (buildLines sampleError) (chunkSizeOf 0) (toSizeT 3)
      (3 : Int).toNat 0 1 = some r) ∧
    chunkLoop (buildLines sampleError) (chunkSizeOf 0) (toSizeT 3) (3 : Int).toNat 0 1
      = chunkLoop (buildLines sampleError) (chunkSizeOf 0) (toSizeT 3) loopFuel 0 1 ∧
    (∃ r, SQLGetDiagRec SQL_HANDLE_STMT (stmtWithError sampleError) 3 none none none 0 none
      = .ok r) ∧
    ((0 : Int) ≤ 0 →
      chunkLoop (buildLines sampleError) (chunkSizeOf 0) (toSizeT 3) ((3 : Int).toNat - 1) 0 1
        = none)) ∧
    chunkLoop (buildLines sampleError) (chunkSizeOf 0) (toSizeT 3) 3 0 1 = some (true, ['\n']) ∧
    chunkLoop (buildLines sampleError) (chunkSizeOf 0) (toSizeT 3) 2 0 1 = none :=
  ⟨chunk_search_terminates sampleError 0 3 none none none none (by decide) (by decide),
    by decide, by decide⟩

/-- C35: for every stored error, every capacity (zero and negative values
included) and all output pointers, a request for record 1 on the statement
handle returns a record: the status is `SQL_SUCCESS`, a supplied state buffer
holds the SQLSTATE of the error, a supplied native-code slot its native code, a
supplied length slot the number of bytes to copy, and the message buffer, when
supplied with a positive capacity, receives the stores of the copy of the
selected chunk. That chunk is a newline byte followed by the first lines of the
rendered sequence, the first line among them whenever it fits the budget behind
the opening byte. With a buffer of at least `L ≥ 2` bytes and no NUL byte in
the chunk the message read back is the whole chunk and the length reported is
its length. The summary always has a first line, so the lines are never
empty. -/
theorem first_record_exists (odbcErr : OdbcError) (BufferLength : Int)
    (SqlStatePtr : Option Str) (NativeErrorPtr : Option Int)
    (MessageTextPtr : Option (List Char)) (TextLengthPtr : Option Int) :
    (∃ r, SQLGetDiagRec SQL_HANDLE_STMT (stmtWithError odbcErr) 1 SqlStatePtr
      NativeErrorPtr MessageTextPtr BufferLength TextLengthPtr = .ok r ∧
      r.ret = SQL_SUCCESS ∧
      r.slots.SqlState = SqlStatePtr.map (fun _ => odbcErr.sqlstate) ∧
      r.slots.NativeError = NativeErrorPtr.map (fun _ => odbcErr.native) ∧
      r.slots.TextLength = TextLengthPtr.map (fun _ => toSmallInt
        (min (selectedChunk odbcErr 1 BufferLength).length (chunkSizeOf BufferLength))) ∧
      r.messageStores =
        (if MessageTextPtr.isSome ∧ BufferLength > 0 then
          copyStores (selectedChunk odbcErr 1 BufferLength)
            (min (selectedChunk odbcErr 1 BufferLength).length (chunkSizeOf BufferLength))
         else []) ∧
      r.slots.MessageText = MessageTextPtr.map (fun buf => applyStores buf r.messageStores)) ∧
    selectedChunk odbcErr 1 BufferLength = '\n' :: joinLines ((buildLines odbcErr).take
      (chunkStart (buildLines odbcErr) (chunkSizeOf BufferLength) 1)) ∧
    (∀ first, (buildLines odbcErr)[0]? = some first →
      first.length + 2 ≤ chunkSizeOf BufferLength →
      0 < chunkStart (buildLines odbcErr) (chunkSizeOf BufferLength) 1) ∧
    (∀ buf, MessageTextPtr = some buf → 2 ≤ BufferLength → isSmallInt BufferLength →
      BufferLength.toNat ≤ buf.length → NUL ∉ selectedChunk odbcErr 1 BufferLength →
      messageOf (SQLGetDiagRec SQL_HANDLE_STMT (stmtWithError odbcErr) 1 SqlStatePtr
        NativeErrorPtr MessageTextPtr BufferLength TextLengthPtr)
        = selectedChunk odbcErr 1 BufferLength ∧
      lengthOf (SQLGetDiagRec SQL_HANDLE_STMT (stmtWithError odbcErr) 1 SqlStatePtr
        NativeErrorPtr MessageTextPtr BufferLength TextLengthPtr)
        = TextLengthPtr.map
            (fun _ => ((selectedChunk odbcErr 1 BufferLength).length : Int))) ∧
    getlines (OdbcErrorToString odbcErr false) ≠ [] ∧
    buildLines odbcErr ≠ [] := by
  have h0 : passOf 1 = 0 := by decide
  have hs : chunkStart (buildLines odbcErr) (chunkSizeOf BufferLength) (passOf 1)
      < (buildLines odbcErr).length := by
    rw [h0]
    exact buildLines_length_pos odbcErr
  refine ⟨⟨_, first_record odbcErr BufferLength SqlStatePtr NativeErrorPtr MessageTextPtr
    TextLengthPtr, rfl, rfl, rfl, rfl, rfl, rfl⟩, selectedChunk_first odbcErr BufferLength,
    ?_, ?_, ?_, buildLines_ne_nil odbcErr⟩
  · intro first hfirst hfit
    rw [chunkStart_succ, nextStart_eq, chunkStart_zero]
    generalize buildLines odbcErr = lines at hfirst ⊢
    generalize chunkSizeOf BufferLength = cs at hfit ⊢
    cases lines with
    | nil => simp at hfirst
    | cons a l =>
      have ha : a = first := by simpa using hfirst
      subst ha
      have := takeCount_pos cs a l hfit
      rw [List.drop_zero]
      omega
  · intro buf hbuf hL hsmall hcap hnul
    subst hbuf
    have hm := message_of_record odbcErr 1 BufferLength buf SqlStatePtr NativeErrorPtr
      TextLengthPtr hL hsmall hcap hs hnul
    refine ⟨hm.2, ?_⟩
    rw [first_record]
    have hcs : chunkSizeOf BufferLength = BufferLength.toNat - 1 :=
      chunkSizeOf_of_pos BufferLength (by omega) (by unfold isSmallInt at hsmall; omega)
    have hlen : (selectedChunk odbcErr 1 BufferLength).length
        ≤ max (chunkSizeOf BufferLength) 1 := by
      rw [selectedChunk]; exact fillChunk_length _ _ _
    have hmin : min (selectedChunk odbcErr 1 BufferLength).length (chunkSizeOf BufferLength)
        = (selectedChunk odbcErr 1 BufferLength).length := by omega
    have hsm := toSmallInt_of_le (selectedChunk odbcErr 1 BufferLength).length
      (by unfold isSmallInt at hsmall; omega)
    simp only [lengthOf, hmin, hsm]
  · have h : "Trino Error Information(queryId:".toList
        = 'T' :: "rino Error Information(queryId:".toList := by rfl
    unfold OdbcErrorToString
    rw [h]
    simp only [List.cons_append, List.append_assoc]
    exact getlines_cons_ne_nil _ _

/-- C36 (amended): for every stored error, capacity `L` of the 16-bit type
and record number for which a record is returned, the reported length is
`min (length of the chunk) (budget)`, lies in [0, 32766] and is stored in the
16-bit slot without wrap-around. When the selected chunk holds at least one
line, its length is at most `L - 1`, so the reported length is the length of
the chunk, and, with a message buffer of at least `L` bytes supplied and no NUL
byte in the chunk, the message copied is the whole chunk. -/
theorem truncation_never_cuts (odbcErr : OdbcError) (RecNumber BufferLength : Int)
    (SqlStatePtr : Option Str) (NativeErrorPtr : Option Int)
    (MessageTextPtr : Option (List Char)) (TextLengthPtr : Option Int)
    (hsmall : isSmallInt BufferLength)
    (hs : chunkStart (buildLines odbcErr) (chunkSizeOf BufferLength) (passOf RecNumber)
        < (buildLines odbcErr).length) :
    ∃ r n, SQLGetDiagRec SQL_HANDLE_STMT (stmtWithError odbcErr) RecNumber SqlStatePtr
        NativeErrorPtr MessageTextPtr BufferLength TextLengthPtr = .ok r ∧
      r.ret = SQL_SUCCESS ∧
      n = min (selectedChunk odbcErr RecNumber BufferLength).length (chunkSizeOf BufferLength) ∧
      n ≤ 32766 ∧ toSmallInt n = (n : Int) ∧
      r.slots.TextLength = TextLengthPtr.map (fun _ => (n : Int)) ∧
      (chunkStart (buildLines odbcErr) (chunkSizeOf BufferLength) (passOf RecNumber)
          < chunkStart (buildLines odbcErr) (chunkSizeOf BufferLength) (passOf RecNumber + 1) →
        ((selectedChunk odbcErr RecNumber BufferLength).length : Int) ≤ BufferLength - 1 ∧
        n = (selectedChunk odbcErr RecNumber BufferLength).length ∧
        (∀ buf, MessageTextPtr = some buf → BufferLength.toNat ≤ buf.length →
          NUL ∉ selectedChunk odbcErr RecNumber BufferLength →
          messageOf (SQLGetDiagRec SQL_HANDLE_STMT (stmtWithError odbcErr) RecNumber
            SqlStatePtr NativeErrorPtr MessageTextPtr BufferLength TextLengthPtr)
            = selectedChunk odbcErr RecNumber BufferLength)) := by
  obtain ⟨r, hr, -, hiff, hlen⟩ := statementDiag_returns odbcErr RecNumber SqlStatePtr
    NativeErrorPtr MessageTextPtr BufferLength TextLengthPtr
  obtain ⟨hcs, hcspos⟩ := chunkSizeOf_le BufferLength hsmall
  have hret := hiff.mpr hs
  have hn : min (selectedChunk odbcErr RecNumber BufferLength).length (chunkSizeOf BufferLength)
      ≤ 32766 := by omega
  have hsm := toSmallInt_of_le _ (show min (selectedChunk odbcErr RecNumber BufferLength).length
    (chunkSizeOf BufferLength) ≤ 32767 by omega)
  refine ⟨r, _, hr, hret, rfl, hn, hsm, ?_, ?_⟩
  · rw [hlen hret, hsm]
  · intro hline
    obtain ⟨h2, hle⟩ := selectedChunk_with_line odbcErr RecNumber BufferLength hs hline
    have hLpos : 0 < BufferLength := by
      by_contra hcon
      have := chunkSizeOf_of_nonpos BufferLength (by omega)
      omega
    have hcs2 := hcspos hLpos
    refine ⟨by omega, by omega, ?_⟩
    intro buf hbuf hcap hnul
    subst hbuf
    exact (message_of_record odbcErr RecNumber BufferLength buf SqlStatePtr NativeErrorPtr
      TextLengthPtr (by omega) hsmall hcap hs hnul).2

set_option maxRecDepth 100000 in
/-- Witness of C36: record 1 of the sample error under capacity 80: the chunk
holds four lines and 74 bytes, 74 is reported and the message is the chunk. -/
theorem truncation_never_cuts_witness :
    (∃ r n, SQLGetDiagRec SQL_HANDLE_STMT (stmtWithError sampleError) 1 none none
        (some (List.replicate 80 'x')) 80 (some 0) = .ok r ∧
      r.ret = SQL_SUCCESS ∧
      n = min (selectedChunk sampleError 1 80).length (chunkSizeOf 80) ∧
      n ≤ 32766 ∧ toSmallInt n = (n : Int) ∧
      r.slots.TextLength = (some (0 : Int)).map (fun _ => (n : Int)) ∧
      (chunkStart (buildLines sampleError) (chunkSizeOf 80) (passOf 1)
          < chunkStart (buildLines sampleError) (chunkSizeOf 80) (passOf 1 + 1) →
        ((selectedChunk sampleError 1 80).length : Int) ≤ 80 - 1 ∧
        n = (selectedChunk sampleError 1 80).length ∧
        (∀ buf, some (List.replicate 80 'x') = some buf → (80 : Int).toNat ≤ buf.length →
          NUL ∉ selectedChunk sampleError 1 80 →
          messageOf (SQLGetDiagRec SQL_HANDLE_STMT (stmtWithError sampleError) 1
            none none (some (List.replicate 80 'x')) 80 (some 0))
            = selectedChunk sampleError 1 80))) ∧
    chunkStart (buildLines sampleError) (chunkSizeOf 80) (passOf 1) = 0 ∧
    chunkStart (buildLines sampleError) (chunkSizeOf 80) (passOf 1 + 1) = 4 ∧
    (selectedChunk sampleError 1 80).length = 74 ∧
    lengthOf (SQLGetDiagRec SQL_HANDLE_STMT (stmtWithError sampleError) 1 none none
      (some (List.replicate 80 'x')) 80 (some 0)) = some 74 ∧
    messageOf (SQLGetDiagRec SQL_HANDLE_STMT (stmtWithError sampleError) 1 none none
      (some (List.replicate 80 'x')) 80 (some 0)) = selectedChunk sampleError 1 80 :=
  ⟨truncation_never_cuts sampleError 1 80 none none (some (List.replicate 80 'x')) (some 0)
    (by decide) (by decide), by decide, by decide, by decide, by decide, by decide⟩

set_option maxRecDepth 100000 in
/-- Counterexample to C36 as stated: the message of `nulError` holds a NUL
byte. Under capacity 200 the chunk of record 1 holds six lines and 120 bytes,
which is at most 199, and 120 is reported, but the message copied has 117
bytes: it is not the whole chunk. -/
theorem truncation_never_cuts_counterexample :
    chunkStart (buildLines nulError) (chunkSizeOf 200) (passOf 1) = 0 ∧
    chunkStart (buildLines nulError) (chunkSizeOf 200) (passOf 1 + 1) = 6 ∧
    (selectedChunk nulError 1 200).length = 120 ∧
    retOf (SQLGetDiagRec SQL_HANDLE_STMT (stmtWithError nulError) 1 none none
      (some (List.replicate 200 'x')) 200 (some 0)) = some SQL_SUCCESS ∧
    lengthOf (SQLGetDiagRec SQL_HANDLE_STMT (stmtWithError nulError) 1 none none
      (some (List.replicate 200 'x')) 200 (some 0)) = some 120 ∧
    (messageOf (SQLGetDiagRec SQL_HANDLE_STMT (stmtWithError nulError) 1 none none
      (some (List.replicate 200 'x')) 200 (some 0))).length = 117 ∧
    messageOf (SQLGetDiagRec SQL_HANDLE_STMT (stmtWithError nulError) 1 none none
      (some (List.replicate 200 'x')) 200 (some 0)) ≠ selectedChunk nulError 1 200 := by
  decide

/-- C38 (amended): for every payload that carries name and category as
strings and an integer `errorCode`, with a message that is absent or a string
and stack frames that are strings, and every state of the globals, the native
code of the record is the `errorCode` of the payload converted to the 32-bit
`SQLINTEGER`: the `errorCode` itself whenever it lies in the 32-bit range,
whatever numeric code the catalog entry of the name records. -/
theorem native_code_from_payload (st : HandlerState) (w : World) (err : Json)
    (queryId name type : Str) (n : Int) (upstream : Option Str) (stack : List Str)
    (hname : err.get? "errorName".toList = some (.str name))
    (htype : err.get? "errorType".toList = some (.str type))
    (hcode : err.get? "errorCode".toList = some (.int n))
    (hmessage : err.get? "message".toList = upstream.map Json.str)
    (hstack : parseStack err = .ok stack) :
    ∃ r, (FromTrinoJson st w err queryId).2 = .ok r ∧ r.native = toInt32 n ∧
      (-2147483648 ≤ n → n ≤ 2147483647 → r.native = n) := by
  refine ⟨_, FromTrinoJson_of_carries st w err queryId name type (toInt32 n) upstream stack
    ⟨hname, htype, ⟨_, hcode, rfl⟩, hmessage, hstack⟩, rfl, ?_⟩
  intro h1 h2
  show toInt32 n = n
  unfold toInt32
  omega

set_option maxRecDepth 1000000 in
/-- Witness of C38: the compiled entry of "TABLE_NOT_FOUND" records the code
46; a payload of that name with code 99 gives the native code 99. -/
theorem native_code_from_payload_witness :
    (∃ r, (FromTrinoJson HandlerState.initial bareWorld tableNotFound99 "q7".toList).2 = .ok r ∧
      r.native = toInt32 99 ∧
      (-2147483648 ≤ (99 : Int) → (99 : Int) ≤ 2147483647 → r.native = 99)) ∧
    (LookupEntryByName (FromTrinoJson HandlerState.initial bareWorld tableNotFound99
        "q7".toList).1 "TABLE_NOT_FOUND".toList).map (fun row => row.trino_code) = some 46 ∧
    ((FromTrinoJson HandlerState.initial bareWorld tableNotFound99 "q7".toList).2.toOption.map
      (fun r => r.native)) = some 99 :=
  ⟨native_code_from_payload HandlerState.initial bareWorld tableNotFound99 "q7".toList
    "TABLE_NOT_FOUND".toList "USER_ERROR".toList 99 none [] rfl rfl rfl rfl rfl,
    by decide, by decide⟩

set_option maxRecDepth 1000000 in
/-- Counterexample to C38 as stated, in two payloads. First, the payload
carries name, category and the `errorCode` 4294967301; the native code of the
record is 5. Second, the payload of Scenario B (`errorCode` 4) with the member
`message` holding `null`: the call ends with the exception `type_error`
(line 603) and returns no record, so no native code; the same happens when a
stack frame, the name, the category or the code has a type the translation does
not read. -/
theorem native_code_counterexample :
    wideErrorCode.get? "errorName".toList = some (.str "TABLE_NOT_FOUND".toList) ∧
    wideErrorCode.get? "errorType".toList = some (.str "USER_ERROR".toList) ∧
    wideErrorCode.get? "errorCode".toList = some (.int 4294967301) ∧
    ((FromTrinoJson HandlerState.initial bareWorld wideErrorCode "q7".toList).2.toOption.map
      (fun r => r.native)) = some 5 ∧
    (5 : Int) ≠ 4294967301 ∧
    hasRequired nullMessage = true ∧
    nullMessage.get? "errorCode".toList = some (.int 4) ∧
    faultOf (FromTrinoJson HandlerState.initial bareWorld nullMessage "q7".toList).2
      = some Fault.typeError ∧
    ((FromTrinoJson HandlerState.initial bareWorld nullMessage "q7".toList).2.toOption.map
      (fun r => r.native)) = none ∧
    (∀ err ∈ illTypedPayloads, hasRequired err = true ∧
      faultOf (FromTrinoJson warningState bareWorld err "q7".toList).2
        = some Fault.typeError) := by
  refine ⟨rfl, rfl, rfl, by decide, by decide, by decide, rfl, by decide, by decide,
    by decide⟩

/-- C39: for every reachable state of the globals and every reload whose file
is found, opens, parses and holds the array `entries`, the reload returns true,
every name that had an entry before the call has one afterwards, and every
such name that is not the name of an entry of `entries` that is an object with
a string name keeps exactly the entry it had; on an initialised handler the
lookup of every name that no such entry names is unchanged, also when it had
no entry. -/
theorem reload_frame (st : HandlerState) (w : World) (path : Str) (entries : List Json)
    (hreach : Reachable st) (hload : loadable w (reloadFile st w path) entries) :
    (ReloadMappingFromJson st w path).2.1 = true ∧
    (∀ name e, LookupEntryByName st name = some e →
      (∃ e2, LookupEntryByName (ReloadMappingFromJson st w path).1 name = some e2) ∧
      (name ∉ overrideNames entries →
        LookupEntryByName (ReloadMappingFromJson st w path).1 name = some e)) ∧
    (st.initialized = true → ∀ name, name ∉ overrideNames entries →
      LookupEntryByName (ReloadMappingFromJson st w path).1 name
        = LookupEntryByName st name) ∧
    (∀ name, name ∈ overrideNames entries ↔
      ∃ item ∈ entries, item.get? "name".toList = some (.str name)) := by
  obtain ⟨f, j, hp, ho, hc, he⟩ := hload
  have hrel := ReloadMappingFromJson_loadable st w path f j entries hp ho hc he
  have hcatalog : (ReloadMappingFromJson st w path).1.catalog
      = (entries.filterMap patchOf).foldl applyPatch (ensureInitialized st w).catalog := by
    rw [hrel, ← foldl_mergeItem]
  have hinit : st.initialized = true → ∀ name, name ∉ overrideNames entries →
      LookupEntryByName (ReloadMappingFromJson st w path).1 name
        = LookupEntryByName st name := by
    intro hi name hname
    unfold LookupEntryByName
    rw [hcatalog, ensureInitialized_of_initialized st w hi]
    exact findEntry_foldl_applyPatch_of_not_mem _ _ name hname
  refine ⟨by rw [hrel], ?_, hinit, mem_overrideNames entries⟩
  intro name e hlook
  have hi : st.initialized = true := by
    by_contra hcon
    have hnil := catalog_nil_of_Reachable st hreach (by simpa using hcon)
    unfold LookupEntryByName at hlook
    rw [hnil] at hlook
    cases hlook
  refine ⟨?_, fun hname => by rw [hinit hi name hname, hlook]⟩
  have hsome : (findEntry ((entries.filterMap patchOf).foldl applyPatch st.catalog) name).isSome
      = true := by
    apply findEntry_foldl_applyPatch_isSome
    unfold LookupEntryByName at hlook
    rw [hlook]
    rfl
  unfold LookupEntryByName
  rw [hcatalog, ensureInitialized_of_initialized st w hi]
  exact Option.isSome_iff_exists.mp hsome

set_option maxRecDepth 1000000 in
/-- Witness of C39: on an initialised handler with the compiled catalog, the
reload of the sample override file, which names "MY_ERROR" and
"TABLE_NOT_FOUND": "PERMISSION_DENIED" keeps its entry, "TABLE_NOT_FOUND" still
has one, with the SQLSTATE of the override. -/
theorem reload_frame_witness :
    Reachable (ensureInitialized HandlerState.initial bareWorld) ∧
    ((ReloadMappingFromJson (ensureInitialized HandlerState.initial bareWorld) overrideWorld
        []).2.1 = true ∧
    (∀ name e, LookupEntryByName (ensureInitialized HandlerState.initial bareWorld) name
        = some e →
      (∃ e2, LookupEntryByName (ReloadMappingFromJson
        (ensureInitialized HandlerState.initial bareWorld) overrideWorld []).1 name = some e2) ∧
      (name ∉ overrideNames (((sampleOverride.get? "entries".toList).map Json.items).getD []) →
        LookupEntryByName (ReloadMappingFromJson
          (ensureInitialized HandlerState.initial bareWorld) overrideWorld []).1 name
          = some e)) ∧
    ((ensureInitialized HandlerState.initial bareWorld).initialized = true →
      ∀ name, name ∉ overrideNames (((sampleOverride.get? "entries".toList).map Json.items).getD []) →
      LookupEntryByName (ReloadMappingFromJson
        (ensureInitialized HandlerState.initial bareWorld) overrideWorld []).1 name
        = LookupEntryByName (ensureInitialized HandlerState.initial bareWorld) name) ∧
    (∀ name, name ∈ overrideNames (((sampleOverride.get? "entries".toList).map Json.items).getD []) ↔
      ∃ item ∈ (((sampleOverride.get? "entries".toList).map Json.items).getD []),
        item.get? "name".toList = some (.str name))) ∧
    LookupEntryByName (ReloadMappingFromJson
      (ensureInitialized HandlerState.initial bareWorld) overrideWorld []).1
      "PERMISSION_DENIED".toList
      = some ⟨4, "PERMISSION_DENIED".toList, "42000".toList, "Permission denied".toList⟩ ∧
    LookupEntryByName (ReloadMappingFromJson
      (ensureInitialized HandlerState.initial bareWorld) overrideWorld []).1
      "TABLE_NOT_FOUND".toList
      = some ⟨46, "TABLE_NOT_FOUND".toList, "42S99".toList,
          "Base table or view not found".toList⟩ :=
  ⟨Reachable.ensure _ _ Reachable.start,
    reload_frame (ensureInitialized HandlerState.initial bareWorld) overrideWorld []
      (((sampleOverride.get? "entries".toList).map Json.items).getD [])
      (Reachable.ensure _ _ Reachable.start) ⟨_, _, rfl, rfl, rfl, rfl⟩,
    by decide, by decide⟩

/-- C40: for every payload in which `errorName`, `errorType` or `errorCode`
is absent, every correlation id, also a non-empty one, and whatever
`failureInfo` and `errorLocation` the payload carries, `FromTrinoJson` returns
a record with an empty correlation id, an empty stack, line and column unset,
and the description "Unexpected error payload". -/
theorem fallback_drops_context (st : HandlerState) (w : World) (err : Json) (queryId : Str)
    (hmissing : err.contains "errorName".toList = false ∨
      err.contains "errorType".toList = false ∨ err.contains "errorCode".toList = false) :
    ∃ r, (FromTrinoJson st w err queryId).2 = .ok r ∧
      r.queryId = [] ∧ r.stack = [] ∧ r.lineNumber = none ∧ r.columnNumber = none ∧
      r.description = "Unexpected error payload".toList :=
  ⟨_, translate_missing _ err queryId hmissing, rfl, rfl, rfl, rfl, rfl⟩

set_option maxRecDepth 1000000 in
/-- Witness of C40: a payload without `errorName` that carries a stack and a
location, translated with the correlation id "q7". -/
theorem fallback_drops_context_witness :
    (∃ r, (FromTrinoJson HandlerState.initial bareWorld missingNameWithContext
        "q7".toList).2 = .ok r ∧
      r.queryId = [] ∧ r.stack = [] ∧ r.lineNumber = none ∧ r.columnNumber = none ∧
      r.description = "Unexpected error payload".toList) ∧
    parseStack missingNameWithContext = .ok ["Stack:".toList, "\tat a".toList] ∧
    (locationOf missingNameWithContext).bind (fun l => locationField l "lineNumber".toList)
      = some 1 ∧
    "q7".toList ≠ [] :=
  ⟨fallback_drops_context HandlerState.initial bareWorld missingNameWithContext "q7".toList
    (Or.inl rfl), rfl, by decide, by decide⟩

end TrinoOdbc
